import Mathlib

/-! Client method synthesis of `writer/writer.go`.

A shallow embedding of the method-body synthesizer: `convertClientMethod`,
`setPathArgs`, `setQueryArgs`, `setOptQueryArgs`, `setHeaderArgs`,
`errSelectFunc` and `stringFor`.

* The `jen` builder is embedded as the tree of tokens it accumulates: a
  `*jen.Statement` is `Code.Stmt` applied to its tokens in call order, and a
  `*jen.Group` is the list of statements appended to it.
* A Go panic is `Except.error` carrying the panic message.
* A Go map is the list of its entries in enumeration order.
-/

namespace Writer

/-! ## The `pkg` data model -/

/-- Modelled from the spec: `pkg.Kind` is declared in package `pkg`; the five
transmission kinds of the data model, plus `Other` for any further value of
the Go type. -/
inductive Kind where
  | Path
  | Query
  | Header
  | Body
  | Opts
  | Other (tag : Nat)
  deriving DecidableEq, Repr

/-- Modelled from the spec: `pkg.Collection` is declared in package `pkg`;
`None` and `Multi`, plus `Other` for any further value of the Go type. -/
inductive Collection where
  | None
  | Multi
  | Other (tag : Nat)
  deriving DecidableEq, Repr

mutual
/-- Modelled from the spec: `pkg.Type` is declared in package `pkg`; the
tagged variant over identifier, pointer, slice, struct and iterator types. -/
inductive Ty where
  | IdentType (Name : String) (Marshal : Bool)
  | PointerType (Typ : Ty)
  | SliceType (Typ : Ty)
  | StructType (Fields : List Field)
  | IterType (Typ : Ty)
/-- Modelled from the spec: `pkg.Field` is declared in package `pkg`; a member
of an options struct. -/
inductive Field where
  | mk (ID : String) (Orig : String) (Kind : Kind) (Typ : Ty) (Collection : Collection)
end

/-- Field `ID` of a `pkg.Field`. -/
def Field.ID : Field → String
  | .mk i _ _ _ _ => i

/-- Field `Orig` of a `pkg.Field`. -/
def Field.Orig : Field → String
  | .mk _ o _ _ _ => o

/-- Field `Kind` of a `pkg.Field`. -/
def Field.Kind : Field → Kind
  | .mk _ _ k _ _ => k

/-- Field `Type` of a `pkg.Field`. -/
def Field.Typ : Field → Ty
  | .mk _ _ _ t _ => t

/-- Field `Collection` of a `pkg.Field`. -/
def Field.Collection : Field → Collection
  | .mk _ _ _ _ c => c

/-- Modelled from the spec: `pkg.Param` is declared in package `pkg`. -/
structure Param where
  ID : String
  Arg : String
  Orig : String
  Kind : Kind
  Typ : Ty
  Collection : Collection

/-- The receiver of a method (`m.Receiver.ID`, `m.Receiver.Type`). -/
structure Receiver where
  ID : String
  Typ : String

/-- Modelled from the spec: `pkg.Method` is declared in package `pkg`. The
`Errors` map is the list of its entries in enumeration order. -/
structure Method where
  Receiver : Receiver
  Name : String
  HTTPMethod : String
  Path : String
  Params : List Param
  Return : List Ty
  Comment : String
  Errors : List (Int × Ty)

/-- Modelled from the spec: `pkg.TypeDecl` is declared in package `pkg`. -/
structure TypeDecl where
  Name : String
  Comment : String
  Typ : Ty

/-- A Go map has one entry per key. -/
def NodupKeys (errors : List (Int × Ty)) : Prop :=
  (errors.map Prod.fst).Nodup

instance (errors : List (Int × Ty)) : Decidable (NodupKeys errors) := by
  unfold NodupKeys; infer_instance

/-! ## The `jen` builder -/

/-- The tokens a `jen` builder accumulates. `Stmt` is a `*jen.Statement`
(tokens in call order); `Block` holds the statements of a group. -/
inductive Code where
  | Comment (text : String)
  | Func
  | Var
  | Nil
  | Err
  | True
  | Line
  | Empty
  | Range
  | String
  | Int
  | Error
  | Default
  | Id (name : String)
  | Op (op : String)
  | Qual (path : String) (name : String)
  | Dot (name : String)
  | Lit (v : Int)
  | LitStr (v : String)
  | LitRune (c : Char)
  | Params (items : List Code)
  | Call (items : List Code)
  | Lst (items : List Code)
  | Dict (entries : List (Code × Code))
  | Values (items : List Code)
  | Block (items : List Code)
  | If (conds : List Code)
  | For (conds : List Code)
  | Switch (conds : List Code)
  | Case (conds : List Code)
  | Return (results : List Code)
  | Make (args : List Code)
  | Stmt (items : List Code)

/-- The parts of the repository the synthesizer calls that live outside
`writer/writer.go`. -/
structure Env where
  /-- Modelled from the spec: method `Equal` of `pkg.Type`, declared in
  package `pkg`; equality of error constructors. -/
  Equal : Ty → Ty → Bool
  /-- Modelled from the spec: `typeName` of package `writer`, declared in
  another file; the name a type is declared under. -/
  typeName : Ty → String
  /-- Modelled from the spec: `writeType` of package `writer`, declared in
  another file; the tokens `Do(writeType(t))` appends to a statement. -/
  writeType : Ty → List Code
  /-- Modelled from the spec: `initType` of package `writer`, declared in
  another file; the expression constructing an error value. -/
  initType : Ty → Code
  /-- Modelled from the spec: `formatComment` of package `writer`, declared in
  another file. -/
  formatComment : String → String

/-! ## `stringFor` -/

/-- The function `stringFor`: converts basic IdentTypes to strings. -/
def stringFor (typ : Ty) (id : Code) : Except String Code :=
  match typ with
  | .IdentType name _ =>
    if name = "int" then
      .ok (.Stmt [.Qual "strconv" "Itoa", .Call [id]])
    else if name = "float64" then
      .ok (.Stmt [.Qual "strconv" "FormatFloat",
        .Call [id, .Stmt [.LitRune 'f'], .Stmt [.Lit (-1)], .Stmt [.Lit 64]]])
    else if name = "bool" then
      .ok (.Stmt [.Qual "strconv" "FormatBool", .Call [id]])
    else
      .ok id
  | _ => .error "unknown type for string conversion"

/-- The test `t, ok := typ.(*pkg.IdentType); ok && t.Marshal`. -/
def isMarshal : Ty → Bool
  | .IdentType _ marshal => marshal
  | _ => false

/-- The statement `if err != nil { return errRet... }` emitted after a
`MarshalText` call. -/
def ifErrReturn (errRet : List Code) : Code :=
  .Stmt [.If [.Stmt [.Err, .Op "!=", .Nil]], .Block [.Stmt [.Return errRet]]]

/-! ## `setPathArgs` -/

/-- The loop `for _, fa := range args` of `setPathArgs`; the state is the
group `g` and the slice `pArgs`. -/
def setPathArgsLoop (errRet : List Code) :
    List Param → List Code → List Code → List Code × List Code
  | [], g, pArgs => (g, pArgs)
  | fa :: rest, g, pArgs =>
    if isMarshal fa.Typ then
      setPathArgsLoop errRet rest
        (g ++ [.Stmt [.Lst [.Stmt [.Id (fa.ID ++ "Bytes")], .Stmt [.Err]], .Op ":=",
                 .Id fa.ID, .Dot "MarshalText", .Call []],
               ifErrReturn errRet,
               .Stmt [.Line]])
        (pArgs ++ [.Stmt [.String, .Params [.Stmt [.Id (fa.ID ++ "Bytes")]]]])
    else
      setPathArgsLoop errRet rest g (pArgs ++ [.Stmt [.Id fa.ID]])

/-- The function `setPathArgs`; returns the statements appended to `g`. -/
def setPathArgs (errRet : List Code) (path : String) (args : List Param) : List Code :=
  if args.length = 0 then
    [.Stmt [.Id "p", .Op ":=", .LitStr path]]
  else
    let r := setPathArgsLoop errRet args [] [.Stmt [.LitStr path]]
    r.1 ++ [.Stmt [.Id "p", .Op ":=", .Qual "fmt" "Sprintf", .Call r.2]]

/-! ## `setQueryArgs` -/

/-- The wire name: `orig := q.ID; if q.Orig != "" { orig = q.Orig }`. -/
def wireName (id orig : String) : String :=
  if orig ≠ "" then orig else id

/-- The statements of the `For(...).BlockFunc` body shared by the `Multi`
case of `setQueryArgs` and `setOptQueryArgs`. -/
def multiBlock (errRet : List Code) (orig : String) (elem : Ty) :
    Except String (List Code) :=
  if isMarshal elem then
    .ok [.Stmt [.Lst [.Stmt [.Id "b"], .Stmt [.Err]], .Op ":=",
           .Id "v", .Dot "MarshalText", .Call []],
         ifErrReturn errRet,
         .Stmt [.Id "q", .Dot "Add",
           .Call [.Stmt [.LitStr orig], .Stmt [.String, .Params [.Stmt [.Id "b"]]]]]]
  else do
    let s ← stringFor elem (.Stmt [.Id "v"])
    .ok [.Stmt [.Id "q", .Dot "Add", .Call [.Stmt [.LitStr orig], s]]]

/-- The loop `for i, q := range args` of `setQueryArgs`; `n` is `len(args)`
and the state is the group `g`. -/
def setQueryArgsLoop (errRet : List Code) (n : Nat) :
    Nat → List Param → List Code → Except String (List Code)
  | _, [], g => .ok g
  | i, q :: rest, g =>
    let orig := wireName q.ID q.Orig
    match q.Collection with
    | .None =>
      if isMarshal q.Typ then
        let g1 := g ++
          [.Stmt [.Lst [.Stmt [.Id (q.ID ++ "Bytes")], .Stmt [.Err]], .Op ":=",
             .Id q.ID, .Dot "MarshalText", .Call []],
           ifErrReturn errRet,
           .Stmt [.Id "q", .Dot "Set",
             .Call [.Stmt [.LitStr orig],
                    .Stmt [.String, .Params [.Stmt [.Id (q.Arg ++ "Bytes")]]]]]]
        let g2 := if (i : Int) ≠ (n : Int) - 1 then g1 ++ [.Stmt [.Line]] else g1
        setQueryArgsLoop errRet n (i + 1) rest g2
      else do
        let s ← stringFor q.Typ (.Stmt [.Id q.Arg])
        setQueryArgsLoop errRet n (i + 1) rest
          (g ++ [.Stmt [.Id "q", .Dot "Set", .Call [.Stmt [.LitStr orig], s]]])
    | .Multi =>
      match q.Typ with
      | .SliceType elem => do
        let blk ← multiBlock errRet orig elem
        let g1 := g ++
          [.Stmt [.For [.Stmt [.Lst [.Stmt [.Id "_"], .Stmt [.Id "v"]], .Op ":=",
                    .Range, .Id q.ID]],
                  .Block blk]]
        let g2 := if (i : Int) ≠ (n : Int) - 1 then g1 ++ [.Stmt [.Line]] else g1
        setQueryArgsLoop errRet n (i + 1) rest g2
      | _ => .error "interface conversion: pkg.Type is not *pkg.SliceType"
    | _ => .error "unhandled collection format"

/-- The function `setQueryArgs`; returns the statements appended to `g`. -/
def setQueryArgs (errRet : List Code) (args : List Param) : Except String (List Code) :=
  if args.length = 0 then
    .ok []
  else
    setQueryArgsLoop errRet args.length 0 args
      [.Stmt [.Line],
       .Stmt [.Id "q", .Op ":=", .Make [.Stmt [.Qual "net/url" "Values"]]]]

/-! ## `setOptQueryArgs` -/

/-- The loop `for i, q := range args` inside the `opts != nil` block of
`setOptQueryArgs`; the state is the group `g` of that block. -/
def setOptQueryArgsLoop (errRet : List Code) :
    Nat → List Field → List Code → Except String (List Code)
  | _, [], g => .ok g
  | i, q :: rest, g =>
    let g0 := if i ≠ 0 then g ++ [.Stmt [.Line]] else g
    let orig := wireName q.ID q.Orig
    match q.Typ with
    | .PointerType typ =>
      match q.Collection with
      | .None =>
        if isMarshal typ then
          setOptQueryArgsLoop errRet (i + 1) rest
            (g0 ++ [.Stmt [.If [.Stmt [.Id "opts", .Dot q.ID, .Op "!=", .Nil]],
              .Block
                [.Stmt [.Lst [.Stmt [.Id "b"], .Stmt [.Err]], .Op ":=",
                   .Id "opts", .Dot q.ID, .Dot "MarshalText", .Call []],
                 ifErrReturn errRet,
                 .Stmt [.Id "q", .Dot "Set",
                   .Call [.Stmt [.LitStr orig],
                          .Stmt [.String, .Params [.Stmt [.Id "b"]]]]]]]])
        else do
          let s ← stringFor typ (.Stmt [.Op "*", .Id "opts", .Dot q.ID])
          setOptQueryArgsLoop errRet (i + 1) rest
            (g0 ++ [.Stmt [.If [.Stmt [.Id "opts", .Dot q.ID, .Op "!=", .Nil]],
              .Block [.Stmt [.Id "q", .Dot "Set", .Call [.Stmt [.LitStr orig], s]]]]])
      | .Multi =>
        match typ with
        | .SliceType elem => do
          let blk ← multiBlock errRet orig elem
          setOptQueryArgsLoop errRet (i + 1) rest
            (g0 ++ [.Stmt [.For [.Stmt [.Lst [.Stmt [.Id "_"], .Stmt [.Id "v"]], .Op ":=",
                      .Range, .Id "opts", .Dot q.ID]],
                    .Block blk]])
        | _ => .error "interface conversion: pkg.Type is not *pkg.SliceType"
      | _ => .error "unhandled collection format"
    | _ => .error "interface conversion: pkg.Type is not *pkg.PointerType"

/-- The function `setOptQueryArgs`; returns the statements appended to `g`
and the returned query reference. -/
def setOptQueryArgs (errRet : List Code) (qDefined : Bool) (args : List Field) :
    Except String (List Code × Code) :=
  if args.length = 0 then
    if !qDefined then
      .ok ([], .Stmt [.Nil])
    else
      .ok ([], .Stmt [.Id "q"])
  else
    let g1 : List Code := [.Stmt [.Line]]
    let g2 : List Code :=
      if !qDefined then g1 ++ [.Stmt [.Var, .Id "q", .Qual "net/url" "Values"]] else g1
    let init : Code :=
      if !qDefined then
        .Stmt [.Id "q", .Op "=", .Make [.Stmt [.Qual "net/url" "Values"]]]
      else .Stmt [.Empty]
    do
      let blk ← setOptQueryArgsLoop errRet 0 args [.Stmt [init]]
      .ok (g2 ++ [.Stmt [.If [.Stmt [.Id "opts", .Op "!=", .Nil]], .Block blk]],
           .Stmt [.Id "q"])

/-! ## `setHeaderArgs` -/

/-- The loop `for i, h := range args` of `setHeaderArgs`; `n` is `len(args)`
and the state is the group `g`. -/
def setHeaderArgsLoop (errRet : List Code) (n : Nat) :
    Nat → List Param → List Code → Except String (List Code)
  | _, [], g => .ok g
  | i, h :: rest, g =>
    let orig := wireName h.ID h.Orig
    match h.Collection with
    | .None =>
      if isMarshal h.Typ then
        setHeaderArgsLoop errRet n (i + 1) rest
          (g ++ [.Stmt [.Lst [.Stmt [.Id (h.Arg ++ "Bytes")], .Stmt [.Err]], .Op ":=",
                   .Id h.Arg, .Dot "MarshalText", .Call []],
                 ifErrReturn errRet,
                 .Stmt [.Id "req", .Dot "Header", .Dot "Set",
                   .Call [.Stmt [.LitStr orig],
                          .Stmt [.String, .Params [.Stmt [.Id (h.Arg ++ "Bytes")]]]]],
                 .Stmt [.Line]])
      else do
        let s ← stringFor h.Typ (.Stmt [.Id h.Arg])
        let g1 := g ++
          [.Stmt [.Id "req", .Dot "Header", .Dot "Set", .Call [.Stmt [.LitStr orig], s]]]
        let g2 := if (i : Int) = (n : Int) - 1 then g1 ++ [.Stmt [.Line]] else g1
        setHeaderArgsLoop errRet n (i + 1) rest g2
    | _ => .error "unhandled collection format"

/-- The function `setHeaderArgs`; returns the statements appended to `g`. -/
def setHeaderArgs (errRet : List Code) (args : List Param) : Except String (List Code) :=
  setHeaderArgsLoop errRet args.length 0 args []

/-! ## `errSelectFunc` -/

/-- The map index expression `m.Errors[k]` for a key of the map. The missing
key (Go's nil `pkg.Type`) is reported as the nil dereference it leads to. -/
def errorsAt (errors : List (Int × Ty)) (k : Int) : Except String Ty :=
  match errors.lookup k with
  | some t => .ok t
  | none => .error "invalid memory address or nil pointer dereference"

/-- The codes collected by `for k := range m.Errors { if k != -1 ... }`,
in enumeration order. -/
def nonDefaultCodes (errors : List (Int × Ty)) : List Int :=
  (errors.map Prod.fst).filter (fun k => k != -1)

/-- The library call `sort.Ints`. -/
def sortInts (codes : List Int) : List Int :=
  codes.insertionSort (fun a b => a ≤ b)

/-- The statement `g.Case(cases...).Block(jen.Return(initType(last)))`. -/
def caseClause (env : Env) (cases : List Code) (last : Ty) : Code :=
  .Stmt [.Case cases, .Block [.Stmt [.Return [env.initType last]]]]

/-- State of the grouping loop of `errSelectFunc`: the group `g` of the
switch, the constructor `last` and the pending labels `cases`. -/
structure GroupState where
  g : List Code
  last : Ty
  cases : List Code

/-- The loop `for _, k := range codes[1:]` of `errSelectFunc`. -/
def errSelectLoop (env : Env) (errors : List (Int × Ty)) :
    List Int → GroupState → Except String GroupState
  | [], st => .ok st
  | k :: rest, st => do
    let t ← errorsAt errors k
    if env.Equal st.last t then
      errSelectLoop env errors rest ⟨st.g, st.last, st.cases ++ [.Stmt [.Lit k]]⟩
    else
      errSelectLoop env errors rest
        ⟨st.g ++ [caseClause env st.cases st.last], t, [.Stmt [.Lit k]]⟩

/-- The signature `jen.Func().Params(jen.Id("code").Int()).Params(jen.Error())`. -/
def esf : List Code :=
  [.Func, .Params [.Stmt [.Id "code", .Int]], .Params [.Stmt [.Error]]]

/-- The default clause of the switch: the `-1` entry when the map has one,
`nil` otherwise. -/
def defaultClause (env : Env) (errors : List (Int × Ty)) : Code :=
  match errors.lookup (-1) with
  | some t => .Stmt [.Default, .Block [.Stmt [.Return [env.initType t]]]]
  | none => .Stmt [.Default, .Block [.Stmt [.Return [.Stmt [.Nil]]]]]

/-- The function `errSelectFunc`, on the `Errors` map of the method. -/
def errSelectFunc (env : Env) (errors : List (Int × Ty)) : Except String Code :=
  if errors.length = 0 then
    .ok (.Stmt [.Nil])
  else
    match sortInts (nonDefaultCodes errors) with
    | [] => do
      let t ← errorsAt errors (-1)
      .ok (.Stmt (esf ++ [.Block [.Stmt [.Return [env.initType t]]]]))
    | [c] => do
      let t ← errorsAt errors c
      .ok (.Stmt (esf ++ [.Block
        [.Stmt [.If [.Stmt [.Id "code", .Op "==", .Lit c]],
                .Block [.Stmt [.Return [env.initType t]]]],
         .Stmt [.Return [.Stmt [.Nil]]]]]))
    | c0 :: rest => do
      let last ← errorsAt errors c0
      let st ← errSelectLoop env errors rest ⟨[], last, [.Stmt [.Lit c0]]⟩
      let g := st.g ++ [caseClause env st.cases st.last] ++ [defaultClause env errors]
      .ok (.Stmt (esf ++ [.Block [.Stmt [.Switch [.Stmt [.Id "code"]], .Block g]]]))

/-! ## `convertClientMethod` -/

/-- The variables filled by the loop over `m.Params`. -/
structure ParamState where
  fmtArgs : List Param
  queryArgs : List Param
  headerArgs : List Param
  optQueryArgs : List Field
  body : Code
  params : List Code

/-- The loop `for _, f := range sd.Fields` of `convertClientMethod`. -/
def optFieldsLoop : List Field → List Field → Except String (List Field)
  | [], optQueryArgs => .ok optQueryArgs
  | f :: rest, optQueryArgs =>
    match f.Kind with
    | .Query => optFieldsLoop rest (optQueryArgs ++ [f])
    | _ => .error "unhandled location for optional arg"

/-- The loop `for _, d := range decls` of `convertClientMethod`. -/
def declsLoop (env : Env) (p : Param) :
    List TypeDecl → List Field → Except String (List Field)
  | [], optQueryArgs => .ok optQueryArgs
  | d :: rest, optQueryArgs =>
    if d.Name ≠ env.typeName p.Typ then
      declsLoop env p rest optQueryArgs
    else
      match d.Typ with
      | .StructType fields => do
        let o ← optFieldsLoop fields optQueryArgs
        declsLoop env p rest o
      | _ => .error "interface conversion: pkg.Type is not *pkg.StructType"

/-- The `switch p.Kind` of `convertClientMethod`; it has no default case. -/
def classifyParam (env : Env) (decls : List TypeDecl) (p : Param) (st : ParamState) :
    Except String ParamState :=
  match p.Kind with
  | .Path => .ok ⟨st.fmtArgs ++ [p], st.queryArgs, st.headerArgs, st.optQueryArgs,
      st.body, st.params⟩
  | .Query => .ok ⟨st.fmtArgs, st.queryArgs ++ [p], st.headerArgs, st.optQueryArgs,
      st.body, st.params⟩
  | .Header => .ok ⟨st.fmtArgs, st.queryArgs, st.headerArgs ++ [p], st.optQueryArgs,
      st.body, st.params⟩
  | .Body => .ok ⟨st.fmtArgs, st.queryArgs, st.headerArgs, st.optQueryArgs,
      .Stmt [.Id p.Arg], st.params⟩
  | .Opts => do
    let o ← declsLoop env p decls st.optQueryArgs
    .ok ⟨st.fmtArgs, st.queryArgs, st.headerArgs, o, st.body, st.params⟩
  | .Other _ => .ok st

/-- The loop `for _, p := range m.Params` of `convertClientMethod`. -/
def paramsLoop (env : Env) (decls : List TypeDecl) :
    List Param → ParamState → Except String ParamState
  | [], st => .ok st
  | p :: rest, st => do
    let v : Code := .Stmt ([.Id p.Arg] ++ env.writeType p.Typ)
    let st1 ← classifyParam env decls p st
    paramsLoop env decls rest
      ⟨st1.fmtArgs, st1.queryArgs, st1.headerArgs, st1.optQueryArgs, st1.body,
       st1.params ++ [v]⟩

/-- The test `_, ok := ret.(*pkg.PointerType)`. -/
def isPointer : Ty → Bool
  | .PointerType _ => true
  | _ => false

/-- The test `_, ok := ret.(*pkg.IterType)`. -/
def isIter : Ty → Bool
  | .IterType _ => true
  | _ => false

/-- The loop `for _, ret := range m.Return` of `convertClientMethod`; the
state is `rets` and `successRets`. -/
def retsLoop (env : Env) : List Ty → List Code → List Code → List Code × List Code
  | [], rets, successRets => (rets, successRets)
  | ret :: rest, rets, successRets =>
    let v : Code := .Stmt (env.writeType ret)
    if isPointer ret then
      retsLoop env rest (rets ++ [v]) (successRets ++ [.Stmt [.Nil]])
    else if isIter ret then
      retsLoop env rest (rets ++ [v]) (successRets ++ [.Stmt [.Nil]])
    else if env.typeName ret = "error" then
      retsLoop env rest (rets ++ [v]) (successRets ++ [.Stmt [.Nil]])
    else
      retsLoop env rest (rets ++ [v]) successRets

/-- The slice `errRet`: a copy of `successRets` whose last element is
`jen.Err()`; indexing an empty slice panics. -/
def mkErrRet (successRets : List Code) : Except String (List Code) :=
  if successRets.length = 0 then
    .error "index out of range [-1]"
  else
    .ok (successRets.set (successRets.length - 1) (.Stmt [.Err]))

/-- The variables set by the return-shape switch at the start of the method
block. -/
structure Shape where
  g : List Code
  reqDef : List Code
  reqOp : String
  errResp : List Code
  respDef : Option Code
  doResp : Code
  errRet : List Code
  successRets : List Code

/-- The return-shape switch `if len(m.Return) > 1 || iter { switch ... }`. -/
def returnShape (env : Env) (ret0 : Ty) (nReturn : Nat) (errRet successRets : List Code) :
    Except String Shape :=
  if nReturn > 1 || isIter ret0 then
    match ret0 with
    | .IterType t =>
      match t with
      | .PointerType t1 =>
        .ok ⟨[.Stmt ([.Id "iter", .Op ":="] ++ env.writeType t1 ++
                [.Values [.Dict [(.Stmt [.Id "i"], .Stmt [.Lit (-1)]),
                                 (.Stmt [.Id "first"], .Stmt [.True])]]]),
              .Stmt [.Line]],
             [.Line, .Var, .Id "req", .Op "*", .Qual "net/http" "Request"],
             "=",
             [.Id "iter", .Dot "err"],
             none,
             .Stmt [.Op "&", .Id "iter", .Dot "page"],
             errRet.set 0 (.Stmt [.Op "&", .Id "iter"]),
             successRets.set 0 (.Stmt [.Op "&", .Id "iter"])⟩
      | _ => .error "interface conversion: pkg.Type is not *pkg.PointerType"
    | .PointerType t =>
      .ok ⟨[], [.Line], ":=", [.Err],
           some (.Stmt ([.Var, .Id "resp"] ++ env.writeType t)),
           .Stmt [.Op "&", .Id "resp"],
           errRet,
           successRets.set 0 (.Stmt [.Op "&", .Id "resp"])⟩
    | ret =>
      .ok ⟨[], [.Line], ":=", [.Err],
           some (.Stmt ([.Var, .Id "resp"] ++ env.writeType ret)),
           .Stmt [.Id "resp"],
           errRet,
           successRets.set 0 (.Stmt [.Id "resp"])⟩
  else
    .ok ⟨[], [.Line], ":=", [.Err], none, .Stmt [.Nil], errRet, successRets⟩

/-- The statement `if errResp != nil { return errRet... }`. -/
def errCheck (errResp : List Code) (errRet : List Code) : Code :=
  .Stmt [.If [.Stmt (errResp ++ [.Op "!=", .Nil])], .Block [.Stmt [.Return errRet]]]

/-- The statement `req, errResp := <recv>.backend.NewRequest(...)`. -/
def newRequestStmt (m : Method) (sh : Shape) (query body : Code) : Code :=
  .Stmt [.Lst [.Stmt [.Id "req"], .Stmt sh.errResp], .Op sh.reqOp,
    .Id m.Receiver.ID, .Dot "backend", .Dot "NewRequest",
    .Call [.Stmt [.Qual "net/http" ("Method" ++ m.HTTPMethod)], .Stmt [.Id "p"], query, body]]

/-- The statement `_, errResp = <recv>.backend.Do(ctx, req, doResp, selector)`. -/
def doStmt (m : Method) (sh : Shape) (sel : Code) : Code :=
  .Stmt [.Lst [.Stmt [.Id "_"], .Stmt sh.errResp], .Op "=",
    .Id m.Receiver.ID, .Dot "backend", .Dot "Do",
    .Call [.Stmt [.Id "ctx"], .Stmt [.Id "req"], sh.doResp, sel]]

/-- The statement `g.Add(respDef)` when `respDef != nil`. -/
def respDefStmts (respDef : Option Code) : List Code :=
  match respDef with
  | some d => [.Stmt [d]]
  | none => []

/-- The closure passed to `fn.BlockFunc`: the statements of the method body. -/
def methodBlock (env : Env) (m : Method) (ps : ParamState)
    (errRet0 successRets0 : List Code) : Except String (List Code) :=
  match m.Return with
  | [] => .error "index out of range [0]"
  | ret0 :: _ => do
    let iter := isIter ret0
    let sh ← returnShape env ret0 m.Return.length errRet0 successRets0
    let g1 := sh.g ++ setPathArgs sh.errRet m.Path ps.fmtArgs
    let qs ← setQueryArgs sh.errRet ps.queryArgs
    let oq ← setOptQueryArgs sh.errRet (decide (ps.queryArgs.length > 0)) ps.optQueryArgs
    let g2 := g1 ++ qs ++ oq.1 ++
      [.Stmt [.Stmt sh.reqDef],
       newRequestStmt m sh oq.2 ps.body,
       errCheck sh.errResp sh.errRet,
       .Stmt [.Line]]
    let hs ← setHeaderArgs sh.errRet ps.headerArgs
    let g3 := g2 ++ hs ++ respDefStmts sh.respDef
    let sel ← errSelectFunc env m.Errors
    let g4 := g3 ++ [doStmt m sh sel]
    let g5 := if !iter then g4 ++ [errCheck sh.errResp sh.errRet, .Stmt [.Line]] else g4
    .ok (g5 ++ [.Stmt [.Return sh.successRets]])

/-- The function `convertClientMethod`; returns the statements appended to
the file `f`: the comment and the method declaration. -/
def convertClientMethod (env : Env) (m : Method) (decls : List TypeDecl) :
    Except String (List Code) := do
  let ps ← paramsLoop env decls m.Params
    ⟨[], [], [], [], .Stmt [.Nil], [.Stmt [.Id "ctx", .Qual "context" "Context"]]⟩
  let rs := retsLoop env m.Return [] []
  let errRet ← mkErrRet rs.2
  let body ← methodBlock env m ps errRet rs.2
  .ok [.Stmt [.Comment (env.formatComment m.Comment)],
       .Stmt [.Func, .Params [.Stmt [.Id m.Receiver.ID, .Op "*", .Id m.Receiver.Typ]],
              .Id m.Name, .Params ps.params, .Params rs.1, .Block body]]

/-! ## Running an emitted selector

The selector emitted by `errSelectFunc` is a Go function literal
`func(code int) error { ... }`. `evalSelector` runs it on a status code and
yields the expression it returns. -/

/-- Whether a case label is the integer literal `status`. -/
def labelMatches (status : Int) : Code → Bool
  | .Stmt [.Lit k] => k == status
  | _ => false

/-- Runs the clauses of a `switch code`: the first clause with a matching
label returns; otherwise the default clause, wherever it stands, returns.
The outer `none` is a clause of another form; the inner `none` means that no
clause applies. -/
def evalSwitch (status : Int) : List Code → Option Code → Option (Option Code)
  | [], dflt => some dflt
  | .Stmt [.Case labels, .Block [.Stmt [.Return [e]]]] :: rest, dflt =>
    if labels.any (labelMatches status) then some (some e) else evalSwitch status rest dflt
  | .Stmt [.Default, .Block [.Stmt [.Return [e]]]] :: rest, _ =>
    evalSwitch status rest (some e)
  | _ :: _, _ => none

/-- Runs the statements of a selector body; `none` when control reaches the
end without a return or meets a statement of another form. -/
def evalStmts (status : Int) : List Code → Option Code
  | [] => none
  | .Stmt [.Return [e]] :: _ => some e
  | .Stmt [.If [.Stmt [.Id "code", .Op "==", .Lit c]], .Block [.Stmt [.Return [e]]]] :: rest =>
    if status = c then some e else evalStmts status rest
  | .Stmt [.Switch [.Stmt [.Id "code"]], .Block clauses] :: rest =>
    match evalSwitch status clauses none with
    | some (some e) => some e
    | some none => evalStmts status rest
    | none => none
  | _ :: _ => none

/-- Runs a selector `func(code int) error { body }` on `status`. -/
def evalSelector (sel : Code) (status : Int) : Option Code :=
  match sel with
  | .Stmt [.Func, .Params [.Stmt [.Id "code", .Int]], .Params [.Stmt [.Error]], .Block body] =>
    evalStmts status body
  | _ => none

/-! ## A concrete environment -/

/-- The name of a type, for the concrete environment. -/
def stdTypeName : Ty → String
  | .IdentType name _ => name
  | .PointerType t => stdTypeName t
  | .SliceType t => stdTypeName t
  | .StructType _ => "struct"
  | .IterType t => stdTypeName t

/-- The tokens of a type, for the concrete environment. -/
def stdWriteType : Ty → List Code
  | .IdentType name _ => [.Id name]
  | .PointerType t => .Op "*" :: stdWriteType t
  | .SliceType t => .Op "[]" :: stdWriteType t
  | .StructType _ => [.Id "struct"]
  | .IterType t => stdWriteType t

/-- A concrete environment used to run the synthesizer on examples:
constructors are `Equal` when they have the same name, and `initType`
builds `&Name{}`. -/
def stdEnv : Env where
  Equal := fun a b => decide (stdTypeName a = stdTypeName b)
  typeName := stdTypeName
  writeType := stdWriteType
  initType := fun t => .Stmt [.Op "&", .Id (stdTypeName t), .Values []]
  formatComment := fun c => c

/-! ## The grouping of `errSelectFunc` as a list of runs -/

/-- The labels `jen.Lit(k)` of a list of codes. -/
def litLabels (ks : List Int) : List Code :=
  ks.map (fun k => .Stmt [.Lit k])

/-- The clause emitted for a group: its labels and the constructor returned. -/
def groupClause (env : Env) (gr : List Int × Ty) : Code :=
  caseClause env (litLabels gr.1) gr.2

/-- The groups the loop of `errSelectFunc` closes, the pending one included,
from the codes still to read, the pending labels and `last`. -/
def runs (env : Env) (errors : List (Int × Ty)) :
    List Int → List Int → Ty → List (List Int × Ty)
  | [], labels, last => [(labels, last)]
  | k :: rest, labels, last =>
    match errors.lookup k with
    | some t =>
      if env.Equal last t then runs env errors rest (labels ++ [k]) last
      else (labels, last) :: runs env errors rest [k] t
    | none => [(labels, last)]

/-- The switch statement of the selector for a list of groups. -/
def switchStmt (env : Env) (errors : List (Int × Ty)) (groups : List (List Int × Ty)) : Code :=
  .Stmt [.Switch [.Stmt [.Id "code"]],
         .Block (groups.map (groupClause env) ++ [defaultClause env errors])]

/-- The selector with two or more codes, for a list of groups. -/
def switchSelector (env : Env) (errors : List (Int × Ty))
    (groups : List (List Int × Ty)) : Code :=
  .Stmt (esf ++ [.Block [switchStmt env errors groups]])

/-! ## Recognising statements -/

/-- Whether a statement of a group was appended by `g.Add(stmt)`: its first
token is itself a statement. The request and response declarations are the
only statements `convertClientMethod` appends this way at top level. -/
def isAdd : Code → Bool
  | .Stmt (.Stmt _ :: _) => true
  | _ => false

/-! ## Example inputs -/

/-- An error constructor named `NotFoundErr`. -/
def notFoundErr : Ty := .IdentType "NotFoundErr" false

/-- An error constructor named `ConflictErr`. -/
def conflictErr : Ty := .IdentType "ConflictErr" false

/-- An `Errors` map with four codes and a default entry, enumerated out of
order. -/
def exErrors : List (Int × Ty) :=
  [(410, notFoundErr), (404, notFoundErr), (-1, conflictErr), (405, notFoundErr),
   (409, conflictErr)]

/-- An `Errors` map with one non-default code and a default entry. -/
def exOneCodeErrors : List (Int × Ty) :=
  [(404, notFoundErr), (-1, conflictErr)]

/-- The declarations of the example package: the options struct of
`exPointerMethod`, with an optional scalar and an optional sequence. -/
def exDecls : List TypeDecl :=
  [⟨"Widget", "a widget", .StructType []⟩,
   ⟨"WidgetOpts", "options", .StructType
      [.mk "Verbose" "verbose" .Query (.PointerType (.IdentType "bool" false)) .None,
       .mk "Since" "" .Query (.PointerType (.IdentType "Time" true)) .None]⟩]

/-- A method returning `(*Widget, error)` with a parameter of every kind and
no error mapping. -/
def exPointerMethod : Method :=
  { Receiver := ⟨"c", "WidgetClient"⟩
    Name := "Get"
    HTTPMethod := "Get"
    Path := "/widgets/%s/%s"
    Params :=
      [⟨"id", "id", "", .Path, .IdentType "ID" true, .None⟩,
       ⟨"part", "part", "", .Path, .IdentType "string" false, .None⟩,
       ⟨"limit", "limit", "max", .Query, .IdentType "int" false, .None⟩,
       ⟨"tags", "tags", "tag", .Query, .SliceType (.IdentType "string" false), .Multi⟩,
       ⟨"token", "token", "X-Token", .Header, .IdentType "string" false, .None⟩,
       ⟨"widget", "widget", "", .Body, .PointerType (.IdentType "Widget" false), .None⟩,
       ⟨"opts", "opts", "", .Opts, .PointerType (.IdentType "WidgetOpts" false), .None⟩]
    Return := [.PointerType (.IdentType "Widget" false), .IdentType "error" false]
    Comment := "Get fetches a widget"
    Errors := [] }

/-- A method whose only return type is an iterator, with an error mapping. -/
def exIterMethod : Method :=
  { Receiver := ⟨"c", "WidgetClient"⟩
    Name := "List"
    HTTPMethod := "Get"
    Path := "/widgets/%s"
    Params :=
      [⟨"owner", "owner", "", .Path, .IdentType "ID" true, .None⟩,
       ⟨"limit", "limit", "", .Query, .IdentType "int" false, .None⟩,
       ⟨"token", "token", "X-Token", .Header, .IdentType "Token" true, .None⟩]
    Return := [.IterType (.PointerType (.IdentType "WidgetIter" false))]
    Comment := "List iterates over widgets"
    Errors := exErrors }

/-- A method returning `(Widget, error)`: a non-pointer value and the error. -/
def exValueMethod : Method :=
  { Receiver := ⟨"c", "WidgetClient"⟩
    Name := "Head"
    HTTPMethod := "Get"
    Path := "/widget"
    Params := []
    Return := [.IdentType "Widget" false, .IdentType "error" false]
    Comment := "Head fetches the first widget"
    Errors := [] }

/-- A method with a parameter whose kind is none of the five known kinds. -/
def exUnknownKindMethod : Method :=
  { Receiver := ⟨"c", "WidgetClient"⟩
    Name := "Ping"
    HTTPMethod := "Get"
    Path := "/ping"
    Params := [⟨"cookie", "cookie", "", .Other 5, .IdentType "string" false, .None⟩]
    Return := [.IdentType "error" false]
    Comment := "Ping checks the service"
    Errors := [] }

/-- An optional query field holding a sequence: `Tags *[]string`, sent as
`tag`. -/
def exMultiField : Field :=
  .mk "Tags" "tag" .Query (.PointerType (.SliceType (.IdentType "string" false))) .Multi

/-! ## The statements of one loop iteration -/

/-- The statements one iteration of the loop of `setPathArgs` appends to `g`
for the parameter `fa`. -/
def pathArgStmts (errRet : List Code) (fa : Param) : List Code :=
  if isMarshal fa.Typ then
    [.Stmt [.Lst [.Stmt [.Id (fa.ID ++ "Bytes")], .Stmt [.Err]], .Op ":=",
       .Id fa.ID, .Dot "MarshalText", .Call []],
     ifErrReturn errRet,
     .Stmt [.Line]]
  else []

/-- The argument one iteration of the loop of `setPathArgs` appends to
`pArgs` for the parameter `fa`. -/
def pathArgExpr (fa : Param) : Code :=
  if isMarshal fa.Typ then .Stmt [.String, .Params [.Stmt [.Id (fa.ID ++ "Bytes")]]]
  else .Stmt [.Id fa.ID]

/-- The statement `g.Line()` appended when the test holds. -/
def lineIf (b : Bool) : List Code :=
  if b then [.Stmt [.Line]] else []

/-- The statements iteration `i` of the loop of `setQueryArgs` appends to `g`
for the parameter `q`; `n` is `len(args)`. -/
def queryArgStmts (errRet : List Code) (n i : Nat) (q : Param) : Except String (List Code) :=
  let orig := wireName q.ID q.Orig
  match q.Collection with
  | .None =>
    if isMarshal q.Typ then
      .ok ([.Stmt [.Lst [.Stmt [.Id (q.ID ++ "Bytes")], .Stmt [.Err]], .Op ":=",
              .Id q.ID, .Dot "MarshalText", .Call []],
            ifErrReturn errRet,
            .Stmt [.Id "q", .Dot "Set",
              .Call [.Stmt [.LitStr orig],
                     .Stmt [.String, .Params [.Stmt [.Id (q.Arg ++ "Bytes")]]]]]] ++
           lineIf (decide ((i : Int) ≠ (n : Int) - 1)))
    else do
      let s ← stringFor q.Typ (.Stmt [.Id q.Arg])
      .ok [.Stmt [.Id "q", .Dot "Set", .Call [.Stmt [.LitStr orig], s]]]
  | .Multi =>
    match q.Typ with
    | .SliceType elem => do
      let blk ← multiBlock errRet orig elem
      .ok ([.Stmt [.For [.Stmt [.Lst [.Stmt [.Id "_"], .Stmt [.Id "v"]], .Op ":=",
                     .Range, .Id q.ID]],
                   .Block blk]] ++
           lineIf (decide ((i : Int) ≠ (n : Int) - 1)))
    | _ => .error "interface conversion: pkg.Type is not *pkg.SliceType"
  | _ => .error "unhandled collection format"

/-- The statements iteration `i` of the loop of `setHeaderArgs` appends to
`g` for the parameter `h`; `n` is `len(args)`. -/
def headerArgStmts (errRet : List Code) (n i : Nat) (h : Param) : Except String (List Code) :=
  let orig := wireName h.ID h.Orig
  match h.Collection with
  | .None =>
    if isMarshal h.Typ then
      .ok [.Stmt [.Lst [.Stmt [.Id (h.Arg ++ "Bytes")], .Stmt [.Err]], .Op ":=",
             .Id h.Arg, .Dot "MarshalText", .Call []],
           ifErrReturn errRet,
           .Stmt [.Id "req", .Dot "Header", .Dot "Set",
             .Call [.Stmt [.LitStr orig],
                    .Stmt [.String, .Params [.Stmt [.Id (h.Arg ++ "Bytes")]]]]],
           .Stmt [.Line]]
    else do
      let s ← stringFor h.Typ (.Stmt [.Id h.Arg])
      .ok ([.Stmt [.Id "req", .Dot "Header", .Dot "Set", .Call [.Stmt [.LitStr orig], s]]] ++
           lineIf (decide ((i : Int) = (n : Int) - 1)))
  | _ => .error "unhandled collection format"

/-! ## Running an emitted loop over a sequence of strings -/

/-- A query operation the generated code performs at run time. -/
inductive QueryOp where
  | Set (name : String) (value : String)
  | Add (name : String) (value : String)
  deriving DecidableEq, Repr

/-- Runs one statement of a loop body for the element `v`: `q.Add(name, v)`
and `q.Set(name, v)`, whose value is the element itself; `none` for a
statement of another form. -/
def runElemStmt (v : String) : Code → Option QueryOp
  | .Stmt [.Id "q", .Dot "Add", .Call [.Stmt [.LitStr name], .Stmt [.Id "v"]]] =>
    some (.Add name v)
  | .Stmt [.Id "q", .Dot "Set", .Call [.Stmt [.LitStr name], .Stmt [.Id "v"]]] =>
    some (.Set name v)
  | _ => none

/-- Runs the statements of a loop body, in order, for the element `v`. -/
def runBody (v : String) : List Code → Option (List QueryOp)
  | [] => some []
  | s :: rest =>
    match runElemStmt v s, runBody v rest with
    | some op, some ops => some (op :: ops)
    | _, _ => none

/-- Runs a loop body for every element of `values`, in order. -/
def runValues (body : List Code) : List String → Option (List QueryOp)
  | [] => some []
  | v :: vs =>
    match runBody v body, runValues body vs with
    | some ops, some more => some (ops ++ more)
    | _, _ => none

/-- Runs the statement `for _, v := range xs { body }` when `xs` holds
`values`; `none` for a statement of another form. -/
def runFor (values : List String) : Code → Option (List QueryOp)
  | .Stmt [.For [.Stmt [.Lst [.Stmt [.Id "_"], .Stmt [.Id "v"]], .Op ":=", .Range, .Id _]],
           .Block body] => runValues body values
  | _ => none

/-- Whether a statement declares the variable `q`: `q := ...` or
`var q ...`. -/
def declaresQ : Code → Bool
  | .Stmt (.Id "q" :: .Op ":=" :: _) => true
  | .Stmt (.Var :: .Id "q" :: _) => true
  | _ => false

/-- A required query parameter holding a sequence of strings, sent as
`tags`. -/
def exTagsParam : Param :=
  ⟨"tagList", "tagList", "tags", .Query, .SliceType (.IdentType "string" false), .Multi⟩

/-- A method whose path and query parameters have an `ID` that differs from
their `Arg`, with types that support text-marshal. -/
def exMismatchMethod : Method :=
  { Receiver := ⟨"c", "WidgetClient"⟩
    Name := "Find"
    HTTPMethod := "Get"
    Path := "/users/%s"
    Params :=
      [⟨"user_id", "userID", "", .Path, .IdentType "ID" true, .None⟩,
       ⟨"start_at", "startAt", "", .Query, .IdentType "Time" true, .None⟩,
       ⟨"trace_id", "traceID", "X-Trace", .Header, .IdentType "ID" true, .None⟩]
    Return := [.IdentType "error" false]
    Comment := "Find looks a user up"
    Errors := [] }

/-- Two header parameters with collection `None`: one whose type supports
text-marshal and one string. -/
def exHeaderParams : List Param :=
  [⟨"token", "token", "X-Token", .Header, .IdentType "Token" true, .None⟩,
   ⟨"agent", "agent", "", .Header, .IdentType "string" false, .None⟩]

/-- A header parameter with collection `None` whose type is a sequence. -/
def exSliceHeader : List Param :=
  [⟨"ids", "ids", "X-Ids", .Header, .SliceType (.IdentType "string" false), .None⟩]

/-! ## Lemmas on the `Errors` map -/

theorem lookup_of_mem_keys (errors : List (Int × Ty)) (k : Int)
    (h : k ∈ errors.map Prod.fst) : ∃ t, errors.lookup k = some t := by
  induction errors with
  | nil => simp at h
  | cons e es ih =>
    obtain ⟨k0, t0⟩ := e
    by_cases hk : k = k0
    · subst hk
      exact ⟨t0, by simp [List.lookup]⟩
    · have hmem : k ∈ es.map Prod.fst := by
        simp only [List.map_cons, List.mem_cons] at h
        rcases h with h | h
        · exact absurd h hk
        · exact h
      obtain ⟨t, ht⟩ := ih hmem
      refine ⟨t, ?_⟩
      have hb : (k == k0) = false := by simpa using hk
      simp [List.lookup, hb, ht]

theorem mem_keys_of_lookup (errors : List (Int × Ty)) (k : Int) (t : Ty)
    (h : errors.lookup k = some t) : k ∈ errors.map Prod.fst := by
  induction errors with
  | nil => simp [List.lookup] at h
  | cons e es ih =>
    obtain ⟨k0, t0⟩ := e
    by_cases hk : k = k0
    · subst hk; simp
    · have hb : (k == k0) = false := by simpa using hk
      simp only [List.lookup, hb] at h
      simp only [List.map_cons, List.mem_cons]
      exact Or.inr (ih h)

theorem mem_sortInts (codes : List Int) (k : Int) : k ∈ sortInts codes ↔ k ∈ codes := by
  unfold sortInts
  exact List.mem_insertionSort _

theorem mem_nonDefaultCodes (errors : List (Int × Ty)) (k : Int) :
    k ∈ nonDefaultCodes errors ↔ k ∈ errors.map Prod.fst ∧ k ≠ -1 := by
  unfold nonDefaultCodes
  simp [List.mem_filter]

theorem length_sortInts (codes : List Int) : (sortInts codes).length = codes.length := by
  unfold sortInts
  exact List.length_insertionSort _ _

theorem sortInts_sorted (codes : List Int) : (sortInts codes).Sorted (fun a b => a ≤ b) := by
  unfold sortInts
  exact List.sorted_insertionSort _ _

theorem nonDefaultCodes_nodup (errors : List (Int × Ty)) (h : NodupKeys errors) :
    (nonDefaultCodes errors).Nodup := by
  unfold nonDefaultCodes
  exact List.Nodup.filter _ h

theorem sortInts_strict (errors : List (Int × Ty)) (h : NodupKeys errors) :
    (sortInts (nonDefaultCodes errors)).Sorted (fun a b => a < b) := by
  apply List.Sorted.lt_of_le (sortInts_sorted _)
  have hp : (sortInts (nonDefaultCodes errors)).Perm (nonDefaultCodes errors) := by
    unfold sortInts
    exact List.perm_insertionSort _ _
  exact hp.nodup_iff.mpr (nonDefaultCodes_nodup errors h)

/-! ## The loop of `errSelectFunc` computes the runs -/

theorem errSelectLoop_runs (env : Env) (errors : List (Int × Ty)) (rest : List Int) :
    ∀ (g : List Code) (labels : List Int) (last : Ty),
      (∀ k ∈ rest, k ∈ errors.map Prod.fst) →
      ∃ st, errSelectLoop env errors rest ⟨g, last, litLabels labels⟩ = .ok st ∧
        st.g ++ [caseClause env st.cases st.last] =
          g ++ (runs env errors rest labels last).map (groupClause env) := by
  induction rest with
  | nil =>
    intro g labels last _
    exact ⟨_, rfl, by simp [runs, groupClause]⟩
  | cons k rest ih =>
    intro g labels last hk
    obtain ⟨t, ht⟩ := lookup_of_mem_keys errors k (hk k (by simp))
    have hrest : ∀ k1 ∈ rest, k1 ∈ errors.map Prod.fst := fun k1 h1 => hk k1 (by simp [h1])
    by_cases he : env.Equal last t = true
    · obtain ⟨st, hst, hg⟩ := ih g (labels ++ [k]) last hrest
      refine ⟨st, ?_, ?_⟩
      · simp only [errSelectLoop, errorsAt, ht, bind, Except.bind, he, if_true]
        simpa [litLabels] using hst
      · simp only [runs, ht, he, if_true]
        exact hg
    · obtain ⟨st, hst, hg⟩ := ih (g ++ [caseClause env (litLabels labels) last]) [k] t hrest
      refine ⟨st, ?_, ?_⟩
      · simp only [errSelectLoop, errorsAt, ht, bind, Except.bind, he]
        simpa [litLabels] using hst
      · simp only [runs, ht, he]
        simpa [groupClause] using hg

theorem errSelectFunc_switch (env : Env) (errors : List (Int × Ty)) (c0 c1 : Int)
    (rest : List Int) (h : sortInts (nonDefaultCodes errors) = c0 :: c1 :: rest) :
    ∃ t0, errors.lookup c0 = some t0 ∧
      errSelectFunc env errors =
        .ok (switchSelector env errors (runs env errors (c1 :: rest) [c0] t0)) := by
  have hmem : ∀ k ∈ c0 :: c1 :: rest, k ∈ errors.map Prod.fst := by
    intro k hk
    rw [← h, mem_sortInts, mem_nonDefaultCodes] at hk
    exact hk.1
  obtain ⟨t0, ht0⟩ := lookup_of_mem_keys errors c0 (hmem c0 (by simp))
  have hlen : errors.length ≠ 0 := by
    intro h0
    have : errors = [] := List.length_eq_zero.mp h0
    subst this
    simp [nonDefaultCodes, sortInts] at h
  obtain ⟨st, hst, hg⟩ := errSelectLoop_runs env errors (c1 :: rest) [] [c0] t0
    (fun k hk => hmem k (by simp only [List.mem_cons] at hk ⊢; exact Or.inr hk))
  refine ⟨t0, ht0, ?_⟩
  have hst1 : errSelectLoop env errors (c1 :: rest) ⟨[], t0, [.Stmt [.Lit c0]]⟩ = .ok st := by
    simpa [litLabels] using hst
  simp only [errSelectFunc, hlen, if_false, h, errorsAt, ht0, bind, Except.bind, hst1]
  simp only [List.nil_append] at hg
  simp only [switchSelector, switchStmt, ← hg]

/-! ## Properties of the runs -/

theorem runs_flatten (env : Env) (errors : List (Int × Ty)) (rest : List Int) :
    ∀ (labels : List Int) (last : Ty),
      (∀ k ∈ rest, k ∈ errors.map Prod.fst) →
      ((runs env errors rest labels last).map Prod.fst).flatten = labels ++ rest := by
  induction rest with
  | nil => intro labels last _; simp [runs]
  | cons k rest ih =>
    intro labels last hk
    obtain ⟨t, ht⟩ := lookup_of_mem_keys errors k (hk k (by simp))
    have hrest : ∀ k1 ∈ rest, k1 ∈ errors.map Prod.fst := fun k1 h1 => hk k1 (by simp [h1])
    by_cases he : env.Equal last t = true
    · simp only [runs, ht, he, if_true]
      rw [ih _ _ hrest]
      simp
    · simp only [runs, ht, he]
      simp [ih _ _ hrest]

theorem runs_head (env : Env) (errors : List (Int × Ty)) (rest : List Int) :
    ∀ (labels : List Int) (last : Ty),
      ∃ ls tl, runs env errors rest labels last = (ls, last) :: tl ∧
        ∃ more, ls = labels ++ more := by
  induction rest with
  | nil => intro labels last; exact ⟨labels, [], rfl, [], by simp⟩
  | cons k rest ih =>
    intro labels last
    cases ht : errors.lookup k with
    | none => exact ⟨labels, [], by simp [runs, ht], [], by simp⟩
    | some t =>
      by_cases he : env.Equal last t = true
      · obtain ⟨ls, tl, h1, more, h2⟩ := ih (labels ++ [k]) last
        exact ⟨ls, tl, by simp [runs, ht, he, h1], [k] ++ more, by simp [h2]⟩
      · exact ⟨labels, runs env errors rest [k] t, by simp [runs, ht, he], [], by simp⟩

theorem runs_chain (env : Env) (errors : List (Int × Ty)) (rest : List Int) :
    ∀ (labels : List Int) (last : Ty),
      List.Chain' (fun g1 g2 : List Int × Ty => env.Equal g1.2 g2.2 = false)
        (runs env errors rest labels last) := by
  induction rest with
  | nil => intro labels last; simp [runs]
  | cons k rest ih =>
    intro labels last
    cases ht : errors.lookup k with
    | none => simp [runs, ht]
    | some t =>
      by_cases he : env.Equal last t = true
      · simp only [runs, ht, he, if_true]
        exact ih _ _
      · simp only [runs, ht, he]
        obtain ⟨ls, tl, h1, _⟩ := runs_head env errors rest [k] t
        rw [h1]
        refine List.Chain'.cons ?_ ?_
        · simpa using he
        · rw [← h1]; exact ih _ _

theorem runs_first (env : Env) (errors : List (Int × Ty)) (rest : List Int) :
    ∀ (k0 : Int) (labels : List Int) (last : Ty),
      errors.lookup k0 = some last →
      ∀ gr ∈ runs env errors rest (k0 :: labels) last,
        ∃ k ks, gr.1 = k :: ks ∧ errors.lookup k = some gr.2 := by
  induction rest with
  | nil =>
    intro k0 labels last h0 gr hgr
    simp only [runs, List.mem_singleton] at hgr
    subst hgr
    exact ⟨k0, labels, rfl, h0⟩
  | cons k rest ih =>
    intro k0 labels last h0 gr hgr
    cases ht : errors.lookup k with
    | none =>
      simp only [runs, ht, List.mem_singleton] at hgr
      subst hgr
      exact ⟨k0, labels, rfl, h0⟩
    | some t =>
      by_cases he : env.Equal last t = true
      · simp only [runs, ht, he, if_true] at hgr
        exact ih k0 (labels ++ [k]) last h0 gr (by simpa using hgr)
      · simp only [runs, ht, he, Bool.false_eq_true, if_false, List.mem_cons] at hgr
        rcases hgr with hgr | hgr
        · subst hgr
          exact ⟨k0, labels, rfl, h0⟩
        · exact ih k [] t ht gr hgr

theorem runs_members (env : Env) (errors : List (Int × Ty))
    (hrefl : ∀ a, env.Equal a a = true) (rest : List Int) :
    ∀ (labels : List Int) (last : Ty),
      (∀ k ∈ labels, ∀ t, errors.lookup k = some t → env.Equal last t = true) →
      ∀ gr ∈ runs env errors rest labels last,
        ∀ k ∈ gr.1, ∀ t, errors.lookup k = some t → env.Equal gr.2 t = true := by
  induction rest with
  | nil =>
    intro labels last hinv gr hgr
    simp only [runs, List.mem_singleton] at hgr
    subst hgr
    exact hinv
  | cons k rest ih =>
    intro labels last hinv gr hgr
    cases ht : errors.lookup k with
    | none =>
      simp only [runs, ht, List.mem_singleton] at hgr
      subst hgr
      exact hinv
    | some t =>
      by_cases he : env.Equal last t = true
      · simp only [runs, ht, he, if_true] at hgr
        refine ih (labels ++ [k]) last ?_ gr hgr
        intro k1 hk1 t1 ht1
        simp only [List.mem_append, List.mem_singleton] at hk1
        rcases hk1 with hk1 | hk1
        · exact hinv k1 hk1 t1 ht1
        · subst hk1
          rw [ht] at ht1
          cases ht1
          exact he
      · simp only [runs, ht, he, Bool.false_eq_true, if_false, List.mem_cons] at hgr
        rcases hgr with hgr | hgr
        · subst hgr
          exact hinv
        · refine ih [k] t ?_ gr hgr
          intro k1 hk1 t1 ht1
          simp only [List.mem_singleton] at hk1
          subst hk1
          rw [ht] at ht1
          cases ht1
          exact hrefl _

theorem runs_adjacent (env : Env) (errors : List (Int × Ty))
    (hrefl : ∀ a, env.Equal a a = true)
    (htrans : ∀ a b c, env.Equal a b = true → env.Equal b c = true → env.Equal a c = true)
    (rest : List Int) :
    ∀ (labels : List Int) (last : Ty),
      (∀ k ∈ rest, k ∈ errors.map Prod.fst) →
      (∀ k ∈ labels, ∀ t, errors.lookup k = some t → env.Equal last t = true) →
      ∀ (pre post : List Int) (a b : Int) (ta tb : Ty),
        labels ++ rest = pre ++ a :: b :: post →
        errors.lookup a = some ta → errors.lookup b = some tb →
        env.Equal ta tb = true →
        ∃ gr ∈ runs env errors rest labels last, a ∈ gr.1 ∧ b ∈ gr.1 := by
  induction rest with
  | nil =>
    intro labels last _ _ pre post a b ta tb hsplit _ _ _
    refine ⟨(labels, last), by simp [runs], ?_, ?_⟩
    · simp only [List.append_nil] at hsplit
      simp [hsplit]
    · simp only [List.append_nil] at hsplit
      simp [hsplit]
  | cons k rest ih =>
    intro labels last hk hinv pre post a b ta tb hsplit hta htb hab
    obtain ⟨t, ht⟩ := lookup_of_mem_keys errors k (hk k (by simp))
    have hrest : ∀ k1 ∈ rest, k1 ∈ errors.map Prod.fst := fun k1 h1 => hk k1 (by simp [h1])
    cases he : env.Equal last t with
    | true =>
      have hinv1 : ∀ k1 ∈ labels ++ [k], ∀ t1, errors.lookup k1 = some t1 →
          env.Equal last t1 = true := by
        intro k1 hk1 t1 ht1
        simp only [List.mem_append, List.mem_singleton] at hk1
        rcases hk1 with hk1 | hk1
        · exact hinv k1 hk1 t1 ht1
        · subst hk1
          rw [ht] at ht1
          cases ht1
          exact he
      obtain ⟨gr, hgr, ha, hb⟩ := ih (labels ++ [k]) last hrest hinv1 pre post a b ta tb
        (by simpa using hsplit) hta htb hab
      exact ⟨gr, by simpa [runs, ht, he] using hgr, ha, hb⟩
    | false =>
      have hinvk : ∀ k1 ∈ [k], ∀ t1, errors.lookup k1 = some t1 → env.Equal t t1 = true := by
        intro k1 hk1 t1 ht1
        simp only [List.mem_singleton] at hk1
        subst hk1
        rw [ht] at ht1
        cases ht1
        exact hrefl _
      have inTail : ∀ pre1 : List Int, k :: rest = pre1 ++ a :: b :: post →
          ∃ gr ∈ runs env errors (k :: rest) labels last, a ∈ gr.1 ∧ b ∈ gr.1 := by
        intro pre1 h1
        obtain ⟨gr, hgr, ha, hb⟩ := ih [k] t hrest hinvk pre1 post a b ta tb
          (by simpa using h1) hta htb hab
        exact ⟨gr, by simp [runs, ht, he, hgr], ha, hb⟩
      rcases List.append_eq_append_iff.mp hsplit with ⟨a1, _, h2⟩ | ⟨c1, h1, h2⟩
      · exact inTail a1 h2
      · match c1, h1, h2 with
        | [], _, h2 =>
          exact inTail [] (by simpa using h2.symm)
        | [x], h1, h2 =>
          simp only [List.singleton_append, List.cons.injEq] at h2
          obtain ⟨hax, hbk, _⟩ := h2
          subst hax
          subst hbk
          have h3 : env.Equal last ta = true := hinv a (by simp [h1]) ta hta
          rw [ht] at htb
          cases htb
          have h4 := htrans _ _ _ h3 hab
          rw [he] at h4
          exact absurd h4 (by simp)
        | x :: y :: c2, h1, h2 =>
          simp only [List.cons_append, List.cons.injEq] at h2
          obtain ⟨hax, hby, _⟩ := h2
          subst hax
          subst hby
          exact ⟨(labels, last), by simp [runs, ht, he], by simp [h1], by simp [h1]⟩

/-! ## Independence of the enumeration order of the map -/

theorem lookup_perm {l1 l2 : List (Int × Ty)} (h : l1.Perm l2) (nd : NodupKeys l1)
    (k : Int) : l1.lookup k = l2.lookup k := by
  induction h with
  | nil => rfl
  | cons x _ ih =>
    have nd1 : NodupKeys _ := (List.nodup_cons.mp nd).2
    obtain ⟨k0, t0⟩ := x
    by_cases hk : k = k0
    · subst hk; simp [List.lookup]
    · have hb : (k == k0) = false := by simpa using hk
      simp only [List.lookup, hb]
      exact ih nd1
  | swap x y l =>
    obtain ⟨kx, tx⟩ := x
    obtain ⟨ky, ty⟩ := y
    have hne : ky ≠ kx := by
      intro h
      simp [NodupKeys, h] at nd
    by_cases h1 : k = kx
    · subst h1
      have hb : (k == ky) = false := by simpa using fun h => hne h.symm
      simp [List.lookup, hb]
    · have hb1 : (k == kx) = false := by simpa using h1
      by_cases h2 : k = ky
      · subst h2; simp [List.lookup, hb1]
      · have hb2 : (k == ky) = false := by simpa using h2
        simp [List.lookup, hb1, hb2]
  | trans h1 _ ih1 ih2 =>
    have nd2 : NodupKeys _ := (List.Perm.nodup_iff (h1.map Prod.fst)).mp nd
    exact (ih1 nd).trans (ih2 nd2)

theorem sortInts_perm {l1 l2 : List (Int × Ty)} (h : l1.Perm l2) :
    sortInts (nonDefaultCodes l1) = sortInts (nonDefaultCodes l2) := by
  have hp : (nonDefaultCodes l1).Perm (nonDefaultCodes l2) := by
    unfold nonDefaultCodes
    exact (h.map Prod.fst).filter _
  have h1 : (sortInts (nonDefaultCodes l1)).Perm (sortInts (nonDefaultCodes l2)) := by
    unfold sortInts
    exact ((List.perm_insertionSort _ _).trans hp).trans (List.perm_insertionSort _ _).symm
  exact List.eq_of_perm_of_sorted h1 (sortInts_sorted _) (sortInts_sorted _)

theorem errSelectLoop_congr (env : Env) (l1 l2 : List (Int × Ty))
    (hlk : ∀ k, l1.lookup k = l2.lookup k) (rest : List Int) :
    ∀ st, errSelectLoop env l1 rest st = errSelectLoop env l2 rest st := by
  induction rest with
  | nil => intro st; rfl
  | cons k rest ih =>
    intro st
    simp only [errSelectLoop, errorsAt, hlk k, ih]

theorem errSelectFunc_perm (env : Env) {l1 l2 : List (Int × Ty)} (h : l1.Perm l2)
    (nd : NodupKeys l1) : errSelectFunc env l1 = errSelectFunc env l2 := by
  have hlk := lookup_perm h nd
  have hloop := errSelectLoop_congr env l1 l2 hlk
  simp only [errSelectFunc, h.length_eq, sortInts_perm h, errorsAt, hlk, defaultClause, hloop]

/-- C1: with at least two non-default codes and `Equal` reflexive and
transitive (symmetry is not needed), `errSelectFunc` emits a switch whose case
clauses carry label lists that concatenate to the strictly ascending list of
the non-default codes of the map, and two codes adjacent in that list whose
constructors are `Equal` stand in the label list of one clause. -/
theorem errSelectFunc_labels_cover_sorted_codes (env : Env) (errors : List (Int × Ty))
    (hnd : NodupKeys errors)
    (hrefl : ∀ a, env.Equal a a = true)
    (htrans : ∀ a b c, env.Equal a b = true → env.Equal b c = true → env.Equal a c = true)
    (h2 : 2 ≤ (nonDefaultCodes errors).length) :
    ∃ groups : List (List Int × Ty),
      errSelectFunc env errors = .ok (switchSelector env errors groups) ∧
      (groups.map Prod.fst).flatten = sortInts (nonDefaultCodes errors) ∧
      (sortInts (nonDefaultCodes errors)).Sorted (fun a b => a < b) ∧
      (∀ k, k ∈ sortInts (nonDefaultCodes errors) ↔ (k ∈ errors.map Prod.fst ∧ k ≠ -1)) ∧
      ∀ (pre post : List Int) (a b : Int) (ta tb : Ty),
        sortInts (nonDefaultCodes errors) = pre ++ a :: b :: post →
        errors.lookup a = some ta → errors.lookup b = some tb →
        env.Equal ta tb = true →
        ∃ gr ∈ groups, a ∈ gr.1 ∧ b ∈ gr.1 := by
  have hlen := length_sortInts (nonDefaultCodes errors)
  match hs : sortInts (nonDefaultCodes errors) with
  | [] => rw [hs] at hlen; simp at hlen; omega
  | [_] => rw [hs] at hlen; simp at hlen; omega
  | c0 :: c1 :: rest =>
    obtain ⟨t0, ht0, hsel⟩ := errSelectFunc_switch env errors c0 c1 rest hs
    have hmem : ∀ k ∈ c0 :: c1 :: rest, k ∈ errors.map Prod.fst := by
      intro k hk
      rw [← hs, mem_sortInts, mem_nonDefaultCodes] at hk
      exact hk.1
    have hrest : ∀ k ∈ c1 :: rest, k ∈ errors.map Prod.fst :=
      fun k hk => hmem k (List.mem_cons_of_mem _ hk)
    refine ⟨runs env errors (c1 :: rest) [c0] t0, hsel, ?_, ?_, ?_, ?_⟩
    · rw [runs_flatten env errors (c1 :: rest) [c0] t0 hrest]
      rfl
    · rw [← hs]; exact sortInts_strict errors hnd
    · intro k
      rw [← hs, mem_sortInts, mem_nonDefaultCodes]
    · intro pre post a b ta tb hsplit hta htb hab
      refine runs_adjacent env errors hrefl htrans (c1 :: rest) [c0] t0 hrest ?_
        pre post a b ta tb (by simpa using hsplit) hta htb hab
      intro k hk t ht
      simp only [List.mem_singleton] at hk
      subst hk
      rw [ht0] at ht
      cases ht
      exact hrefl _

theorem errSelectFunc_labels_cover_sorted_codes_witness :
    NodupKeys exErrors ∧ 2 ≤ (nonDefaultCodes exErrors).length ∧
    ∃ groups : List (List Int × Ty),
      errSelectFunc stdEnv exErrors = .ok (switchSelector stdEnv exErrors groups) ∧
      (groups.map Prod.fst).flatten = sortInts (nonDefaultCodes exErrors) ∧
      (sortInts (nonDefaultCodes exErrors)).Sorted (fun a b => a < b) ∧
      (∀ k, k ∈ sortInts (nonDefaultCodes exErrors) ↔
        (k ∈ exErrors.map Prod.fst ∧ k ≠ -1)) ∧
      ∀ (pre post : List Int) (a b : Int) (ta tb : Ty),
        sortInts (nonDefaultCodes exErrors) = pre ++ a :: b :: post →
        exErrors.lookup a = some ta → exErrors.lookup b = some tb →
        stdEnv.Equal ta tb = true →
        ∃ gr ∈ groups, a ∈ gr.1 ∧ b ∈ gr.1 :=
  ⟨by decide, by decide,
   errSelectFunc_labels_cover_sorted_codes stdEnv exErrors (by decide)
     (by simp [stdEnv])
     (by intro a b c; simp only [stdEnv, decide_eq_true_eq]; intro h1 h2; exact h1.trans h2)
     (by decide)⟩

theorem errSelectFunc_of_perm_eval (env : Env) (base errors : List (Int × Ty))
    (groups : List (List Int × Ty)) (nd0 : NodupKeys base) (hp : errors.Perm base)
    (h : errSelectFunc env base = .ok (switchSelector env base groups)) :
    errSelectFunc env errors = .ok (switchSelector env errors groups) := by
  have nd : NodupKeys errors := (List.Perm.nodup_iff (hp.map Prod.fst)).mpr nd0
  have hd : defaultClause env errors = defaultClause env base := by
    simp only [defaultClause, lookup_perm hp nd]
  rw [errSelectFunc_perm env hp nd, h]
  simp only [switchSelector, switchStmt, hd]

/-- C2: with at least two non-default codes the case clauses of the emitted
switch carry non-empty contiguous runs of the sorted codes, in order; each
clause returns the constructor of its first code; and two consecutive clauses
never return `Equal` constructors. In particular
`{404: NotFoundErr, 409: ConflictErr, 410: NotFoundErr}` gives the three
clauses `[404]`, `[409]`, `[410]`, and `{404: E, 405: E, 409: F}` with `E`
not `Equal` to `F` gives the two clauses `[404, 405]` and `[409]`, whatever
the enumeration order of the map. -/
theorem errSelectFunc_merges_contiguous_runs_only (env : Env) :
    (∀ errors : List (Int × Ty), 2 ≤ (nonDefaultCodes errors).length →
      ∃ groups : List (List Int × Ty),
        errSelectFunc env errors = .ok (switchSelector env errors groups) ∧
        (groups.map Prod.fst).flatten = sortInts (nonDefaultCodes errors) ∧
        (∀ gr ∈ groups, gr.1 ≠ [] ∧ gr.1 <:+: sortInts (nonDefaultCodes errors)) ∧
        (∀ gr ∈ groups, ∃ k ks, gr.1 = k :: ks ∧ errors.lookup k = some gr.2) ∧
        List.Chain' (fun g1 g2 : List Int × Ty => env.Equal g1.2 g2.2 = false) groups) ∧
    (∀ nf cf : Ty, env.Equal nf cf = false → env.Equal cf nf = false →
      ∀ errors : List (Int × Ty), errors.Perm [(404, nf), (409, cf), (410, nf)] →
        errSelectFunc env errors =
          .ok (switchSelector env errors [([404], nf), ([409], cf), ([410], nf)])) ∧
    (∀ e f : Ty, env.Equal e e = true → env.Equal e f = false →
      ∀ errors : List (Int × Ty), errors.Perm [(404, e), (405, e), (409, f)] →
        errSelectFunc env errors =
          .ok (switchSelector env errors [([404, 405], e), ([409], f)])) := by
  refine ⟨?_, ?_, ?_⟩
  · intro errors h2
    have hlen := length_sortInts (nonDefaultCodes errors)
    match hs : sortInts (nonDefaultCodes errors) with
    | [] => rw [hs] at hlen; simp at hlen; omega
    | [_] => rw [hs] at hlen; simp at hlen; omega
    | c0 :: c1 :: rest =>
      obtain ⟨t0, ht0, hsel⟩ := errSelectFunc_switch env errors c0 c1 rest hs
      have hrest : ∀ k ∈ c1 :: rest, k ∈ errors.map Prod.fst := by
        intro k hk
        have hk1 : k ∈ c0 :: c1 :: rest := List.mem_cons_of_mem _ hk
        rw [← hs, mem_sortInts, mem_nonDefaultCodes] at hk1
        exact hk1.1
      have hflat := runs_flatten env errors (c1 :: rest) [c0] t0 hrest
      have hfirst := runs_first env errors (c1 :: rest) c0 [] t0 ht0
      refine ⟨runs env errors (c1 :: rest) [c0] t0, hsel, ?_, ?_, hfirst, ?_⟩
      · rw [hflat]; rfl
      · intro gr hgr
        constructor
        · obtain ⟨k, ks, hk, _⟩ := hfirst gr hgr
          rw [hk]; simp
        · have hin : gr.1 <:+: ((runs env errors (c1 :: rest) [c0] t0).map Prod.fst).flatten :=
            List.infix_of_mem_flatten (List.mem_map_of_mem _ hgr)
          rw [hflat] at hin
          exact hin
      · exact runs_chain env errors (c1 :: rest) [c0] t0
  · intro nf cf h1 h2 errors hp
    refine errSelectFunc_of_perm_eval env _ errors _ (by simp [NodupKeys]) hp ?_
    simp [errSelectFunc, nonDefaultCodes, sortInts, errorsAt, List.lookup, bind, Except.bind,
      errSelectLoop, h1, h2, groupClause, litLabels, switchSelector, switchStmt]
  · intro e f h1 h2 errors hp
    refine errSelectFunc_of_perm_eval env _ errors _ (by simp [NodupKeys]) hp ?_
    simp [errSelectFunc, nonDefaultCodes, sortInts, errorsAt, List.lookup, bind, Except.bind,
      errSelectLoop, h1, h2, groupClause, litLabels, switchSelector, switchStmt]

theorem errSelectFunc_merges_contiguous_runs_only_witness :
    (2 ≤ (nonDefaultCodes exErrors).length ∧
      ∃ groups : List (List Int × Ty),
        errSelectFunc stdEnv exErrors = .ok (switchSelector stdEnv exErrors groups) ∧
        (groups.map Prod.fst).flatten = sortInts (nonDefaultCodes exErrors) ∧
        (∀ gr ∈ groups, gr.1 ≠ [] ∧ gr.1 <:+: sortInts (nonDefaultCodes exErrors)) ∧
        (∀ gr ∈ groups, ∃ k ks, gr.1 = k :: ks ∧ exErrors.lookup k = some gr.2) ∧
        List.Chain' (fun g1 g2 : List Int × Ty => stdEnv.Equal g1.2 g2.2 = false) groups) ∧
    errSelectFunc stdEnv [(410, notFoundErr), (404, notFoundErr), (409, conflictErr)] =
      .ok (switchSelector stdEnv [(410, notFoundErr), (404, notFoundErr), (409, conflictErr)]
        [([404], notFoundErr), ([409], conflictErr), ([410], notFoundErr)]) ∧
    errSelectFunc stdEnv [(409, conflictErr), (404, notFoundErr), (405, notFoundErr)] =
      .ok (switchSelector stdEnv [(409, conflictErr), (404, notFoundErr), (405, notFoundErr)]
        [([404, 405], notFoundErr), ([409], conflictErr)]) :=
  ⟨⟨by decide, (errSelectFunc_merges_contiguous_runs_only stdEnv).1 exErrors (by decide)⟩,
   (errSelectFunc_merges_contiguous_runs_only stdEnv).2.1 notFoundErr conflictErr rfl rfl _
     (List.Perm.trans (List.Perm.swap _ _ _) (List.Perm.cons _ (List.Perm.swap _ _ _))),
   (errSelectFunc_merges_contiguous_runs_only stdEnv).2.2 notFoundErr conflictErr rfl rfl _
     (List.Perm.trans (List.Perm.swap _ _ _) (List.Perm.cons _ (List.Perm.swap _ _ _)))⟩

/-! ## Running the emitted selectors -/

theorem any_litLabels (status : Int) (ks : List Int) :
    (litLabels ks).any (labelMatches status) = decide (status ∈ ks) := by
  induction ks with
  | nil => simp [litLabels]
  | cons k ks ih =>
    simp only [litLabels, List.map_cons, List.any_cons, labelMatches] at ih ⊢
    rw [ih]
    by_cases h : status = k
    · subst h; simp
    · have h1 : (k == status) = false := by simpa using fun h2 => h h2.symm
      simp [h1, h]

theorem evalSwitch_default (env : Env) (errors : List (Int × Ty)) (status : Int)
    (dflt : Option Code) :
    evalSwitch status [defaultClause env errors] dflt =
      some (some (match errors.lookup (-1) with
        | some d => env.initType d
        | none => .Stmt [.Nil])) := by
  unfold defaultClause
  cases errors.lookup (-1) <;> simp [evalSwitch]

theorem evalSwitch_no_match (env : Env) (errors : List (Int × Ty)) (status : Int)
    (groups : List (List Int × Ty)) (h : ∀ gr ∈ groups, status ∉ gr.1) (dflt : Option Code) :
    evalSwitch status (groups.map (groupClause env) ++ [defaultClause env errors]) dflt =
      some (some (match errors.lookup (-1) with
        | some d => env.initType d
        | none => .Stmt [.Nil])) := by
  induction groups with
  | nil => simpa using evalSwitch_default env errors status dflt
  | cons gr groups ih =>
    have h1 : status ∉ gr.1 := h gr (by simp)
    have h2 : ∀ g ∈ groups, status ∉ g.1 := fun g hg => h g (by simp [hg])
    simp only [List.map_cons, List.cons_append, groupClause, caseClause, evalSwitch,
      any_litLabels, h1, decide_False, Bool.false_eq_true, if_false]
    simpa [groupClause, caseClause] using ih h2

theorem evalSelector_switch (env : Env) (errors : List (Int × Ty)) (status : Int)
    (groups : List (List Int × Ty)) :
    evalSelector (switchSelector env errors groups) status =
      match evalSwitch status
          (groups.map (groupClause env) ++ [defaultClause env errors]) none with
      | some (some e) => some e
      | some none => none
      | none => none := by
  simp only [switchSelector, esf, switchStmt, List.cons_append, List.nil_append, evalSelector,
    evalStmts]

/-! ## The three shapes of the selector -/

theorem errSelectFunc_empty (env : Env) (errors : List (Int × Ty))
    (hlen : errors.length = 0) : errSelectFunc env errors = .ok (.Stmt [.Nil]) := by
  simp [errSelectFunc, hlen]

theorem errSelectFunc_zero_codes (env : Env) (errors : List (Int × Ty))
    (hlen : errors.length ≠ 0) (hs : sortInts (nonDefaultCodes errors) = []) :
    ∃ t, errors.lookup (-1) = some t ∧
      errSelectFunc env errors =
        .ok (.Stmt (esf ++ [.Block [.Stmt [.Return [env.initType t]]]])) := by
  have hall : ∀ k ∈ errors.map Prod.fst, k = -1 := by
    intro k hk
    by_contra hne
    have : k ∈ sortInts (nonDefaultCodes errors) := by
      rw [mem_sortInts, mem_nonDefaultCodes]; exact ⟨hk, hne⟩
    rw [hs] at this
    simp at this
  have hmem : (-1 : Int) ∈ errors.map Prod.fst := by
    cases errors with
    | nil => simp at hlen
    | cons e es =>
      have := hall e.1 (by simp)
      simp [← this]
  obtain ⟨t, ht⟩ := lookup_of_mem_keys errors (-1) hmem
  exact ⟨t, ht, by simp [errSelectFunc, hlen, hs, errorsAt, ht, bind, Except.bind]⟩

theorem errSelectFunc_one_code (env : Env) (errors : List (Int × Ty)) (c : Int)
    (hs : sortInts (nonDefaultCodes errors) = [c]) :
    ∃ t, errors.lookup c = some t ∧
      errSelectFunc env errors =
        .ok (.Stmt (esf ++ [.Block
          [.Stmt [.If [.Stmt [.Id "code", .Op "==", .Lit c]],
                  .Block [.Stmt [.Return [env.initType t]]]],
           .Stmt [.Return [.Stmt [.Nil]]]]])) := by
  have hc : c ∈ errors.map Prod.fst := by
    have : c ∈ sortInts (nonDefaultCodes errors) := by rw [hs]; simp
    rw [mem_sortInts, mem_nonDefaultCodes] at this
    exact this.1
  have hlen : errors.length ≠ 0 := by
    intro h0
    have : errors = [] := List.length_eq_zero.mp h0
    subst this
    simp at hc
  obtain ⟨t, ht⟩ := lookup_of_mem_keys errors c hc
  exact ⟨t, ht, by simp [errSelectFunc, hlen, hs, errorsAt, ht, bind, Except.bind]⟩

theorem sortInts_singleton (codes : List Int) (c : Int) (h : codes = [c]) :
    sortInts codes = [c] := by
  subst h
  simp [sortInts]

theorem errSelectFunc_func (env : Env) (errors : List (Int × Ty))
    (hlen : errors.length ≠ 0) :
    ∃ body, errSelectFunc env errors = .ok (.Stmt (esf ++ [.Block body])) := by
  match hs : sortInts (nonDefaultCodes errors) with
  | [] =>
    obtain ⟨t, _, h⟩ := errSelectFunc_zero_codes env errors hlen hs
    exact ⟨_, h⟩
  | [c] =>
    obtain ⟨t, _, h⟩ := errSelectFunc_one_code env errors c hs
    exact ⟨_, h⟩
  | c0 :: c1 :: rest =>
    obtain ⟨t0, _, h⟩ := errSelectFunc_switch env errors c0 c1 rest hs
    exact ⟨_, h⟩

theorem errSelectFunc_total (env : Env) (errors : List (Int × Ty)) :
    ∃ sel, errSelectFunc env errors = .ok sel := by
  by_cases hlen : errors.length = 0
  · exact ⟨_, errSelectFunc_empty env errors hlen⟩
  · obtain ⟨body, h⟩ := errSelectFunc_func env errors hlen
    exact ⟨_, h⟩

/-- C3 (amended): for a non-empty `Errors` map and a status that is not a key
of it, the emitted selector returns `nil` when the map has exactly one
non-default code, and otherwise the constructor of the default entry when the
map has one and `nil` when it has none. -/
theorem errSelectFunc_unmapped_status (env : Env) (errors : List (Int × Ty)) (status : Int)
    (hne : errors ≠ []) (hkey : status ∉ errors.map Prod.fst) :
    ∃ sel, errSelectFunc env errors = .ok sel ∧
      evalSelector sel status =
        some (if (nonDefaultCodes errors).length = 1 then .Stmt [.Nil]
              else match errors.lookup (-1) with
                | some d => env.initType d
                | none => .Stmt [.Nil]) := by
  have hlen : errors.length ≠ 0 := by
    intro h0; exact hne (List.length_eq_zero.mp h0)
  have hl := length_sortInts (nonDefaultCodes errors)
  match hs : sortInts (nonDefaultCodes errors) with
  | [] =>
    obtain ⟨t, ht, h⟩ := errSelectFunc_zero_codes env errors hlen hs
    rw [hs] at hl
    have h1 : (nonDefaultCodes errors).length ≠ 1 := by simp at hl; omega
    exact ⟨_, h, by simp [evalSelector, esf, evalStmts, h1, ht]⟩
  | [c] =>
    obtain ⟨t, ht, h⟩ := errSelectFunc_one_code env errors c hs
    rw [hs] at hl
    have h1 : (nonDefaultCodes errors).length = 1 := by simp at hl; omega
    have hc : status ≠ c := by
      intro hsc
      subst hsc
      exact hkey (mem_keys_of_lookup errors _ t ht)
    exact ⟨_, h, by simp [evalSelector, esf, evalStmts, h1, hc]⟩
  | c0 :: c1 :: rest =>
    obtain ⟨t0, ht0, h⟩ := errSelectFunc_switch env errors c0 c1 rest hs
    rw [hs] at hl
    have h1 : (nonDefaultCodes errors).length ≠ 1 := by simp at hl; omega
    have hrest : ∀ k ∈ c1 :: rest, k ∈ errors.map Prod.fst := by
      intro k hk
      have hk1 : k ∈ c0 :: c1 :: rest := List.mem_cons_of_mem _ hk
      rw [← hs, mem_sortInts, mem_nonDefaultCodes] at hk1
      exact hk1.1
    have hflat := runs_flatten env errors (c1 :: rest) [c0] t0 hrest
    have hno : ∀ gr ∈ runs env errors (c1 :: rest) [c0] t0, status ∉ gr.1 := by
      intro gr hgr hin
      have h2 : status ∈ ((runs env errors (c1 :: rest) [c0] t0).map Prod.fst).flatten :=
        List.mem_flatten.mpr ⟨gr.1, List.mem_map_of_mem _ hgr, hin⟩
      rw [hflat] at h2
      have h3 : status ∈ sortInts (nonDefaultCodes errors) := by rw [hs]; simpa using h2
      rw [mem_sortInts, mem_nonDefaultCodes] at h3
      exact hkey h3.1
    refine ⟨_, h, ?_⟩
    rw [evalSelector_switch, evalSwitch_no_match env errors status _ hno]
    simp [h1]

theorem errSelectFunc_unmapped_status_witness :
    exErrors ≠ [] ∧ (500 : Int) ∉ exErrors.map Prod.fst ∧
    ∃ sel, errSelectFunc stdEnv exErrors = .ok sel ∧
      evalSelector sel 500 =
        some (if (nonDefaultCodes exErrors).length = 1 then .Stmt [.Nil]
              else match exErrors.lookup (-1) with
                | some d => stdEnv.initType d
                | none => .Stmt [.Nil]) :=
  ⟨by simp [exErrors], by decide,
   errSelectFunc_unmapped_status stdEnv exErrors 500 (by simp [exErrors]) (by decide)⟩

/-- C3 as stated does not hold: for the map `{404: NotFoundErr, -1: ConflictErr}`
and the unmapped status 500 the selector returns `nil`, not the constructor
of the default entry. -/
theorem errSelectFunc_unmapped_status_default_ignored :
    exOneCodeErrors ≠ [] ∧ (500 : Int) ∉ exOneCodeErrors.map Prod.fst ∧
    exOneCodeErrors.lookup (-1) = some conflictErr ∧
    ∃ sel, errSelectFunc stdEnv exOneCodeErrors = .ok sel ∧
      evalSelector sel 500 = some (.Stmt [.Nil]) ∧
      evalSelector sel 500 ≠ some (stdEnv.initType conflictErr) :=
  ⟨by simp [exOneCodeErrors], by decide, rfl,
   .Stmt [.Func, .Params [.Stmt [.Id "code", .Int]], .Params [.Stmt [.Error]],
     .Block
       [.Stmt [.If [.Stmt [.Id "code", .Op "==", .Lit 404]],
               .Block [.Stmt [.Return [stdEnv.initType notFoundErr]]]],
        .Stmt [.Return [.Stmt [.Nil]]]]],
   rfl, rfl, fun h => by
    have h2 : some (Code.Stmt [.Nil]) = some (stdEnv.initType conflictErr) := h
    simp [stdEnv] at h2⟩

/-- C4: with exactly one non-default code `c`, whether or not the map has a
default entry, `errSelectFunc` emits `if code == c { return <Errors[c]> }`
followed by `return nil`: the selector returns the constructor of `c` on
status `c` and `nil` on every other status, and it is the same selector for
every map with that one code and that constructor, whatever its default
entry. -/
theorem errSelectFunc_single_code_ignores_default (env : Env) (errors : List (Int × Ty))
    (c : Int) (h1 : nonDefaultCodes errors = [c]) :
    ∃ t, errors.lookup c = some t ∧
      errSelectFunc env errors =
        .ok (.Stmt [.Func, .Params [.Stmt [.Id "code", .Int]], .Params [.Stmt [.Error]],
          .Block
            [.Stmt [.If [.Stmt [.Id "code", .Op "==", .Lit c]],
                    .Block [.Stmt [.Return [env.initType t]]]],
             .Stmt [.Return [.Stmt [.Nil]]]]]) ∧
      (∀ sel, errSelectFunc env errors = .ok sel →
        evalSelector sel c = some (env.initType t) ∧
        ∀ status, status ≠ c → evalSelector sel status = some (.Stmt [.Nil])) ∧
      (∀ other : List (Int × Ty), nonDefaultCodes other = [c] →
        other.lookup c = some t → errSelectFunc env other = errSelectFunc env errors) := by
  obtain ⟨t, ht, h⟩ := errSelectFunc_one_code env errors c (sortInts_singleton _ c h1)
  refine ⟨t, ht, by simpa [esf] using h, ?_, ?_⟩
  · intro sel hsel
    rw [h] at hsel
    cases hsel
    constructor
    · simp [evalSelector, esf, evalStmts]
    · intro status hne
      simp [evalSelector, esf, evalStmts, hne]
  · intro other ho hlk
    obtain ⟨t1, ht1, h2⟩ := errSelectFunc_one_code env other c (sortInts_singleton _ c ho)
    rw [hlk] at ht1
    cases ht1
    rw [h, h2]

theorem errSelectFunc_single_code_ignores_default_witness :
    nonDefaultCodes exOneCodeErrors = [404] ∧
    ∃ t, exOneCodeErrors.lookup 404 = some t ∧
      errSelectFunc stdEnv exOneCodeErrors =
        .ok (.Stmt [.Func, .Params [.Stmt [.Id "code", .Int]], .Params [.Stmt [.Error]],
          .Block
            [.Stmt [.If [.Stmt [.Id "code", .Op "==", .Lit 404]],
                    .Block [.Stmt [.Return [stdEnv.initType t]]]],
             .Stmt [.Return [.Stmt [.Nil]]]]]) ∧
      (∀ sel, errSelectFunc stdEnv exOneCodeErrors = .ok sel →
        evalSelector sel 404 = some (stdEnv.initType t) ∧
        ∀ status, status ≠ 404 → evalSelector sel status = some (.Stmt [.Nil])) ∧
      (∀ other : List (Int × Ty), nonDefaultCodes other = [404] →
        other.lookup 404 = some t →
        errSelectFunc stdEnv other = errSelectFunc stdEnv exOneCodeErrors) :=
  ⟨rfl, errSelectFunc_single_code_ignores_default stdEnv exOneCodeErrors 404 rfl⟩

/-! ## The shape of the output of `convertClientMethod` -/

theorem methodBlock_inv (env : Env) (m : Method) (ps : ParamState)
    (errRet0 successRets0 body : List Code)
    (h : methodBlock env m ps errRet0 successRets0 = .ok body) :
    ∃ ret0 retTail sh qs oq hs sel,
      m.Return = ret0 :: retTail ∧
      returnShape env ret0 m.Return.length errRet0 successRets0 = .ok sh ∧
      setQueryArgs sh.errRet ps.queryArgs = .ok qs ∧
      setOptQueryArgs sh.errRet (decide (ps.queryArgs.length > 0)) ps.optQueryArgs = .ok oq ∧
      setHeaderArgs sh.errRet ps.headerArgs = .ok hs ∧
      errSelectFunc env m.Errors = .ok sel ∧
      body = sh.g ++ setPathArgs sh.errRet m.Path ps.fmtArgs ++ qs ++ oq.1 ++
        [.Stmt [.Stmt sh.reqDef], newRequestStmt m sh oq.2 ps.body,
         errCheck sh.errResp sh.errRet, .Stmt [.Line]] ++
        hs ++ respDefStmts sh.respDef ++ [doStmt m sh sel] ++
        (if isIter ret0 then [] else [errCheck sh.errResp sh.errRet, .Stmt [.Line]]) ++
        [.Stmt [.Return sh.successRets]] := by
  unfold methodBlock at h
  cases hr : m.Return with
  | nil => simp [hr] at h
  | cons ret0 retTail =>
    simp only [hr, bind, Except.bind] at h
    split at h
    · cases h
    · rename_i sh hsh
      split at h
      · cases h
      · rename_i qs hqs
        split at h
        · cases h
        · rename_i oq hoq
          split at h
          · cases h
          · rename_i hs hhs
            split at h
            · cases h
            · rename_i sel hsel
              simp only [Except.ok.injEq] at h
              refine ⟨ret0, retTail, sh, qs, oq, hs, sel, rfl, ?_, hqs, hoq, hhs, hsel, ?_⟩
              · simpa using hsh
              · rw [← h]
                cases isIter ret0 <;> simp

theorem convertClientMethod_inv (env : Env) (m : Method) (decls : List TypeDecl)
    (out : List Code) (h : convertClientMethod env m decls = .ok out) :
    ∃ ps errRet0 body,
      paramsLoop env decls m.Params
        ⟨[], [], [], [], .Stmt [.Nil], [.Stmt [.Id "ctx", .Qual "context" "Context"]]⟩ = .ok ps ∧
      mkErrRet (retsLoop env m.Return [] []).2 = .ok errRet0 ∧
      methodBlock env m ps errRet0 (retsLoop env m.Return [] []).2 = .ok body ∧
      out = [.Stmt [.Comment (env.formatComment m.Comment)],
             .Stmt [.Func, .Params [.Stmt [.Id m.Receiver.ID, .Op "*", .Id m.Receiver.Typ]],
                    .Id m.Name, .Params ps.params, .Params (retsLoop env m.Return [] []).1,
                    .Block body]] := by
  unfold convertClientMethod at h
  simp only [bind, Except.bind] at h
  split at h
  · cases h
  · rename_i ps hps
    split at h
    · cases h
    · rename_i errRet0 herr
      split at h
      · cases h
      · rename_i body hbody
        simp only [Except.ok.injEq] at h
        exact ⟨ps, errRet0, body, hps, herr, hbody, h.symm⟩

theorem classifyParam_spec (env : Env) (decls : List TypeDecl) (p : Param)
    (st st1 : ParamState) (h : classifyParam env decls p st = .ok st1) :
    st1.fmtArgs = st.fmtArgs ++ [p].filter (fun p => decide (p.Kind = Kind.Path)) ∧
    st1.queryArgs = st.queryArgs ++ [p].filter (fun p => decide (p.Kind = Kind.Query)) ∧
    st1.headerArgs = st.headerArgs ++ [p].filter (fun p => decide (p.Kind = Kind.Header)) ∧
    st1.params = st.params := by
  unfold classifyParam at h
  cases hk : p.Kind <;> simp only [hk, bind, Except.bind] at h
  case Opts =>
    split at h
    · cases h
    · simp only [Except.ok.injEq] at h
      subst h
      simp [hk]
  all_goals
    simp only [Except.ok.injEq] at h
    subst h
    simp [hk]

theorem paramsLoop_spec (env : Env) (decls : List TypeDecl) (params : List Param) :
    ∀ st st1 : ParamState, paramsLoop env decls params st = .ok st1 →
      st1.fmtArgs = st.fmtArgs ++ params.filter (fun p => decide (p.Kind = Kind.Path)) ∧
      st1.queryArgs = st.queryArgs ++ params.filter (fun p => decide (p.Kind = Kind.Query)) ∧
      st1.headerArgs =
        st.headerArgs ++ params.filter (fun p => decide (p.Kind = Kind.Header)) ∧
      st1.params =
        st.params ++ params.map (fun p => Code.Stmt ([.Id p.Arg] ++ env.writeType p.Typ)) := by
  induction params with
  | nil =>
    intro st st1 h
    simp only [paramsLoop, Except.ok.injEq] at h
    subst h
    simp
  | cons p rest ih =>
    intro st st1 h
    simp only [paramsLoop, bind, Except.bind] at h
    split at h
    · cases h
    · rename_i st2 hst2
      obtain ⟨h1, h2, h3, h4⟩ := classifyParam_spec env decls p st st2 hst2
      obtain ⟨i1, i2, i3, i4⟩ := ih _ _ h
      simp only at i1 i2 i3 i4
      refine ⟨?_, ?_, ?_, ?_⟩
      · rw [i1, h1, List.append_assoc, ← List.filter_append]; rfl
      · rw [i2, h2, List.append_assoc, ← List.filter_append]; rfl
      · rw [i3, h3, List.append_assoc, ← List.filter_append]; rfl
      · rw [i4, h4]; simp

theorem setPathArgs_ends_with_assign (errRet : List Code) (path : String)
    (args : List Param) :
    ∃ init rhs, setPathArgs errRet path args =
      init ++ [.Stmt (.Id "p" :: .Op ":=" :: rhs)] := by
  unfold setPathArgs
  by_cases h : args.length = 0
  · exact ⟨[], [.LitStr path], by simp [h]⟩
  · exact ⟨_, _, by simp only [h, if_false]; rfl⟩

theorem setOptQueryArgs_shape (errRet : List Code) (qDefined : Bool) (args : List Field)
    (r : List Code × Code) (h : setOptQueryArgs errRet qDefined args = .ok r) :
    (args = [] ∧ r.1 = []) ∨
    (args ≠ [] ∧ ∃ init blk, r.1 =
      init ++ [.Stmt [.If [.Stmt [.Id "opts", .Op "!=", .Nil]], .Block blk]]) := by
  unfold setOptQueryArgs at h
  by_cases h0 : args.length = 0
  · left
    refine ⟨List.length_eq_zero.mp h0, ?_⟩
    cases qDefined <;> simp [h0] at h <;> rw [← h]
  · right
    refine ⟨fun hn => h0 (by simp [hn]), ?_⟩
    simp only [h0, if_false, bind, Except.bind] at h
    split at h
    · cases h
    · simp only [Except.ok.injEq] at h
      rw [← h]
      exact ⟨_, _, rfl⟩

theorem returnShape_g (env : Env) (ret0 : Ty) (n : Nat) (errRet successRets : List Code)
    (sh : Shape) (h : returnShape env ret0 n errRet successRets = .ok sh) :
    sh.g = [] ∨ ∃ decl, sh.g = [.Stmt (.Id "iter" :: .Op ":=" :: decl), .Stmt [.Line]] := by
  unfold returnShape at h
  split at h
  · split at h
    · split at h
      · simp only [Except.ok.injEq] at h
        right
        rw [← h]
        exact ⟨_, rfl⟩
      · cases h
    · simp only [Except.ok.injEq] at h
      left; rw [← h]
    · simp only [Except.ok.injEq] at h
      left; rw [← h]
  · simp only [Except.ok.injEq] at h
    left; rw [← h]

/-- C5: for an empty `Errors` map `errSelectFunc` returns the nil marker, so
that the `Do` call of every synthesized method with an empty map has `nil` as
its fourth argument; for a non-empty map it returns a function literal with
the signature `func(code int) error`. -/
theorem errSelectFunc_nil_iff_no_errors (env : Env) :
    (∀ errors : List (Int × Ty), errors.length = 0 →
      errSelectFunc env errors = .ok (.Stmt [.Nil])) ∧
    (∀ (m : Method) (decls : List TypeDecl) (out : List Code),
      m.Errors.length = 0 → convertClientMethod env m decls = .ok out →
      ∃ (cmt recv : Code) (params rets pre post errResp : List Code) (doResp : Code),
        out = [cmt, .Stmt [.Func, recv, .Id m.Name, .Params params, .Params rets,
          .Block (pre ++
            [.Stmt [.Lst [.Stmt [.Id "_"], .Stmt errResp], .Op "=",
               .Id m.Receiver.ID, .Dot "backend", .Dot "Do",
               .Call [.Stmt [.Id "ctx"], .Stmt [.Id "req"], doResp, .Stmt [.Nil]]]] ++
            post)]]) ∧
    (∀ errors : List (Int × Ty), errors.length ≠ 0 →
      ∃ body, errSelectFunc env errors =
        .ok (.Stmt [.Func, .Params [.Stmt [.Id "code", .Int]], .Params [.Stmt [.Error]],
          .Block body])) := by
  refine ⟨errSelectFunc_empty env, ?_, ?_⟩
  · intro m decls out hlen h
    obtain ⟨ps, errRet0, body, _, _, hbody, hout⟩ := convertClientMethod_inv env m decls out h
    obtain ⟨ret0, retTail, sh, qs, oq, hs, sel, _, _, _, _, _, hsel, hb⟩ :=
      methodBlock_inv env m ps errRet0 _ body hbody
    rw [errSelectFunc_empty env m.Errors hlen] at hsel
    cases hsel
    refine ⟨.Stmt [.Comment (env.formatComment m.Comment)],
      .Params [.Stmt [.Id m.Receiver.ID, .Op "*", .Id m.Receiver.Typ]],
      ps.params, (retsLoop env m.Return [] []).1,
      sh.g ++ setPathArgs sh.errRet m.Path ps.fmtArgs ++ qs ++ oq.1 ++
        [.Stmt [.Stmt sh.reqDef], newRequestStmt m sh oq.2 ps.body,
         errCheck sh.errResp sh.errRet, .Stmt [.Line]] ++
        hs ++ respDefStmts sh.respDef,
      (if isIter ret0 then [] else [errCheck sh.errResp sh.errRet, .Stmt [.Line]]) ++
        [.Stmt [.Return sh.successRets]],
      sh.errResp, sh.doResp, ?_⟩
    rw [hout, hb]
    simp only [doStmt, List.append_assoc]
  · intro errors hlen
    obtain ⟨body, h⟩ := errSelectFunc_func env errors hlen
    exact ⟨body, by simpa [esf] using h⟩

theorem errSelectFunc_nil_iff_no_errors_witness :
    errSelectFunc stdEnv [] = .ok (.Stmt [.Nil]) ∧
    (∃ out, exPointerMethod.Errors.length = 0 ∧
      convertClientMethod stdEnv exPointerMethod exDecls = .ok out ∧
      ∃ (cmt recv : Code) (params rets pre post errResp : List Code) (doResp : Code),
        out = [cmt, .Stmt [.Func, recv, .Id exPointerMethod.Name, .Params params, .Params rets,
          .Block (pre ++
            [.Stmt [.Lst [.Stmt [.Id "_"], .Stmt errResp], .Op "=",
               .Id exPointerMethod.Receiver.ID, .Dot "backend", .Dot "Do",
               .Call [.Stmt [.Id "ctx"], .Stmt [.Id "req"], doResp, .Stmt [.Nil]]]] ++
            post)]]) ∧
    (exErrors.length ≠ 0 ∧
      ∃ body, errSelectFunc stdEnv exErrors =
        .ok (.Stmt [.Func, .Params [.Stmt [.Id "code", .Int]], .Params [.Stmt [.Error]],
          .Block body])) :=
  ⟨(errSelectFunc_nil_iff_no_errors stdEnv).1 [] rfl,
   ⟨_, rfl, rfl, (errSelectFunc_nil_iff_no_errors stdEnv).2.1 exPointerMethod exDecls _ rfl rfl⟩,
   ⟨by decide, (errSelectFunc_nil_iff_no_errors stdEnv).2.2 exErrors (by decide)⟩⟩

/-- C6: the body of every synthesized method is, in this order: the iterator
declaration when there is one; the path statements, ending with the
assignment of `p`; the statements of the required query parameters; the
statements of the optional query fields, ending with the `opts != nil` block
when there is one; the `NewRequest` call with its error check; the header
statements; the response declaration when there is one; the `Do` call; its
error check when the shape has one; and the final return. Each segment is
the output of its synthesizer on the parameters of its kind, in the order of
the method. -/
theorem convertClientMethod_phase_order (env : Env) (m : Method) (decls : List TypeDecl)
    (out : List Code) (h : convertClientMethod env m decls = .ok out) :
    ∃ (sh : Shape) (optFields : List Field) (bodyRef qref sel : Code)
      (params rets pathInit pathRhs query optq hdr post : List Code),
      (sh.g = [] ∨ ∃ decl, sh.g = [.Stmt (.Id "iter" :: .Op ":=" :: decl), .Stmt [.Line]]) ∧
      setPathArgs sh.errRet m.Path (m.Params.filter (fun p => decide (p.Kind = Kind.Path))) =
        pathInit ++ [.Stmt (.Id "p" :: .Op ":=" :: pathRhs)] ∧
      setQueryArgs sh.errRet (m.Params.filter (fun p => decide (p.Kind = Kind.Query))) =
        .ok query ∧
      setOptQueryArgs sh.errRet
        (decide ((m.Params.filter (fun p => decide (p.Kind = Kind.Query))).length > 0))
        optFields = .ok (optq, qref) ∧
      ((optFields = [] ∧ optq = []) ∨
       (optFields ≠ [] ∧ ∃ init blk, optq =
          init ++ [.Stmt [.If [.Stmt [.Id "opts", .Op "!=", .Nil]], .Block blk]])) ∧
      setHeaderArgs sh.errRet (m.Params.filter (fun p => decide (p.Kind = Kind.Header))) =
        .ok hdr ∧
      errSelectFunc env m.Errors = .ok sel ∧
      (post = [] ∨ post = [errCheck sh.errResp sh.errRet, .Stmt [.Line]]) ∧
      out =
        [.Stmt [.Comment (env.formatComment m.Comment)],
         .Stmt [.Func, .Params [.Stmt [.Id m.Receiver.ID, .Op "*", .Id m.Receiver.Typ]],
           .Id m.Name, .Params params, .Params rets,
           .Block (sh.g ++
             (pathInit ++ [.Stmt (.Id "p" :: .Op ":=" :: pathRhs)]) ++
             query ++
             optq ++
             [.Stmt [.Stmt sh.reqDef],
              .Stmt [.Lst [.Stmt [.Id "req"], .Stmt sh.errResp], .Op sh.reqOp,
                .Id m.Receiver.ID, .Dot "backend", .Dot "NewRequest",
                .Call [.Stmt [.Qual "net/http" ("Method" ++ m.HTTPMethod)],
                       .Stmt [.Id "p"], qref, bodyRef]],
              errCheck sh.errResp sh.errRet,
              .Stmt [.Line]] ++
             hdr ++
             respDefStmts sh.respDef ++
             [.Stmt [.Lst [.Stmt [.Id "_"], .Stmt sh.errResp], .Op "=",
                .Id m.Receiver.ID, .Dot "backend", .Dot "Do",
                .Call [.Stmt [.Id "ctx"], .Stmt [.Id "req"], sh.doResp, sel]]] ++
             post ++
             [.Stmt [.Return sh.successRets]])]] := by
  obtain ⟨ps, errRet0, body, hps, _, hbody, hout⟩ := convertClientMethod_inv env m decls out h
  obtain ⟨ret0, retTail, sh, qs, oq, hs, sel, _, hsh, hqs, hoq, hhs, hsel, hb⟩ :=
    methodBlock_inv env m ps errRet0 _ body hbody
  obtain ⟨hf, hq, hh, _⟩ := paramsLoop_spec env decls m.Params _ _ hps
  simp only [List.nil_append] at hf hq hh
  obtain ⟨pathInit, pathRhs, hpath⟩ := setPathArgs_ends_with_assign sh.errRet m.Path ps.fmtArgs
  refine ⟨sh, ps.optQueryArgs, ps.body, oq.2, sel, ps.params, (retsLoop env m.Return [] []).1,
    pathInit, pathRhs, qs, oq.1, hs,
    (if isIter ret0 then [] else [errCheck sh.errResp sh.errRet, .Stmt [.Line]]),
    returnShape_g env _ _ _ _ sh hsh, ?_, ?_, ?_, ?_, ?_, hsel, ?_, ?_⟩
  · rw [← hf]; exact hpath
  · rw [← hq]; exact hqs
  · rw [← hq]; exact hoq
  · exact setOptQueryArgs_shape _ _ _ oq hoq
  · rw [← hh]; exact hhs
  · cases isIter ret0 <;> simp
  · rw [hout, hb, hpath]
    rfl

theorem convertClientMethod_phase_order_witness :
    ∃ out, convertClientMethod stdEnv exPointerMethod exDecls = .ok out ∧
    ∃ (sh : Shape) (optFields : List Field) (bodyRef qref sel : Code)
      (params rets pathInit pathRhs query optq hdr post : List Code),
      (sh.g = [] ∨ ∃ decl, sh.g = [.Stmt (.Id "iter" :: .Op ":=" :: decl), .Stmt [.Line]]) ∧
      setPathArgs sh.errRet exPointerMethod.Path
          (exPointerMethod.Params.filter (fun p => decide (p.Kind = Kind.Path))) =
        pathInit ++ [.Stmt (.Id "p" :: .Op ":=" :: pathRhs)] ∧
      setQueryArgs sh.errRet
          (exPointerMethod.Params.filter (fun p => decide (p.Kind = Kind.Query))) =
        .ok query ∧
      setOptQueryArgs sh.errRet
        (decide ((exPointerMethod.Params.filter
          (fun p => decide (p.Kind = Kind.Query))).length > 0))
        optFields = .ok (optq, qref) ∧
      ((optFields = [] ∧ optq = []) ∨
       (optFields ≠ [] ∧ ∃ init blk, optq =
          init ++ [.Stmt [.If [.Stmt [.Id "opts", .Op "!=", .Nil]], .Block blk]])) ∧
      setHeaderArgs sh.errRet
          (exPointerMethod.Params.filter (fun p => decide (p.Kind = Kind.Header))) =
        .ok hdr ∧
      errSelectFunc stdEnv exPointerMethod.Errors = .ok sel ∧
      (post = [] ∨ post = [errCheck sh.errResp sh.errRet, .Stmt [.Line]]) ∧
      out =
        [.Stmt [.Comment (stdEnv.formatComment exPointerMethod.Comment)],
         .Stmt [.Func,
           .Params [.Stmt [.Id exPointerMethod.Receiver.ID, .Op "*",
             .Id exPointerMethod.Receiver.Typ]],
           .Id exPointerMethod.Name, .Params params, .Params rets,
           .Block (sh.g ++
             (pathInit ++ [.Stmt (.Id "p" :: .Op ":=" :: pathRhs)]) ++
             query ++
             optq ++
             [.Stmt [.Stmt sh.reqDef],
              .Stmt [.Lst [.Stmt [.Id "req"], .Stmt sh.errResp], .Op sh.reqOp,
                .Id exPointerMethod.Receiver.ID, .Dot "backend", .Dot "NewRequest",
                .Call [.Stmt [.Qual "net/http" ("Method" ++ exPointerMethod.HTTPMethod)],
                       .Stmt [.Id "p"], qref, bodyRef]],
              errCheck sh.errResp sh.errRet,
              .Stmt [.Line]] ++
             hdr ++
             respDefStmts sh.respDef ++
             [.Stmt [.Lst [.Stmt [.Id "_"], .Stmt sh.errResp], .Op "=",
                .Id exPointerMethod.Receiver.ID, .Dot "backend", .Dot "Do",
                .Call [.Stmt [.Id "ctx"], .Stmt [.Id "req"], sh.doResp, sel]]] ++
             post ++
             [.Stmt [.Return sh.successRets]])]] :=
  ⟨_, rfl, convertClientMethod_phase_order stdEnv exPointerMethod exDecls _ rfl⟩

/-! ## Only the method block appends statements with `g.Add` -/

theorem noAdd_append (g extra : List Code) (hg : ∀ c ∈ g, isAdd c = false)
    (he : ∀ c ∈ extra, isAdd c = false) : ∀ c ∈ g ++ extra, isAdd c = false := by
  intro c hc
  rcases List.mem_append.mp hc with h | h
  · exact hg c h
  · exact he c h

theorem noAdd_ite (b : Prop) [Decidable b] (g extra : List Code)
    (hg : ∀ c ∈ g, isAdd c = false) (he : ∀ c ∈ extra, isAdd c = false) :
    ∀ c ∈ (if b then g ++ extra else g), isAdd c = false := by
  split
  · exact noAdd_append g extra hg he
  · exact hg

theorem setPathArgsLoop_noAdd (errRet : List Code) (args : List Param) :
    ∀ g pArgs : List Code, (∀ c ∈ g, isAdd c = false) →
      ∀ c ∈ (setPathArgsLoop errRet args g pArgs).1, isAdd c = false := by
  induction args with
  | nil => intro g pArgs hg; exact hg
  | cons fa rest ih =>
    intro g pArgs hg
    simp only [setPathArgsLoop]
    split
    · exact ih _ _ (noAdd_append g _ hg (by simp [isAdd, ifErrReturn]))
    · exact ih _ _ hg

theorem setPathArgs_noAdd (errRet : List Code) (path : String) (args : List Param) :
    ∀ c ∈ setPathArgs errRet path args, isAdd c = false := by
  unfold setPathArgs
  split
  · simp [isAdd]
  · exact noAdd_append _ _ (setPathArgsLoop_noAdd errRet args [] _ (by simp)) (by simp [isAdd])

theorem setQueryArgsLoop_noAdd (errRet : List Code) (n : Nat) (args : List Param) :
    ∀ (i : Nat) (g g1 : List Code), setQueryArgsLoop errRet n i args g = .ok g1 →
      (∀ c ∈ g, isAdd c = false) → ∀ c ∈ g1, isAdd c = false := by
  induction args with
  | nil =>
    intro i g g1 h hg
    simp only [setQueryArgsLoop, Except.ok.injEq] at h
    subst h
    exact hg
  | cons q rest ih =>
    intro i g g1 h hg
    simp only [setQueryArgsLoop, bind, Except.bind] at h
    split at h
    · split at h
      · exact ih _ _ _ h
          (noAdd_ite _ _ _ (noAdd_append g _ hg (by simp [isAdd, ifErrReturn]))
            (by simp [isAdd]))
      · split at h
        · cases h
        · exact ih _ _ _ h (noAdd_append g _ hg (by simp [isAdd]))
    · split at h
      · split at h
        · cases h
        · exact ih _ _ _ h
            (noAdd_ite _ _ _ (noAdd_append g _ hg (by simp [isAdd])) (by simp [isAdd]))
      · cases h
    · cases h

theorem setQueryArgs_noAdd (errRet : List Code) (args : List Param) (qs : List Code)
    (h : setQueryArgs errRet args = .ok qs) : ∀ c ∈ qs, isAdd c = false := by
  unfold setQueryArgs at h
  split at h
  · simp only [Except.ok.injEq] at h
    subst h
    simp
  · exact setQueryArgsLoop_noAdd errRet _ args 0 _ qs h (by simp [isAdd])

theorem setOptQueryArgs_noAdd (errRet : List Code) (qDefined : Bool) (args : List Field)
    (r : List Code × Code) (h : setOptQueryArgs errRet qDefined args = .ok r) :
    ∀ c ∈ r.1, isAdd c = false := by
  unfold setOptQueryArgs at h
  split at h
  · cases qDefined <;> simp at h <;> subst h <;> simp
  · simp only [bind, Except.bind] at h
    split at h
    · cases h
    · simp only [Except.ok.injEq] at h
      subst h
      cases qDefined <;> simp [isAdd]

theorem setHeaderArgsLoop_noAdd (errRet : List Code) (n : Nat) (args : List Param) :
    ∀ (i : Nat) (g g1 : List Code), setHeaderArgsLoop errRet n i args g = .ok g1 →
      (∀ c ∈ g, isAdd c = false) → ∀ c ∈ g1, isAdd c = false := by
  induction args with
  | nil =>
    intro i g g1 h hg
    simp only [setHeaderArgsLoop, Except.ok.injEq] at h
    subst h
    exact hg
  | cons q rest ih =>
    intro i g g1 h hg
    simp only [setHeaderArgsLoop, bind, Except.bind] at h
    split at h
    · split at h
      · exact ih _ _ _ h (noAdd_append g _ hg (by simp [isAdd, ifErrReturn]))
      · split at h
        · cases h
        · exact ih _ _ _ h
            (noAdd_ite _ _ _ (noAdd_append g _ hg (by simp [isAdd])) (by simp [isAdd]))
    · cases h

theorem setHeaderArgs_noAdd (errRet : List Code) (args : List Param) (hs : List Code)
    (h : setHeaderArgs errRet args = .ok hs) : ∀ c ∈ hs, isAdd c = false :=
  setHeaderArgsLoop_noAdd errRet _ args 0 [] hs h (by simp)

/-- C8: a synthesized method whose only return type is an iterator has the
body: the declaration of `iter`; the path, query and optional-query
statements, built with the error return `&iter`; the declaration of `req`
and the `NewRequest` assignment with `iter.err` as error slot, checked with
`if iter.err != nil { return &iter }`; the header statements; the `Do`
assignment with `iter.err` as error slot and `&iter.page` as response,
followed at once by `return &iter`. No top-level statement declares a
variable `resp`. -/
theorem convertClientMethod_iterator_shape (env : Env) (m : Method) (decls : List TypeDecl)
    (out : List Code) (t : Ty) (hret : m.Return = [.IterType t])
    (h : convertClientMethod env m decls = .ok out) :
    ∃ (t1 : Ty) (optFields : List Field) (bodyRef qref sel : Code)
      (params rets query optq hdr body : List Code),
      t = .PointerType t1 ∧
      setQueryArgs [.Stmt [.Op "&", .Id "iter"]]
        (m.Params.filter (fun p => decide (p.Kind = Kind.Query))) = .ok query ∧
      setOptQueryArgs [.Stmt [.Op "&", .Id "iter"]]
        (decide ((m.Params.filter (fun p => decide (p.Kind = Kind.Query))).length > 0))
        optFields = .ok (optq, qref) ∧
      setHeaderArgs [.Stmt [.Op "&", .Id "iter"]]
        (m.Params.filter (fun p => decide (p.Kind = Kind.Header))) = .ok hdr ∧
      errSelectFunc env m.Errors = .ok sel ∧
      out =
        [.Stmt [.Comment (env.formatComment m.Comment)],
         .Stmt [.Func, .Params [.Stmt [.Id m.Receiver.ID, .Op "*", .Id m.Receiver.Typ]],
           .Id m.Name, .Params params, .Params rets, .Block body]] ∧
      body =
        [.Stmt ([.Id "iter", .Op ":="] ++ env.writeType t1 ++
           [.Values [.Dict [(.Stmt [.Id "i"], .Stmt [.Lit (-1)]),
                            (.Stmt [.Id "first"], .Stmt [.True])]]]),
         .Stmt [.Line]] ++
        setPathArgs [.Stmt [.Op "&", .Id "iter"]] m.Path
          (m.Params.filter (fun p => decide (p.Kind = Kind.Path))) ++
        query ++
        optq ++
        [.Stmt [.Stmt [.Line, .Var, .Id "req", .Op "*", .Qual "net/http" "Request"]],
         .Stmt [.Lst [.Stmt [.Id "req"], .Stmt [.Id "iter", .Dot "err"]], .Op "=",
           .Id m.Receiver.ID, .Dot "backend", .Dot "NewRequest",
           .Call [.Stmt [.Qual "net/http" ("Method" ++ m.HTTPMethod)],
                  .Stmt [.Id "p"], qref, bodyRef]],
         .Stmt [.If [.Stmt [.Id "iter", .Dot "err", .Op "!=", .Nil]],
                .Block [.Stmt [.Return [.Stmt [.Op "&", .Id "iter"]]]]],
         .Stmt [.Line]] ++
        hdr ++
        [.Stmt [.Lst [.Stmt [.Id "_"], .Stmt [.Id "iter", .Dot "err"]], .Op "=",
           .Id m.Receiver.ID, .Dot "backend", .Dot "Do",
           .Call [.Stmt [.Id "ctx"], .Stmt [.Id "req"],
                  .Stmt [.Op "&", .Id "iter", .Dot "page"], sel]],
         .Stmt [.Return [.Stmt [.Op "&", .Id "iter"]]]] ∧
      ∀ c ∈ body, ∀ rest, c ≠ .Stmt [.Stmt (.Var :: .Id "resp" :: rest)] := by
  obtain ⟨ps, errRet0, body, hps, herr, hbody, hout⟩ := convertClientMethod_inv env m decls out h
  obtain ⟨ret0, retTail, sh, qs, oq, hs, sel, hr, hsh, hqs, hoq, hhs, hsel, hb⟩ :=
    methodBlock_inv env m ps errRet0 _ body hbody
  obtain ⟨hf, hq, hh, _⟩ := paramsLoop_spec env decls m.Params _ _ hps
  simp only [List.nil_append] at hf hq hh
  rw [hret] at hr
  simp only [List.cons.injEq] at hr
  obtain ⟨hr0, _⟩ := hr
  subst hr0
  simp only [hret, retsLoop, isPointer, isIter, Bool.false_eq_true, if_false, if_true,
    List.nil_append, mkErrRet, List.length_singleton, one_ne_zero, Nat.sub_self, List.set,
    Except.ok.injEq] at herr hsh
  subst herr
  cases t with
  | PointerType t1 =>
    simp only [returnShape, isIter, Bool.or_true, if_true, List.set, Except.ok.injEq] at hsh
    subst hsh
    simp only at hqs hoq hhs hb
    rw [hf] at hb
    rw [hq] at hqs hoq
    rw [hh] at hhs
    refine ⟨t1, ps.optQueryArgs, ps.body, oq.2, sel, ps.params, _, qs, oq.1, hs, body,
      rfl, hqs, hoq, hhs, hsel, hout, ?_, ?_⟩
    · rw [hb]
      simp [newRequestStmt, errCheck, doStmt, respDefStmts, isIter]
    · intro c hc rest hcr
      subst hcr
      rw [hb] at hc
      have e1 := setPathArgs_noAdd [.Stmt [.Op "&", .Id "iter"]] m.Path
        (m.Params.filter (fun p => decide (p.Kind = Kind.Path)))
      have e2 := setQueryArgs_noAdd _ _ qs hqs
      have e3 := setOptQueryArgs_noAdd _ _ _ oq hoq
      have e4 := setHeaderArgs_noAdd _ _ hs hhs
      simp only [List.mem_append, List.mem_cons, List.mem_singleton, List.not_mem_nil,
        or_false, newRequestStmt, errCheck, doStmt, respDefStmts, isIter, if_true,
        List.append_nil] at hc
      rcases hc with ((((((((hc | hc) | hc) | hc) | hc) | hc) | hc) | hc) | hc) | hc
      all_goals first
        | exact absurd (e1 _ hc) (by simp [isAdd])
        | exact absurd (e2 _ hc) (by simp [isAdd])
        | exact absurd (e3 _ hc) (by simp [isAdd])
        | exact absurd (e4 _ hc) (by simp [isAdd])
        | exact absurd hc (by simp)
  | IdentType _ _ => simp [returnShape, isIter] at hsh
  | SliceType _ => simp [returnShape, isIter] at hsh
  | StructType _ => simp [returnShape, isIter] at hsh
  | IterType _ => simp [returnShape, isIter] at hsh

theorem convertClientMethod_iterator_shape_witness :
    ∃ out, exIterMethod.Return = [.IterType (.PointerType (.IdentType "WidgetIter" false))] ∧
    convertClientMethod stdEnv exIterMethod exDecls = .ok out ∧
    ∃ (t1 : Ty) (optFields : List Field) (bodyRef qref sel : Code)
      (params rets query optq hdr body : List Code),
      Ty.PointerType (.IdentType "WidgetIter" false) = .PointerType t1 ∧
      setQueryArgs [.Stmt [.Op "&", .Id "iter"]]
        (exIterMethod.Params.filter (fun p => decide (p.Kind = Kind.Query))) = .ok query ∧
      setOptQueryArgs [.Stmt [.Op "&", .Id "iter"]]
        (decide ((exIterMethod.Params.filter
          (fun p => decide (p.Kind = Kind.Query))).length > 0))
        optFields = .ok (optq, qref) ∧
      setHeaderArgs [.Stmt [.Op "&", .Id "iter"]]
        (exIterMethod.Params.filter (fun p => decide (p.Kind = Kind.Header))) = .ok hdr ∧
      errSelectFunc stdEnv exIterMethod.Errors = .ok sel ∧
      out =
        [.Stmt [.Comment (stdEnv.formatComment exIterMethod.Comment)],
         .Stmt [.Func,
           .Params [.Stmt [.Id exIterMethod.Receiver.ID, .Op "*",
             .Id exIterMethod.Receiver.Typ]],
           .Id exIterMethod.Name, .Params params, .Params rets, .Block body]] ∧
      body =
        [.Stmt ([.Id "iter", .Op ":="] ++ stdEnv.writeType t1 ++
           [.Values [.Dict [(.Stmt [.Id "i"], .Stmt [.Lit (-1)]),
                            (.Stmt [.Id "first"], .Stmt [.True])]]]),
         .Stmt [.Line]] ++
        setPathArgs [.Stmt [.Op "&", .Id "iter"]] exIterMethod.Path
          (exIterMethod.Params.filter (fun p => decide (p.Kind = Kind.Path))) ++
        query ++
        optq ++
        [.Stmt [.Stmt [.Line, .Var, .Id "req", .Op "*", .Qual "net/http" "Request"]],
         .Stmt [.Lst [.Stmt [.Id "req"], .Stmt [.Id "iter", .Dot "err"]], .Op "=",
           .Id exIterMethod.Receiver.ID, .Dot "backend", .Dot "NewRequest",
           .Call [.Stmt [.Qual "net/http" ("Method" ++ exIterMethod.HTTPMethod)],
                  .Stmt [.Id "p"], qref, bodyRef]],
         .Stmt [.If [.Stmt [.Id "iter", .Dot "err", .Op "!=", .Nil]],
                .Block [.Stmt [.Return [.Stmt [.Op "&", .Id "iter"]]]]],
         .Stmt [.Line]] ++
        hdr ++
        [.Stmt [.Lst [.Stmt [.Id "_"], .Stmt [.Id "iter", .Dot "err"]], .Op "=",
           .Id exIterMethod.Receiver.ID, .Dot "backend", .Dot "Do",
           .Call [.Stmt [.Id "ctx"], .Stmt [.Id "req"],
                  .Stmt [.Op "&", .Id "iter", .Dot "page"], sel]],
         .Stmt [.Return [.Stmt [.Op "&", .Id "iter"]]]] ∧
      ∀ c ∈ body, ∀ rest, c ≠ .Stmt [.Stmt (.Var :: .Id "resp" :: rest)] :=
  ⟨_, rfl, rfl, convertClientMethod_iterator_shape stdEnv exIterMethod exDecls _ _ rfl rfl⟩

/-- C7 does not hold of the code: for the returns `(Widget, error)` the
synthesized method declares two results, while its error returns are
`return err` and its final return is `return resp`, one value each. -/
theorem convertClientMethod_value_return_arity :
    exValueMethod.Return = [.IdentType "Widget" false, .IdentType "error" false] ∧
    convertClientMethod stdEnv exValueMethod [] =
      .ok [.Stmt [.Comment "Head fetches the first widget"],
           .Stmt [.Func, .Params [.Stmt [.Id "c", .Op "*", .Id "WidgetClient"]], .Id "Head",
             .Params [.Stmt [.Id "ctx", .Qual "context" "Context"]],
             .Params [.Stmt [.Id "Widget"], .Stmt [.Id "error"]],
             .Block
               [.Stmt [.Id "p", .Op ":=", .LitStr "/widget"],
                .Stmt [.Stmt [.Line]],
                .Stmt [.Lst [.Stmt [.Id "req"], .Stmt [.Err]], .Op ":=",
                  .Id "c", .Dot "backend", .Dot "NewRequest",
                  .Call [.Stmt [.Qual "net/http" "MethodGet"], .Stmt [.Id "p"],
                         .Stmt [.Nil], .Stmt [.Nil]]],
                .Stmt [.If [.Stmt [.Err, .Op "!=", .Nil]],
                       .Block [.Stmt [.Return [.Stmt [.Err]]]]],
                .Stmt [.Line],
                .Stmt [.Stmt [.Var, .Id "resp", .Id "Widget"]],
                .Stmt [.Lst [.Stmt [.Id "_"], .Stmt [.Err]], .Op "=",
                  .Id "c", .Dot "backend", .Dot "Do",
                  .Call [.Stmt [.Id "ctx"], .Stmt [.Id "req"], .Stmt [.Id "resp"],
                         .Stmt [.Nil]]],
                .Stmt [.If [.Stmt [.Err, .Op "!=", .Nil]],
                       .Block [.Stmt [.Return [.Stmt [.Err]]]]],
                .Stmt [.Line],
                .Stmt [.Return [.Stmt [.Id "resp"]]]]]] :=
  ⟨rfl, rfl⟩

/-- C9 does not hold of the code: a parameter whose kind is none of the
five known kinds does not stop `convertClientMethod`; the parameter is
declared in the signature and used nowhere in the body. A field of an
options struct with another kind than `Query`, and a query parameter with
another collection than `None` and `Multi`, do stop the synthesis. -/
theorem convertClientMethod_unknown_kind_is_skipped :
    convertClientMethod stdEnv exUnknownKindMethod [] =
      .ok [.Stmt [.Comment "Ping checks the service"],
           .Stmt [.Func, .Params [.Stmt [.Id "c", .Op "*", .Id "WidgetClient"]], .Id "Ping",
             .Params [.Stmt [.Id "ctx", .Qual "context" "Context"],
                      .Stmt [.Id "cookie", .Id "string"]],
             .Params [.Stmt [.Id "error"]],
             .Block
               [.Stmt [.Id "p", .Op ":=", .LitStr "/ping"],
                .Stmt [.Stmt [.Line]],
                .Stmt [.Lst [.Stmt [.Id "req"], .Stmt [.Err]], .Op ":=",
                  .Id "c", .Dot "backend", .Dot "NewRequest",
                  .Call [.Stmt [.Qual "net/http" "MethodGet"], .Stmt [.Id "p"],
                         .Stmt [.Nil], .Stmt [.Nil]]],
                .Stmt [.If [.Stmt [.Err, .Op "!=", .Nil]],
                       .Block [.Stmt [.Return [.Stmt [.Err]]]]],
                .Stmt [.Line],
                .Stmt [.Lst [.Stmt [.Id "_"], .Stmt [.Err]], .Op "=",
                  .Id "c", .Dot "backend", .Dot "Do",
                  .Call [.Stmt [.Id "ctx"], .Stmt [.Id "req"], .Stmt [.Nil], .Stmt [.Nil]]],
                .Stmt [.If [.Stmt [.Err, .Op "!=", .Nil]],
                       .Block [.Stmt [.Return [.Stmt [.Err]]]]],
                .Stmt [.Line],
                .Stmt [.Return [.Stmt [.Nil]]]]]] ∧
    optFieldsLoop [.mk "Trace" "" (.Other 5) (.PointerType (.IdentType "string" false)) .None]
      [] = .error "unhandled location for optional arg" ∧
    setQueryArgs [.Stmt [.Err]]
      [⟨"sort", "sort", "", .Query, .IdentType "string" false, .Other 2⟩] =
      .error "unhandled collection format" ∧
    setOptQueryArgs [.Stmt [.Err]] false
      [.mk "Sort" "" .Query (.PointerType (.IdentType "string" false)) (.Other 2)] =
      .error "unhandled collection format" :=
  ⟨rfl, rfl, rfl, rfl⟩

/-- C10 does not hold of the code: for the optional field
`Tags *[]string` with collection `Multi`, `setOptQueryArgs` emits one block
guarded by `opts != nil` whose loop `for _, v := range opts.Tags` stands
directly in that block: no `opts.Tags != nil` check wraps it and the field is
not dereferenced. A field with collection `None` is wrapped in its presence
check and read through `*opts.<field>`. -/
theorem setOptQueryArgs_multi_field_unguarded :
    setOptQueryArgs [.Stmt [.Nil], .Stmt [.Err]] false [exMultiField] =
      .ok ([.Stmt [.Line],
            .Stmt [.Var, .Id "q", .Qual "net/url" "Values"],
            .Stmt [.If [.Stmt [.Id "opts", .Op "!=", .Nil]],
              .Block
                [.Stmt [.Stmt [.Id "q", .Op "=", .Make [.Stmt [.Qual "net/url" "Values"]]]],
                 .Stmt [.For [.Stmt [.Lst [.Stmt [.Id "_"], .Stmt [.Id "v"]], .Op ":=",
                          .Range, .Id "opts", .Dot "Tags"]],
                        .Block [.Stmt [.Id "q", .Dot "Add",
                          .Call [.Stmt [.LitStr "tag"], .Stmt [.Id "v"]]]]]]]],
           .Stmt [.Id "q"]) ∧
    setOptQueryArgs [.Stmt [.Nil], .Stmt [.Err]] false
        [.mk "Limit" "limit" .Query (.PointerType (.IdentType "int" false)) .None] =
      .ok ([.Stmt [.Line],
            .Stmt [.Var, .Id "q", .Qual "net/url" "Values"],
            .Stmt [.If [.Stmt [.Id "opts", .Op "!=", .Nil]],
              .Block
                [.Stmt [.Stmt [.Id "q", .Op "=", .Make [.Stmt [.Qual "net/url" "Values"]]]],
                 .Stmt [.If [.Stmt [.Id "opts", .Dot "Limit", .Op "!=", .Nil]],
                        .Block [.Stmt [.Id "q", .Dot "Set",
                          .Call [.Stmt [.LitStr "limit"],
                                 .Stmt [.Qual "strconv" "Itoa",
                                   .Call [.Stmt [.Op "*", .Id "opts", .Dot "Limit"]]]]]]]]]],
           .Stmt [.Id "q"]) :=
  ⟨rfl, rfl⟩

/-! ## The loops as concatenations of their iterations -/

theorem setPathArgsLoop_closed (errRet : List Code) (args : List Param) :
    ∀ g pArgs : List Code,
      setPathArgsLoop errRet args g pArgs =
        (g ++ args.flatMap (pathArgStmts errRet), pArgs ++ args.map pathArgExpr) := by
  induction args with
  | nil => intro g pArgs; simp [setPathArgsLoop]
  | cons fa rest ih =>
    intro g pArgs
    simp only [setPathArgsLoop, List.flatMap_cons, List.map_cons]
    cases hm : isMarshal fa.Typ
    · simp [ih, pathArgStmts, pathArgExpr, hm]
    · simp [ih, pathArgStmts, pathArgExpr, hm]

theorem setPathArgs_closed (errRet : List Code) (path : String) (args : List Param)
    (h : args ≠ []) :
    setPathArgs errRet path args =
      args.flatMap (pathArgStmts errRet) ++
        [.Stmt [.Id "p", .Op ":=", .Qual "fmt" "Sprintf",
           .Call (.Stmt [.LitStr path] :: args.map pathArgExpr)]] := by
  have hl : args.length ≠ 0 := fun h0 => h (List.length_eq_zero.mp h0)
  simp [setPathArgs, hl, setPathArgsLoop_closed]

theorem setQueryArgsLoop_cons (errRet : List Code) (n i : Nat) (q : Param)
    (rest : List Param) (g : List Code) :
    setQueryArgsLoop errRet n i (q :: rest) g =
      match queryArgStmts errRet n i q with
      | .ok seg => setQueryArgsLoop errRet n (i + 1) rest (g ++ seg)
      | .error e => .error e := by
  simp only [setQueryArgsLoop, queryArgStmts, bind, Except.bind, lineIf]
  cases q.Collection with
  | None =>
    cases hm : isMarshal q.Typ
    · simp only [Bool.false_eq_true, if_false]
      cases stringFor q.Typ (.Stmt [.Id q.Arg]) <;> rfl
    · simp only [if_true]
      by_cases hi : (i : Int) ≠ (n : Int) - 1 <;> simp [hi]
  | Multi =>
    cases q.Typ with
    | SliceType elem =>
      simp only
      cases multiBlock errRet (wireName q.ID q.Orig) elem with
      | error e => rfl
      | ok blk =>
        simp only
        by_cases hi : (i : Int) ≠ (n : Int) - 1 <;> simp [hi]
    | _ => rfl
  | Other _ => rfl

theorem setHeaderArgsLoop_cons (errRet : List Code) (n i : Nat) (h : Param)
    (rest : List Param) (g : List Code) :
    setHeaderArgsLoop errRet n i (h :: rest) g =
      match headerArgStmts errRet n i h with
      | .ok seg => setHeaderArgsLoop errRet n (i + 1) rest (g ++ seg)
      | .error e => .error e := by
  simp only [setHeaderArgsLoop, headerArgStmts, bind, Except.bind, lineIf]
  cases h.Collection with
  | None =>
    cases hm : isMarshal h.Typ
    · simp only [Bool.false_eq_true, if_false]
      cases stringFor h.Typ (.Stmt [.Id h.Arg]) with
      | error e => rfl
      | ok s =>
        simp only
        by_cases hi : (i : Int) = (n : Int) - 1 <;> simp [hi]
    · simp
  | Multi => rfl
  | Other _ => rfl

theorem setQueryArgsLoop_segs (errRet : List Code) (n : Nat) (args : List Param) :
    ∀ (i : Nat) (g g1 : List Code), setQueryArgsLoop errRet n i args g = .ok g1 →
      ∃ segs : List (List Code), g1 = g ++ segs.flatten ∧
        List.Forall₂ (fun q seg => ∃ j, queryArgStmts errRet n j q = .ok seg) args segs := by
  induction args with
  | nil =>
    intro i g g1 h
    simp only [setQueryArgsLoop, Except.ok.injEq] at h
    exact ⟨[], by simp [h], List.Forall₂.nil⟩
  | cons q rest ih =>
    intro i g g1 h
    rw [setQueryArgsLoop_cons] at h
    cases hq : queryArgStmts errRet n i q with
    | error e => rw [hq] at h; cases h
    | ok seg =>
      rw [hq] at h
      obtain ⟨segs, hg, hall⟩ := ih _ _ _ h
      exact ⟨seg :: segs, by simp [hg], List.Forall₂.cons ⟨i, hq⟩ hall⟩

theorem setQueryArgsLoop_total (errRet : List Code) (n : Nat) (args : List Param)
    (hall : ∀ q ∈ args, ∀ j, ∃ seg, queryArgStmts errRet n j q = .ok seg) :
    ∀ (i : Nat) (g : List Code), ∃ g1, setQueryArgsLoop errRet n i args g = .ok g1 := by
  induction args with
  | nil => intro i g; exact ⟨g, rfl⟩
  | cons q rest ih =>
    intro i g
    obtain ⟨seg, hseg⟩ := hall q (by simp) i
    rw [setQueryArgsLoop_cons, hseg]
    exact ih (fun q1 h1 => hall q1 (by simp [h1])) _ _

theorem setHeaderArgsLoop_segs (errRet : List Code) (n : Nat) (args : List Param) :
    ∀ (i : Nat) (g g1 : List Code), setHeaderArgsLoop errRet n i args g = .ok g1 →
      ∃ segs : List (List Code), g1 = g ++ segs.flatten ∧
        List.Forall₂ (fun h seg => ∃ j, headerArgStmts errRet n j h = .ok seg) args segs := by
  induction args with
  | nil =>
    intro i g g1 h
    simp only [setHeaderArgsLoop, Except.ok.injEq] at h
    exact ⟨[], by simp [h], List.Forall₂.nil⟩
  | cons q rest ih =>
    intro i g g1 h
    rw [setHeaderArgsLoop_cons] at h
    cases hq : headerArgStmts errRet n i q with
    | error e => rw [hq] at h; cases h
    | ok seg =>
      rw [hq] at h
      obtain ⟨segs, hg, hall⟩ := ih _ _ _ h
      exact ⟨seg :: segs, by simp [hg], List.Forall₂.cons ⟨i, hq⟩ hall⟩

theorem setHeaderArgsLoop_total (errRet : List Code) (n : Nat) (args : List Param)
    (hall : ∀ h ∈ args, ∀ j, ∃ seg, headerArgStmts errRet n j h = .ok seg) :
    ∀ (i : Nat) (g : List Code), ∃ g1, setHeaderArgsLoop errRet n i args g = .ok g1 := by
  induction args with
  | nil => intro i g; exact ⟨g, rfl⟩
  | cons q rest ih =>
    intro i g
    obtain ⟨seg, hseg⟩ := hall q (by simp) i
    rw [setHeaderArgsLoop_cons, hseg]
    exact ih (fun q1 h1 => hall q1 (by simp [h1])) _ _

theorem setHeaderArgsLoop_error (errRet : List Code) (n : Nat) (args : List Param)
    (hbad : ∃ h ∈ args, ∀ j, ∃ e, headerArgStmts errRet n j h = .error e) :
    ∀ (i : Nat) (g : List Code), ∃ e, setHeaderArgsLoop errRet n i args g = .error e := by
  induction args with
  | nil => obtain ⟨h, hh, _⟩ := hbad; simp at hh
  | cons q rest ih =>
    intro i g
    rw [setHeaderArgsLoop_cons]
    cases hq : headerArgStmts errRet n i q with
    | error e => exact ⟨e, rfl⟩
    | ok seg =>
      obtain ⟨h, hh, hbadh⟩ := hbad
      rcases List.mem_cons.mp hh with heq | hmem
      · subst heq
        obtain ⟨e, he⟩ := hbadh i
        rw [hq] at he
        cases he
      · exact ih ⟨h, hmem, hbadh⟩ _ _

theorem setQueryArgs_head (errRet : List Code) (args : List Param) (qs : List Code)
    (h : setQueryArgs errRet args = .ok qs) :
    (args = [] ∧ qs = []) ∨
    (args ≠ [] ∧ ∃ segs : List (List Code),
      qs = [.Stmt [.Line],
            .Stmt [.Id "q", .Op ":=", .Make [.Stmt [.Qual "net/url" "Values"]]]] ++
           segs.flatten ∧
      List.Forall₂ (fun q seg => ∃ j, queryArgStmts errRet args.length j q = .ok seg)
        args segs) := by
  unfold setQueryArgs at h
  by_cases h0 : args.length = 0
  · left
    simp only [h0, if_true, Except.ok.injEq] at h
    exact ⟨List.length_eq_zero.mp h0, h.symm⟩
  · right
    simp only [h0, if_false] at h
    obtain ⟨segs, hg, hall⟩ := setQueryArgsLoop_segs errRet _ args 0 _ qs h
    exact ⟨fun hn => h0 (by simp [hn]), segs, hg, hall⟩

/-- C11: with no optional query field `setOptQueryArgs` appends no statement
and returns `q` when the query collection is already defined and the nil
marker otherwise; the collection is defined, by `q := make(url.Values)` of
`setQueryArgs`, exactly when there is a required query parameter. -/
theorem setOptQueryArgs_no_fields (errRet : List Code) :
    setOptQueryArgs errRet true [] = .ok ([], .Stmt [.Id "q"]) ∧
    setOptQueryArgs errRet false [] = .ok ([], .Stmt [.Nil]) ∧
    (∀ (args : List Param) (qs : List Code), setQueryArgs errRet args = .ok qs →
      (decide (args.length > 0) = false ∧ qs = []) ∨
      (decide (args.length > 0) = true ∧ ∃ rest, qs =
        .Stmt [.Line] ::
        .Stmt [.Id "q", .Op ":=", .Make [.Stmt [.Qual "net/url" "Values"]]] :: rest)) := by
  refine ⟨rfl, rfl, ?_⟩
  intro args qs h
  rcases setQueryArgs_head errRet args qs h with ⟨ha, hq⟩ | ⟨ha, segs, hq, _⟩
  · left; subst ha; exact ⟨by simp, hq⟩
  · right
    refine ⟨?_, segs.flatten, by simpa using hq⟩
    cases args with
    | nil => exact absurd rfl ha
    | cons a as => simp

theorem setOptQueryArgs_no_fields_witness :
    setOptQueryArgs [.Stmt [.Err]] true [] = .ok ([], .Stmt [.Id "q"]) ∧
    setOptQueryArgs [.Stmt [.Err]] false [] = .ok ([], .Stmt [.Nil]) ∧
    ∃ qs, setQueryArgs [.Stmt [.Err]] [exTagsParam] = .ok qs ∧
      ((decide ([exTagsParam].length > 0) = false ∧ qs = []) ∨
       (decide ([exTagsParam].length > 0) = true ∧ ∃ rest, qs =
         .Stmt [.Line] ::
         .Stmt [.Id "q", .Op ":=", .Make [.Stmt [.Qual "net/url" "Values"]]] :: rest)) :=
  ⟨(setOptQueryArgs_no_fields [.Stmt [.Err]]).1, (setOptQueryArgs_no_fields [.Stmt [.Err]]).2.1,
   _, rfl, (setOptQueryArgs_no_fields [.Stmt [.Err]]).2.2 [exTagsParam] _ rfl⟩

/-- C13: for a path parameter `fa` whose type is an identifier type with
text-marshal support, `setPathArgs` emits `<ID>Bytes, err := <ID>.MarshalText()`
followed by `if err != nil { return errRet... }`, and the argument of the
`Sprintf` call at the position of `fa` is `string(<ID>Bytes)`. -/
theorem setPathArgs_marshal_then_substitute (errRet : List Code) (path : String)
    (pre post : List Param) (fa : Param) (name : String)
    (hty : fa.Typ = .IdentType name true) :
    setPathArgs errRet path (pre ++ fa :: post) =
      pre.flatMap (pathArgStmts errRet) ++
      [.Stmt [.Lst [.Stmt [.Id (fa.ID ++ "Bytes")], .Stmt [.Err]], .Op ":=",
         .Id fa.ID, .Dot "MarshalText", .Call []],
       .Stmt [.If [.Stmt [.Err, .Op "!=", .Nil]], .Block [.Stmt [.Return errRet]]],
       .Stmt [.Line]] ++
      post.flatMap (pathArgStmts errRet) ++
      [.Stmt [.Id "p", .Op ":=", .Qual "fmt" "Sprintf",
         .Call (.Stmt [.LitStr path] :: (pre.map pathArgExpr ++
           [.Stmt [.String, .Params [.Stmt [.Id (fa.ID ++ "Bytes")]]]] ++
           post.map pathArgExpr))]] := by
  have hm : isMarshal fa.Typ = true := by rw [hty]; rfl
  rw [setPathArgs_closed errRet path _ (by simp)]
  simp [List.flatMap_append, List.flatMap_cons, pathArgStmts, pathArgExpr, hm, ifErrReturn]

theorem setPathArgs_marshal_then_substitute_witness :
    (⟨"id", "id", "", .Path, .IdentType "ID" true, .None⟩ : Param).Typ = .IdentType "ID" true ∧
    setPathArgs [.Stmt [.Nil], .Stmt [.Err]] "/a/%s/%s/%s"
        ([⟨"part", "part", "", .Path, .IdentType "string" false, .None⟩] ++
          ⟨"id", "id", "", .Path, .IdentType "ID" true, .None⟩ ::
          [⟨"n", "n", "", .Path, .IdentType "int" false, .None⟩]) =
      [⟨"part", "part", "", .Path, .IdentType "string" false, .None⟩].flatMap
        (pathArgStmts [.Stmt [.Nil], .Stmt [.Err]]) ++
      [.Stmt [.Lst [.Stmt [.Id ("id" ++ "Bytes")], .Stmt [.Err]], .Op ":=",
         .Id "id", .Dot "MarshalText", .Call []],
       .Stmt [.If [.Stmt [.Err, .Op "!=", .Nil]],
         .Block [.Stmt [.Return [.Stmt [.Nil], .Stmt [.Err]]]]],
       .Stmt [.Line]] ++
      [⟨"n", "n", "", .Path, .IdentType "int" false, .None⟩].flatMap
        (pathArgStmts [.Stmt [.Nil], .Stmt [.Err]]) ++
      [.Stmt [.Id "p", .Op ":=", .Qual "fmt" "Sprintf",
         .Call (.Stmt [.LitStr "/a/%s/%s/%s"] ::
           ([⟨"part", "part", "", .Path, .IdentType "string" false, .None⟩].map pathArgExpr ++
           [.Stmt [.String, .Params [.Stmt [.Id ("id" ++ "Bytes")]]]] ++
           [⟨"n", "n", "", .Path, .IdentType "int" false, .None⟩].map pathArgExpr))]] :=
  ⟨rfl, setPathArgs_marshal_then_substitute _ _ _ _
    ⟨"id", "id", "", .Path, .IdentType "ID" true, .None⟩ "ID" rfl⟩

/-- C14: without path parameters `setPathArgs` assigns the template literal
to `p`; otherwise it assigns `fmt.Sprintf(template, a1, ..., an)` with one
argument per path parameter, in the order of the parameters: `string(<ID>Bytes)`
for a type with text-marshal support and `<ID>` otherwise. In a synthesized
method the path parameters are the parameters of kind `Path`, in the order of
the method. -/
theorem setPathArgs_template_and_arguments (errRet : List Code) (path : String) :
    setPathArgs errRet path [] = [.Stmt [.Id "p", .Op ":=", .LitStr path]] ∧
    (∀ args : List Param, args ≠ [] →
      ∃ init pArgs : List Code,
        setPathArgs errRet path args =
          init ++ [.Stmt [.Id "p", .Op ":=", .Qual "fmt" "Sprintf",
            .Call (.Stmt [.LitStr path] :: pArgs)]] ∧
        pArgs = args.map (fun fa =>
          if isMarshal fa.Typ then
            Code.Stmt [.String, .Params [.Stmt [.Id (fa.ID ++ "Bytes")]]]
          else Code.Stmt [.Id fa.ID]) ∧
        (Code.Stmt [.LitStr path] :: pArgs).length = 1 + args.length) ∧
    (∀ (env : Env) (m : Method) (decls : List TypeDecl) (out : List Code),
      convertClientMethod env m decls = .ok out →
      ∃ (cmt sig : Code) (params rets pre post pathErrRet : List Code),
        out = [cmt, .Stmt [.Func, sig, .Id m.Name, .Params params, .Params rets,
          .Block (pre ++
            setPathArgs pathErrRet m.Path
              (m.Params.filter (fun p => decide (p.Kind = Kind.Path))) ++
            post)]]) := by
  refine ⟨rfl, ?_, ?_⟩
  · intro args hne
    refine ⟨args.flatMap (pathArgStmts errRet), args.map pathArgExpr,
      setPathArgs_closed errRet path args hne, ?_, by simp; omega⟩
    apply List.map_congr_left
    intro fa _
    rfl
  · intro env m decls out h
    obtain ⟨ps, errRet0, body, hps, _, hbody, hout⟩ := convertClientMethod_inv env m decls out h
    obtain ⟨ret0, retTail, sh, qs, oq, hs, sel, _, _, _, _, _, _, hb⟩ :=
      methodBlock_inv env m ps errRet0 _ body hbody
    obtain ⟨hf, _, _, _⟩ := paramsLoop_spec env decls m.Params _ _ hps
    simp only [List.nil_append] at hf
    refine ⟨.Stmt [.Comment (env.formatComment m.Comment)],
      .Params [.Stmt [.Id m.Receiver.ID, .Op "*", .Id m.Receiver.Typ]],
      ps.params, (retsLoop env m.Return [] []).1, sh.g,
      qs ++ oq.1 ++
        [.Stmt [.Stmt sh.reqDef], newRequestStmt m sh oq.2 ps.body,
         errCheck sh.errResp sh.errRet, .Stmt [.Line]] ++
        hs ++ respDefStmts sh.respDef ++ [doStmt m sh sel] ++
        (if isIter ret0 then [] else [errCheck sh.errResp sh.errRet, .Stmt [.Line]]) ++
        [.Stmt [.Return sh.successRets]],
      sh.errRet, ?_⟩
    rw [hout, hb, hf]
    simp only [List.append_assoc]

theorem setPathArgs_template_and_arguments_witness :
    setPathArgs [.Stmt [.Err]] "/ping" [] = [.Stmt [.Id "p", .Op ":=", .LitStr "/ping"]] ∧
    ((exPointerMethod.Params.filter (fun p => decide (p.Kind = Kind.Path))) ≠ [] ∧
      ∃ init pArgs : List Code,
        setPathArgs [.Stmt [.Err]] "/ping"
            (exPointerMethod.Params.filter (fun p => decide (p.Kind = Kind.Path))) =
          init ++ [.Stmt [.Id "p", .Op ":=", .Qual "fmt" "Sprintf",
            .Call (.Stmt [.LitStr "/ping"] :: pArgs)]] ∧
        pArgs = (exPointerMethod.Params.filter (fun p => decide (p.Kind = Kind.Path))).map
          (fun fa =>
            if isMarshal fa.Typ then
              Code.Stmt [.String, .Params [.Stmt [.Id (fa.ID ++ "Bytes")]]]
            else Code.Stmt [.Id fa.ID]) ∧
        (Code.Stmt [.LitStr "/ping"] :: pArgs).length =
          1 + (exPointerMethod.Params.filter (fun p => decide (p.Kind = Kind.Path))).length) ∧
    (∃ out, convertClientMethod stdEnv exPointerMethod exDecls = .ok out ∧
      ∃ (cmt sig : Code) (params rets pre post pathErrRet : List Code),
        out = [cmt, .Stmt [.Func, sig, .Id exPointerMethod.Name, .Params params, .Params rets,
          .Block (pre ++
            setPathArgs pathErrRet exPointerMethod.Path
              (exPointerMethod.Params.filter (fun p => decide (p.Kind = Kind.Path))) ++
            post)]]) :=
  ⟨(setPathArgs_template_and_arguments [.Stmt [.Err]] "/ping").1,
   ⟨by simp [exPointerMethod],
    (setPathArgs_template_and_arguments [.Stmt [.Err]] "/ping").2.1 _
      (by simp [exPointerMethod])⟩,
   ⟨_, rfl,
    (setPathArgs_template_and_arguments [.Stmt [.Err]] "/ping").2.2 stdEnv exPointerMethod
      exDecls _ rfl⟩⟩

/-- C15: `stringFor` follows its table on identifier types: `strconv.Itoa(id)`
for `int`, `strconv.FormatFloat(id, 'f', -1, 64)` for `float64`,
`strconv.FormatBool(id)` for `bool`, and `id` itself for every other name;
it panics exactly when the type is not an identifier type. -/
theorem stringFor_table (id : Code) :
    (∀ marshal, stringFor (.IdentType "int" marshal) id =
      .ok (.Stmt [.Qual "strconv" "Itoa", .Call [id]])) ∧
    (∀ marshal, stringFor (.IdentType "float64" marshal) id =
      .ok (.Stmt [.Qual "strconv" "FormatFloat",
        .Call [id, .Stmt [.LitRune 'f'], .Stmt [.Lit (-1)], .Stmt [.Lit 64]]])) ∧
    (∀ marshal, stringFor (.IdentType "bool" marshal) id =
      .ok (.Stmt [.Qual "strconv" "FormatBool", .Call [id]])) ∧
    (∀ name marshal, name ≠ "int" → name ≠ "float64" → name ≠ "bool" →
      stringFor (.IdentType name marshal) id = .ok id) ∧
    (∀ typ : Ty, (∃ e, stringFor typ id = .error e) ↔
      ¬ ∃ name marshal, typ = .IdentType name marshal) := by
  refine ⟨fun _ => rfl, fun _ => rfl, fun _ => rfl, ?_, ?_⟩
  · intro name marshal h1 h2 h3
    simp [stringFor, h1, h2, h3]
  · intro typ
    cases typ with
    | IdentType name marshal =>
      simp only [stringFor]
      constructor
      · rintro ⟨e, he⟩
        split_ifs at he
      · intro h
        exact absurd ⟨name, marshal, rfl⟩ h
    | PointerType t => simp [stringFor]
    | SliceType t => simp [stringFor]
    | StructType fs => simp [stringFor]
    | IterType t => simp [stringFor]

theorem stringFor_table_witness :
    ("string" : String) ≠ "int" ∧ ("string" : String) ≠ "float64" ∧
    ("string" : String) ≠ "bool" ∧
    stringFor (.IdentType "string" false) (.Stmt [.Id "v"]) = .ok (.Stmt [.Id "v"]) ∧
    ((∃ e, stringFor (.SliceType (.IdentType "string" false)) (.Stmt [.Id "v"]) = .error e) ↔
      ¬ ∃ name marshal,
        Ty.SliceType (.IdentType "string" false) = .IdentType name marshal) :=
  ⟨by decide, by decide, by decide,
   (stringFor_table (.Stmt [.Id "v"])).2.2.2.1 "string" false (by decide) (by decide)
     (by decide),
   (stringFor_table (.Stmt [.Id "v"])).2.2.2.2 _⟩

/-- C16: `errSelectFunc` yields the same selector for every enumeration order
of the same `Errors` map, and `convertClientMethod` the same output for a
method whose `Errors` map is enumerated in another order. (Synthesis is a
function of the descriptor, so two runs on the same descriptor agree.) -/
theorem errSelectFunc_enumeration_independent (env : Env) :
    (∀ l1 l2 : List (Int × Ty), l1.Perm l2 → NodupKeys l1 →
      errSelectFunc env l1 = errSelectFunc env l2) ∧
    (∀ (m : Method) (decls : List TypeDecl) (errors2 : List (Int × Ty)),
      m.Errors.Perm errors2 → NodupKeys m.Errors →
      convertClientMethod env
          ⟨m.Receiver, m.Name, m.HTTPMethod, m.Path, m.Params, m.Return, m.Comment, errors2⟩
          decls =
        convertClientMethod env m decls) := by
  refine ⟨fun l1 l2 hp hnd => errSelectFunc_perm env hp hnd, ?_⟩
  intro m decls errors2 hp hnd
  have he := errSelectFunc_perm env hp hnd
  simp only [convertClientMethod, methodBlock, newRequestStmt, doStmt, ← he]

theorem errSelectFunc_enumeration_independent_witness :
    exErrors.Perm exErrors.reverse ∧ NodupKeys exErrors ∧
    errSelectFunc stdEnv exErrors = errSelectFunc stdEnv exErrors.reverse ∧
    exIterMethod.Errors.Perm exErrors.reverse ∧ NodupKeys exIterMethod.Errors ∧
    convertClientMethod stdEnv
        ⟨exIterMethod.Receiver, exIterMethod.Name, exIterMethod.HTTPMethod, exIterMethod.Path,
         exIterMethod.Params, exIterMethod.Return, exIterMethod.Comment, exErrors.reverse⟩
        exDecls =
      convertClientMethod stdEnv exIterMethod exDecls :=
  ⟨(List.reverse_perm _).symm, by decide,
   (errSelectFunc_enumeration_independent stdEnv).1 _ _ (List.reverse_perm _).symm (by decide),
   (List.reverse_perm _).symm, by decide,
   (errSelectFunc_enumeration_independent stdEnv).2 exIterMethod exDecls _
     (List.reverse_perm _).symm (by decide)⟩

theorem runs_members_or (env : Env) (errors : List (Int × Ty)) (rest : List Int) :
    ∀ (labels : List Int) (last : Ty),
      (∀ k ∈ labels, ∀ t, errors.lookup k = some t → last = t ∨ env.Equal last t = true) →
      ∀ gr ∈ runs env errors rest labels last,
        ∀ k ∈ gr.1, ∀ t, errors.lookup k = some t → gr.2 = t ∨ env.Equal gr.2 t = true := by
  induction rest with
  | nil =>
    intro labels last hinv gr hgr
    simp only [runs, List.mem_singleton] at hgr
    subst hgr
    exact hinv
  | cons k rest ih =>
    intro labels last hinv gr hgr
    cases ht : errors.lookup k with
    | none =>
      simp only [runs, ht, List.mem_singleton] at hgr
      subst hgr
      exact hinv
    | some t =>
      cases he : env.Equal last t with
      | true =>
        simp only [runs, ht, he, if_true] at hgr
        refine ih (labels ++ [k]) last ?_ gr hgr
        intro k1 hk1 t1 ht1
        simp only [List.mem_append, List.mem_singleton] at hk1
        rcases hk1 with hk1 | hk1
        · exact hinv k1 hk1 t1 ht1
        · subst hk1
          rw [ht] at ht1
          cases ht1
          exact Or.inr he
      | false =>
        simp only [runs, ht, he, Bool.false_eq_true, if_false, List.mem_cons] at hgr
        rcases hgr with hgr | hgr
        · subst hgr
          exact hinv
        · refine ih [k] t ?_ gr hgr
          intro k1 hk1 t1 ht1
          simp only [List.mem_singleton] at hk1
          subst hk1
          rw [ht] at ht1
          cases ht1
          exact Or.inl rfl

theorem evalSwitch_match (env : Env) (status : Int) (tail : List Code)
    (groups : List (List Int × Ty)) (h : ∃ gr ∈ groups, status ∈ gr.1) :
    ∀ dflt : Option Code, ∃ gr ∈ groups, status ∈ gr.1 ∧
      evalSwitch status (groups.map (groupClause env) ++ tail) dflt =
        some (some (env.initType gr.2)) := by
  induction groups with
  | nil => obtain ⟨gr, hgr, _⟩ := h; simp at hgr
  | cons g0 groups ih =>
    intro dflt
    by_cases h0 : status ∈ g0.1
    · refine ⟨g0, by simp, h0, ?_⟩
      simp [groupClause, caseClause, evalSwitch, any_litLabels, h0]
    · obtain ⟨gr, hgr, hin⟩ := h
      have hgr1 : gr ∈ groups := by
        rcases List.mem_cons.mp hgr with heq | hmem
        · subst heq; exact absurd hin h0
        · exact hmem
      obtain ⟨gr1, hgr1, hin1, hev⟩ := ih ⟨gr, hgr1, hin⟩ dflt
      refine ⟨gr1, by simp [hgr1], hin1, ?_⟩
      simp only [List.map_cons, List.cons_append, groupClause, caseClause, evalSwitch,
        any_litLabels, h0, decide_False, Bool.false_eq_true, if_false]
      simpa [groupClause, caseClause] using hev

/-- C18: with two or more non-default codes, the selector run on a
non-default code `k` of the map returns the constructor of a code of the
group of `k`: either `Errors[k]` itself or a constructor `t` with
`t.Equal(Errors[k])`, hence always one `Equal` to `Errors[k]` when `Equal` is
reflexive. -/
theorem errSelectFunc_refines_lookup (env : Env) (errors : List (Int × Ty)) (k : Int)
    (tk : Ty) (h2 : 2 ≤ (nonDefaultCodes errors).length) (hk : k ≠ -1)
    (hlk : errors.lookup k = some tk) :
    ∃ sel t, errSelectFunc env errors = .ok sel ∧
      evalSelector sel k = some (env.initType t) ∧
      (t = tk ∨ env.Equal t tk = true) ∧
      ((∀ a, env.Equal a a = true) → env.Equal t tk = true) := by
  have hlen := length_sortInts (nonDefaultCodes errors)
  match hs : sortInts (nonDefaultCodes errors) with
  | [] => rw [hs] at hlen; simp at hlen; omega
  | [_] => rw [hs] at hlen; simp at hlen; omega
  | c0 :: c1 :: rest =>
    obtain ⟨t0, ht0, hsel⟩ := errSelectFunc_switch env errors c0 c1 rest hs
    have hrest : ∀ k1 ∈ c1 :: rest, k1 ∈ errors.map Prod.fst := by
      intro k1 hk1
      have hk2 : k1 ∈ c0 :: c1 :: rest := List.mem_cons_of_mem _ hk1
      rw [← hs, mem_sortInts, mem_nonDefaultCodes] at hk2
      exact hk2.1
    have hflat := runs_flatten env errors (c1 :: rest) [c0] t0 hrest
    have hkin : k ∈ ((runs env errors (c1 :: rest) [c0] t0).map Prod.fst).flatten := by
      rw [hflat]
      have : k ∈ sortInts (nonDefaultCodes errors) := by
        rw [mem_sortInts, mem_nonDefaultCodes]
        exact ⟨mem_keys_of_lookup errors k tk hlk, hk⟩
      rw [hs] at this
      simpa using this
    obtain ⟨ls, hls, hkls⟩ := List.mem_flatten.mp hkin
    obtain ⟨gr0, hgr0, hgr0ls⟩ := List.mem_map.mp hls
    subst hgr0ls
    obtain ⟨gr, hgr, hin, hev⟩ := evalSwitch_match env k [defaultClause env errors]
      (runs env errors (c1 :: rest) [c0] t0) ⟨gr0, hgr0, hkls⟩ none
    have hmem := runs_members_or env errors (c1 :: rest) [c0] t0 (by
      intro k1 hk1 t1 ht1
      simp only [List.mem_singleton] at hk1
      subst hk1
      rw [ht0] at ht1
      cases ht1
      exact Or.inl rfl) gr hgr k hin tk hlk
    refine ⟨_, gr.2, hsel, ?_, hmem, ?_⟩
    · rw [evalSelector_switch, hev]
    · intro hrefl
      rcases hmem with heq | heq
      · rw [heq]; exact hrefl _
      · exact heq

theorem errSelectFunc_refines_lookup_witness :
    2 ≤ (nonDefaultCodes exErrors).length ∧ (405 : Int) ≠ -1 ∧
    exErrors.lookup 405 = some notFoundErr ∧
    ∃ sel t, errSelectFunc stdEnv exErrors = .ok sel ∧
      evalSelector sel 405 = some (stdEnv.initType t) ∧
      (t = notFoundErr ∨ stdEnv.Equal t notFoundErr = true) ∧
      ((∀ a, stdEnv.Equal a a = true) → stdEnv.Equal t notFoundErr = true) :=
  ⟨by decide, by decide, rfl,
   errSelectFunc_refines_lookup stdEnv exErrors 405 notFoundErr (by decide) (by decide) rfl⟩

/-! ## One iteration of the query and header loops -/

theorem stringFor_ident_ok (name : String) (marshal : Bool) (id : Code) :
    ∃ s, stringFor (.IdentType name marshal) id = .ok s := by
  simp only [stringFor]
  split_ifs <;> exact ⟨_, rfl⟩

theorem multiBlock_shape (errRet : List Code) (orig : String) (elem : Ty) (blk : List Code)
    (h : multiBlock errRet orig elem = .ok blk) :
    blk = [.Stmt [.Lst [.Stmt [.Id "b"], .Stmt [.Err]], .Op ":=",
             .Id "v", .Dot "MarshalText", .Call []],
           .Stmt [.If [.Stmt [.Err, .Op "!=", .Nil]], .Block [.Stmt [.Return errRet]]],
           .Stmt [.Id "q", .Dot "Add",
             .Call [.Stmt [.LitStr orig], .Stmt [.String, .Params [.Stmt [.Id "b"]]]]]] ∨
    ∃ val, stringFor elem (.Stmt [.Id "v"]) = .ok val ∧
      blk = [.Stmt [.Id "q", .Dot "Add", .Call [.Stmt [.LitStr orig], val]]] := by
  unfold multiBlock at h
  split at h
  · left
    simp only [Except.ok.injEq] at h
    rw [← h]
    rfl
  · right
    simp only [bind, Except.bind] at h
    split at h
    · cases h
    · rename_i val hval
      simp only [Except.ok.injEq] at h
      exact ⟨val, hval, h.symm⟩

theorem multiBlock_total (errRet : List Code) (orig name : String) (marshal : Bool) :
    ∃ blk, multiBlock errRet orig (.IdentType name marshal) = .ok blk := by
  unfold multiBlock
  split
  · exact ⟨_, rfl⟩
  · obtain ⟨s, hs⟩ := stringFor_ident_ok name marshal (.Stmt [.Id "v"])
    simp only [bind, Except.bind, hs]
    exact ⟨_, rfl⟩

theorem queryArgStmts_multi (errRet : List Code) (n j : Nat) (q : Param) (seg : List Code)
    (hc : q.Collection = .Multi) (h : queryArgStmts errRet n j q = .ok seg) :
    ∃ elem blk tail, q.Typ = .SliceType elem ∧
      multiBlock errRet (wireName q.ID q.Orig) elem = .ok blk ∧
      seg = .Stmt [.For [.Stmt [.Lst [.Stmt [.Id "_"], .Stmt [.Id "v"]], .Op ":=",
                     .Range, .Id q.ID]],
                   .Block blk] :: tail ∧
      (tail = [] ∨ tail = [.Stmt [.Line]]) := by
  simp only [queryArgStmts, hc, bind, Except.bind] at h
  split at h
  · rename_i elem hty
    split at h
    · cases h
    · rename_i blk hblk
      simp only [Except.ok.injEq] at h
      refine ⟨elem, blk, lineIf (decide ((j : Int) ≠ (n : Int) - 1)), hty, hblk, ?_, ?_⟩
      · rw [← h]; rfl
      · unfold lineIf
        split
        · right; rfl
        · left; rfl
  · cases h

theorem queryArgStmts_total (errRet : List Code) (n j : Nat) (q : Param)
    (h : (q.Collection = .None ∧ ∃ name marshal, q.Typ = .IdentType name marshal) ∨
         (q.Collection = .Multi ∧
           ∃ name marshal, q.Typ = .SliceType (.IdentType name marshal))) :
    ∃ seg, queryArgStmts errRet n j q = .ok seg := by
  rcases h with ⟨hc, name, marshal, hty⟩ | ⟨hc, name, marshal, hty⟩
  · simp only [queryArgStmts, hc, hty, bind, Except.bind]
    split
    · exact ⟨_, rfl⟩
    · obtain ⟨s, hs⟩ := stringFor_ident_ok name marshal (.Stmt [.Id q.Arg])
      rw [hs]
      exact ⟨_, rfl⟩
  · obtain ⟨blk, hblk⟩ := multiBlock_total errRet (wireName q.ID q.Orig) name marshal
    simp only [queryArgStmts, hc, hty, bind, Except.bind, hblk]
    exact ⟨_, rfl⟩

theorem runValues_add (name : String) (values : List String) :
    runValues [.Stmt [.Id "q", .Dot "Add", .Call [.Stmt [.LitStr name], .Stmt [.Id "v"]]]]
      values = some (values.map (QueryOp.Add name)) := by
  induction values with
  | nil => rfl
  | cons v vs ih => simp [runValues, runBody, runElemStmt, ih]

theorem setQueryArgsLoop_segs_enum (errRet : List Code) (n : Nat) (args : List Param) :
    ∀ (i : Nat) (g g1 : List Code), setQueryArgsLoop errRet n i args g = .ok g1 →
      ∃ segs : List (List Code), g1 = g ++ segs.flatten ∧
        List.Forall₂ (fun (iq : Nat × Param) seg =>
          queryArgStmts errRet n iq.1 iq.2 = .ok seg) (args.enumFrom i) segs := by
  induction args with
  | nil =>
    intro i g g1 h
    simp only [setQueryArgsLoop, Except.ok.injEq] at h
    exact ⟨[], by simp [h], by simp⟩
  | cons q rest ih =>
    intro i g g1 h
    rw [setQueryArgsLoop_cons] at h
    cases hq : queryArgStmts errRet n i q with
    | error e => rw [hq] at h; cases h
    | ok seg =>
      rw [hq] at h
      obtain ⟨segs, hg, hall⟩ := ih _ _ _ h
      refine ⟨seg :: segs, by simp [hg], ?_⟩
      rw [List.enumFrom_cons]
      exact List.Forall₂.cons hq hall

theorem lineIf_not_last (n j : Nat) :
    lineIf (decide ((j : Int) ≠ (n : Int) - 1)) =
      if j + 1 = n then [] else [Code.Stmt [.Line]] := by
  unfold lineIf
  by_cases h : j + 1 = n
  · have h1 : ¬ ((j : Int) ≠ (n : Int) - 1) := by omega
    simp [h, h1]
  · have h1 : (j : Int) ≠ (n : Int) - 1 := by omega
    simp [h, h1]

theorem multiBlock_full (errRet : List Code) (orig : String) (elem : Ty) (blk : List Code)
    (h : multiBlock errRet orig elem = .ok blk) :
    (isMarshal elem = true ∧
      blk = [.Stmt [.Lst [.Stmt [.Id "b"], .Stmt [.Err]], .Op ":=",
               .Id "v", .Dot "MarshalText", .Call []],
             .Stmt [.If [.Stmt [.Err, .Op "!=", .Nil]], .Block [.Stmt [.Return errRet]]],
             .Stmt [.Id "q", .Dot "Add",
               .Call [.Stmt [.LitStr orig], .Stmt [.String, .Params [.Stmt [.Id "b"]]]]]]) ∨
    (isMarshal elem = false ∧ ∃ val, stringFor elem (.Stmt [.Id "v"]) = .ok val ∧
      blk = [.Stmt [.Id "q", .Dot "Add", .Call [.Stmt [.LitStr orig], val]]]) := by
  unfold multiBlock at h
  cases hm : isMarshal elem with
  | true =>
    left
    simp only [hm, if_true, Except.ok.injEq] at h
    exact ⟨rfl, by rw [← h]; rfl⟩
  | false =>
    right
    simp only [hm, Bool.false_eq_true, if_false, bind, Except.bind] at h
    split at h
    · cases h
    · rename_i val hval
      simp only [Except.ok.injEq] at h
      exact ⟨rfl, val, hval, h.symm⟩

theorem queryArgStmts_full (errRet : List Code) (n j : Nat) (q : Param) (seg : List Code)
    (h : queryArgStmts errRet n j q = .ok seg) :
    (q.Collection = .None ∧ isMarshal q.Typ = true ∧
      seg = [.Stmt [.Lst [.Stmt [.Id (q.ID ++ "Bytes")], .Stmt [.Err]], .Op ":=",
               .Id q.ID, .Dot "MarshalText", .Call []],
             .Stmt [.If [.Stmt [.Err, .Op "!=", .Nil]], .Block [.Stmt [.Return errRet]]],
             .Stmt [.Id "q", .Dot "Set",
               .Call [.Stmt [.LitStr (if q.Orig ≠ "" then q.Orig else q.ID)],
                      .Stmt [.String, .Params [.Stmt [.Id (q.Arg ++ "Bytes")]]]]]] ++
            (if j + 1 = n then [] else [.Stmt [.Line]])) ∨
    (q.Collection = .None ∧ isMarshal q.Typ = false ∧
      ∃ val, stringFor q.Typ (.Stmt [.Id q.Arg]) = .ok val ∧
        seg = [.Stmt [.Id "q", .Dot "Set",
          .Call [.Stmt [.LitStr (if q.Orig ≠ "" then q.Orig else q.ID)], val]]]) ∨
    (q.Collection = .Multi ∧ ∃ (elem : Ty) (blk : List Code),
      q.Typ = .SliceType elem ∧
      seg = [.Stmt [.For [.Stmt [.Lst [.Stmt [.Id "_"], .Stmt [.Id "v"]], .Op ":=",
                      .Range, .Id q.ID]],
                    .Block blk]] ++
            (if j + 1 = n then [] else [.Stmt [.Line]]) ∧
      ((isMarshal elem = true ∧
        blk = [.Stmt [.Lst [.Stmt [.Id "b"], .Stmt [.Err]], .Op ":=",
                 .Id "v", .Dot "MarshalText", .Call []],
               .Stmt [.If [.Stmt [.Err, .Op "!=", .Nil]], .Block [.Stmt [.Return errRet]]],
               .Stmt [.Id "q", .Dot "Add",
                 .Call [.Stmt [.LitStr (if q.Orig ≠ "" then q.Orig else q.ID)],
                        .Stmt [.String, .Params [.Stmt [.Id "b"]]]]]]) ∨
       (isMarshal elem = false ∧ ∃ val, stringFor elem (.Stmt [.Id "v"]) = .ok val ∧
         blk = [.Stmt [.Id "q", .Dot "Add",
           .Call [.Stmt [.LitStr (if q.Orig ≠ "" then q.Orig else q.ID)], val]]]))) := by
  unfold queryArgStmts at h
  cases hc : q.Collection with
  | None =>
    simp only [hc, bind, Except.bind] at h
    cases hm : isMarshal q.Typ with
    | true =>
      left
      simp only [hm, if_true, Except.ok.injEq] at h
      refine ⟨rfl, rfl, ?_⟩
      rw [← h, lineIf_not_last]
      rfl
    | false =>
      right; left
      simp only [hm, Bool.false_eq_true, if_false] at h
      split at h
      · cases h
      · rename_i val hval
        simp only [Except.ok.injEq] at h
        exact ⟨rfl, rfl, val, hval, by rw [← h]; rfl⟩
  | Multi =>
    right; right
    simp only [hc, bind, Except.bind] at h
    split at h
    · rename_i elem hty
      split at h
      · cases h
      · rename_i blk hblk
        simp only [Except.ok.injEq] at h
        refine ⟨rfl, elem, blk, hty, ?_, multiBlock_full errRet _ elem blk hblk⟩
        rw [← h, lineIf_not_last]
    · cases h
  | Other t => simp [hc] at h

/-- C12: the output of `setQueryArgs`, when it returns for a non-empty list,
is `q := make(url.Values)` followed by one segment per parameter, in order.
The segment of a parameter with collection `None` holds one `q.Set` and no
loop. The segment of a parameter with collection `Multi` is the single
statement `for _, v := range <ID> { ... }`, followed by a blank line unless
the parameter is the last, and the body of the loop ends with its only
query operation, one `q.Add(<wire name>, ...)` per element, where the wire
name is `Orig` when it is not empty and `ID` otherwise. `setQueryArgs`
returns for parameters that are identifiers or sequences of identifiers;
and the loop emitted for a sequence of strings with `Orig = "tags"`, run on
`["a", "b"]`, performs `Add("tags", "a")` then `Add("tags", "b")`. -/
theorem setQueryArgs_multi_adds_in_order (errRet : List Code) :
    (∀ (args : List Param) (qs : List Code), setQueryArgs errRet args = .ok qs →
      (args = [] ∧ qs = []) ∨
      (args ≠ [] ∧ ∃ segs : List (List Code),
        qs = [.Stmt [.Line],
              .Stmt [.Id "q", .Op ":=", .Make [.Stmt [.Qual "net/url" "Values"]]]] ++
             segs.flatten ∧
        List.Forall₂ (fun (iq : Nat × Param) seg =>
          (iq.2.Collection = .None ∧ isMarshal iq.2.Typ = true ∧
            seg = [.Stmt [.Lst [.Stmt [.Id (iq.2.ID ++ "Bytes")], .Stmt [.Err]], .Op ":=",
                     .Id iq.2.ID, .Dot "MarshalText", .Call []],
                   .Stmt [.If [.Stmt [.Err, .Op "!=", .Nil]],
                          .Block [.Stmt [.Return errRet]]],
                   .Stmt [.Id "q", .Dot "Set",
                     .Call [.Stmt [.LitStr (if iq.2.Orig ≠ "" then iq.2.Orig else iq.2.ID)],
                            .Stmt [.String,
                              .Params [.Stmt [.Id (iq.2.Arg ++ "Bytes")]]]]]] ++
                  (if iq.1 + 1 = args.length then [] else [.Stmt [.Line]])) ∨
          (iq.2.Collection = .None ∧ isMarshal iq.2.Typ = false ∧
            ∃ val, stringFor iq.2.Typ (.Stmt [.Id iq.2.Arg]) = .ok val ∧
              seg = [.Stmt [.Id "q", .Dot "Set",
                .Call [.Stmt [.LitStr (if iq.2.Orig ≠ "" then iq.2.Orig else iq.2.ID)],
                       val]]]) ∨
          (iq.2.Collection = .Multi ∧ ∃ (elem : Ty) (blk : List Code),
            iq.2.Typ = .SliceType elem ∧
            seg = [.Stmt [.For [.Stmt [.Lst [.Stmt [.Id "_"], .Stmt [.Id "v"]], .Op ":=",
                            .Range, .Id iq.2.ID]],
                          .Block blk]] ++
                  (if iq.1 + 1 = args.length then [] else [.Stmt [.Line]]) ∧
            ((isMarshal elem = true ∧
              blk = [.Stmt [.Lst [.Stmt [.Id "b"], .Stmt [.Err]], .Op ":=",
                       .Id "v", .Dot "MarshalText", .Call []],
                     .Stmt [.If [.Stmt [.Err, .Op "!=", .Nil]],
                            .Block [.Stmt [.Return errRet]]],
                     .Stmt [.Id "q", .Dot "Add",
                       .Call [.Stmt [.LitStr
                                (if iq.2.Orig ≠ "" then iq.2.Orig else iq.2.ID)],
                              .Stmt [.String, .Params [.Stmt [.Id "b"]]]]]]) ∨
             (isMarshal elem = false ∧
              ∃ val, stringFor elem (.Stmt [.Id "v"]) = .ok val ∧
                blk = [.Stmt [.Id "q", .Dot "Add",
                  .Call [.Stmt [.LitStr (if iq.2.Orig ≠ "" then iq.2.Orig else iq.2.ID)],
                         val]]]))))
          args.enum segs)) ∧
    (∀ args : List Param,
      (∀ q ∈ args,
        (q.Collection = .None ∧ ∃ name marshal, q.Typ = .IdentType name marshal) ∨
        (q.Collection = .Multi ∧
          ∃ name marshal, q.Typ = .SliceType (.IdentType name marshal))) →
      ∃ qs, setQueryArgs errRet args = .ok qs) ∧
    (∀ (q : Param) (values : List String),
      q.Collection = .Multi → q.Typ = .SliceType (.IdentType "string" false) →
      q.Orig = "tags" →
      ∃ loop, setQueryArgs errRet [q] =
          .ok [.Stmt [.Line],
               .Stmt [.Id "q", .Op ":=", .Make [.Stmt [.Qual "net/url" "Values"]]],
               loop] ∧
        runFor values loop = some (values.map (QueryOp.Add "tags")) ∧
        runFor ["a", "b"] loop = some [.Add "tags" "a", .Add "tags" "b"]) := by
  refine ⟨?_, ?_, ?_⟩
  · intro args qs h
    unfold setQueryArgs at h
    by_cases h0 : args.length = 0
    · left
      simp only [h0, if_true, Except.ok.injEq] at h
      exact ⟨List.length_eq_zero.mp h0, h.symm⟩
    · right
      simp only [h0, if_false] at h
      obtain ⟨segs, hg, hall⟩ := setQueryArgsLoop_segs_enum errRet _ args 0 _ qs h
      refine ⟨fun hn => h0 (by simp [hn]), segs, hg, ?_⟩
      unfold List.enum
      exact hall.imp (fun iq seg hj => queryArgStmts_full errRet _ iq.1 iq.2 seg hj)
  · intro args hall
    unfold setQueryArgs
    split
    · exact ⟨_, rfl⟩
    · exact setQueryArgsLoop_total errRet _ args
        (fun q hq j => queryArgStmts_total errRet _ j q (hall q hq)) _ _
  · intro q values hc hty ho
    refine ⟨.Stmt [.For [.Stmt [.Lst [.Stmt [.Id "_"], .Stmt [.Id "v"]], .Op ":=",
                     .Range, .Id q.ID]],
              .Block [.Stmt [.Id "q", .Dot "Add",
                .Call [.Stmt [.LitStr "tags"], .Stmt [.Id "v"]]]]], ?_, ?_, ?_⟩
    · simp [setQueryArgs, setQueryArgsLoop, hc, hty, ho, multiBlock, isMarshal, stringFor,
        wireName, bind, Except.bind]
    · simp only [runFor]
      exact runValues_add "tags" values
    · rfl

theorem setQueryArgs_multi_adds_in_order_witness :
    (∃ qs, setQueryArgs [.Stmt [.Err]]
        [exTagsParam, ⟨"limit", "limit", "", .Query, .IdentType "int" false, .None⟩] = .ok qs ∧
      ((([exTagsParam, ⟨"limit", "limit", "", .Query, .IdentType "int" false, .None⟩] :
          List Param) = [] ∧ qs = []) ∨
      (([exTagsParam, ⟨"limit", "limit", "", .Query, .IdentType "int" false, .None⟩] :
          List Param) ≠ [] ∧ ∃ segs : List (List Code),
        qs = [.Stmt [.Line],
              .Stmt [.Id "q", .Op ":=", .Make [.Stmt [.Qual "net/url" "Values"]]]] ++
             segs.flatten ∧
        List.Forall₂ (fun (iq : Nat × Param) seg =>
          (iq.2.Collection = .None ∧ isMarshal iq.2.Typ = true ∧
            seg = [.Stmt [.Lst [.Stmt [.Id (iq.2.ID ++ "Bytes")], .Stmt [.Err]], .Op ":=",
                     .Id iq.2.ID, .Dot "MarshalText", .Call []],
                   .Stmt [.If [.Stmt [.Err, .Op "!=", .Nil]],
                          .Block [.Stmt [.Return [.Stmt [.Err]]]]],
                   .Stmt [.Id "q", .Dot "Set",
                     .Call [.Stmt [.LitStr (if iq.2.Orig ≠ "" then iq.2.Orig else iq.2.ID)],
                            .Stmt [.String,
                              .Params [.Stmt [.Id (iq.2.Arg ++ "Bytes")]]]]]] ++
                  (if iq.1 + 1 =
                      ([exTagsParam,
                        ⟨"limit", "limit", "", .Query, .IdentType "int" false, .None⟩] :
                        List Param).length
                    then [] else [.Stmt [.Line]])) ∨
          (iq.2.Collection = .None ∧ isMarshal iq.2.Typ = false ∧
            ∃ val, stringFor iq.2.Typ (.Stmt [.Id iq.2.Arg]) = .ok val ∧
              seg = [.Stmt [.Id "q", .Dot "Set",
                .Call [.Stmt [.LitStr (if iq.2.Orig ≠ "" then iq.2.Orig else iq.2.ID)],
                       val]]]) ∨
          (iq.2.Collection = .Multi ∧ ∃ (elem : Ty) (blk : List Code),
            iq.2.Typ = .SliceType elem ∧
            seg = [.Stmt [.For [.Stmt [.Lst [.Stmt [.Id "_"], .Stmt [.Id "v"]], .Op ":=",
                            .Range, .Id iq.2.ID]],
                          .Block blk]] ++
                  (if iq.1 + 1 =
                      ([exTagsParam,
                        ⟨"limit", "limit", "", .Query, .IdentType "int" false, .None⟩] :
                        List Param).length
                    then [] else [.Stmt [.Line]]) ∧
            ((isMarshal elem = true ∧
              blk = [.Stmt [.Lst [.Stmt [.Id "b"], .Stmt [.Err]], .Op ":=",
                       .Id "v", .Dot "MarshalText", .Call []],
                     .Stmt [.If [.Stmt [.Err, .Op "!=", .Nil]],
                            .Block [.Stmt [.Return [.Stmt [.Err]]]]],
                     .Stmt [.Id "q", .Dot "Add",
                       .Call [.Stmt [.LitStr
                                (if iq.2.Orig ≠ "" then iq.2.Orig else iq.2.ID)],
                              .Stmt [.String, .Params [.Stmt [.Id "b"]]]]]]) ∨
             (isMarshal elem = false ∧
              ∃ val, stringFor elem (.Stmt [.Id "v"]) = .ok val ∧
                blk = [.Stmt [.Id "q", .Dot "Add",
                  .Call [.Stmt [.LitStr (if iq.2.Orig ≠ "" then iq.2.Orig else iq.2.ID)],
                         val]]]))))
          ([exTagsParam, ⟨"limit", "limit", "", .Query, .IdentType "int" false, .None⟩] :
            List Param).enum segs))) ∧
    (∃ qs, setQueryArgs [.Stmt [.Err]] [exTagsParam] = .ok qs) ∧
    (exTagsParam.Collection = .Multi ∧
      exTagsParam.Typ = .SliceType (.IdentType "string" false) ∧ exTagsParam.Orig = "tags" ∧
      ∃ loop, setQueryArgs [.Stmt [.Err]] [exTagsParam] =
          .ok [.Stmt [.Line],
               .Stmt [.Id "q", .Op ":=", .Make [.Stmt [.Qual "net/url" "Values"]]],
               loop] ∧
        runFor ["x", "y", "z"] loop = some (["x", "y", "z"].map (QueryOp.Add "tags")) ∧
        runFor ["a", "b"] loop = some [.Add "tags" "a", .Add "tags" "b"]) :=
  ⟨⟨_, rfl, (setQueryArgs_multi_adds_in_order [.Stmt [.Err]]).1 _ _ rfl⟩,
   (setQueryArgs_multi_adds_in_order [.Stmt [.Err]]).2.1 [exTagsParam] (by
     intro q hq
     simp only [List.mem_singleton] at hq
     subst hq
     exact Or.inr ⟨rfl, "string", false, rfl⟩),
   ⟨rfl, rfl, rfl,
    (setQueryArgs_multi_adds_in_order [.Stmt [.Err]]).2.2 exTagsParam ["x", "y", "z"]
      rfl rfl rfl⟩⟩

theorem headerArgStmts_shape (errRet : List Code) (n j : Nat) (h : Param) (seg : List Code)
    (hs : headerArgStmts errRet n j h = .ok seg) :
    h.Collection = .None ∧
    ((isMarshal h.Typ = true ∧
      seg = [.Stmt [.Lst [.Stmt [.Id (h.Arg ++ "Bytes")], .Stmt [.Err]], .Op ":=",
               .Id h.Arg, .Dot "MarshalText", .Call []],
             .Stmt [.If [.Stmt [.Err, .Op "!=", .Nil]], .Block [.Stmt [.Return errRet]]],
             .Stmt [.Id "req", .Dot "Header", .Dot "Set",
               .Call [.Stmt [.LitStr (if h.Orig ≠ "" then h.Orig else h.ID)],
                      .Stmt [.String, .Params [.Stmt [.Id (h.Arg ++ "Bytes")]]]]],
             .Stmt [.Line]]) ∨
     (isMarshal h.Typ = false ∧ ∃ val tail,
        stringFor h.Typ (.Stmt [.Id h.Arg]) = .ok val ∧
        seg = .Stmt [.Id "req", .Dot "Header", .Dot "Set",
                .Call [.Stmt [.LitStr (if h.Orig ≠ "" then h.Orig else h.ID)], val]] :: tail ∧
        (tail = [] ∨ tail = [.Stmt [.Line]]))) := by
  unfold headerArgStmts at hs
  cases hc : h.Collection with
  | None =>
    refine ⟨rfl, ?_⟩
    simp only [hc, bind, Except.bind] at hs
    cases hm : isMarshal h.Typ with
    | true =>
      left
      simp only [hm, if_true, Except.ok.injEq] at hs
      exact ⟨rfl, by rw [← hs]; rfl⟩
    | false =>
      right
      simp only [hm, Bool.false_eq_true, if_false] at hs
      split at hs
      · cases hs
      · rename_i val hval
        simp only [Except.ok.injEq] at hs
        refine ⟨rfl, val, lineIf (decide ((j : Int) = (n : Int) - 1)), hval, ?_, ?_⟩
        · rw [← hs]; rfl
        · unfold lineIf
          split
          · right; rfl
          · left; rfl
  | Multi => simp [hc] at hs
  | Other t => simp [hc] at hs

theorem headerArgStmts_total (errRet : List Code) (n j : Nat) (h : Param)
    (hc : h.Collection = .None) (hty : ∃ name marshal, h.Typ = .IdentType name marshal) :
    ∃ seg, headerArgStmts errRet n j h = .ok seg := by
  obtain ⟨name, marshal, hty⟩ := hty
  simp only [headerArgStmts, hc, hty, bind, Except.bind]
  split
  · exact ⟨_, rfl⟩
  · obtain ⟨s, hs⟩ := stringFor_ident_ok name marshal (.Stmt [.Id h.Arg])
    rw [hs]
    exact ⟨_, rfl⟩

theorem headerArgStmts_error (errRet : List Code) (n j : Nat) (h : Param)
    (hc : h.Collection ≠ .None) : ∃ e, headerArgStmts errRet n j h = .error e := by
  unfold headerArgStmts
  cases hk : h.Collection with
  | None => exact absurd hk hc
  | Multi => exact ⟨_, rfl⟩
  | Other t => exact ⟨_, rfl⟩

/-- C17 (amended): whenever `setHeaderArgs` returns, every parameter has
collection `None` and gives, in declaration order, one
`req.Header.Set(<wire name>, ...)`, the wire name being `Orig` when it is not
empty and `ID` otherwise: for a type with text-marshal support the value is
`string(<Arg>Bytes)`, after `<Arg>Bytes, err := <Arg>.MarshalText()` and
`if err != nil { return errRet... }`; otherwise it is the `stringFor`
expression. It returns when every parameter has collection `None` and an
identifier type, and panics when a parameter has another collection. -/
theorem setHeaderArgs_sets_in_order (errRet : List Code) :
    (∀ (args : List Param) (hs : List Code), setHeaderArgs errRet args = .ok hs →
      ∃ segs : List (List Code), hs = segs.flatten ∧
        List.Forall₂ (fun h seg =>
          h.Collection = .None ∧
          ((isMarshal h.Typ = true ∧
            seg = [.Stmt [.Lst [.Stmt [.Id (h.Arg ++ "Bytes")], .Stmt [.Err]], .Op ":=",
                     .Id h.Arg, .Dot "MarshalText", .Call []],
                   .Stmt [.If [.Stmt [.Err, .Op "!=", .Nil]],
                          .Block [.Stmt [.Return errRet]]],
                   .Stmt [.Id "req", .Dot "Header", .Dot "Set",
                     .Call [.Stmt [.LitStr (if h.Orig ≠ "" then h.Orig else h.ID)],
                            .Stmt [.String, .Params [.Stmt [.Id (h.Arg ++ "Bytes")]]]]],
                   .Stmt [.Line]]) ∨
           (isMarshal h.Typ = false ∧ ∃ val tail,
              stringFor h.Typ (.Stmt [.Id h.Arg]) = .ok val ∧
              seg = .Stmt [.Id "req", .Dot "Header", .Dot "Set",
                      .Call [.Stmt [.LitStr (if h.Orig ≠ "" then h.Orig else h.ID)], val]]
                    :: tail ∧
              (tail = [] ∨ tail = [.Stmt [.Line]])))) args segs) ∧
    (∀ args : List Param,
      (∀ h ∈ args, h.Collection = .None ∧ ∃ name marshal, h.Typ = .IdentType name marshal) →
      ∃ hs, setHeaderArgs errRet args = .ok hs) ∧
    (∀ args : List Param, (∃ h ∈ args, h.Collection ≠ .None) →
      ∃ e, setHeaderArgs errRet args = .error e) := by
  refine ⟨?_, ?_, ?_⟩
  · intro args hs h
    obtain ⟨segs, hg, hall⟩ := setHeaderArgsLoop_segs errRet _ args 0 [] hs h
    refine ⟨segs, by simpa using hg, hall.imp ?_⟩
    rintro p seg ⟨j, hj⟩
    exact headerArgStmts_shape errRet _ j p seg hj
  · intro args hall
    exact setHeaderArgsLoop_total errRet _ args
      (fun h hh j => headerArgStmts_total errRet _ j h (hall h hh).1 (hall h hh).2) _ _
  · intro args hbad
    obtain ⟨h, hh, hc⟩ := hbad
    exact setHeaderArgsLoop_error errRet _ args
      ⟨h, hh, fun j => headerArgStmts_error errRet _ j h hc⟩ _ _

theorem setHeaderArgs_sets_in_order_witness :
    (∃ hs, setHeaderArgs [.Stmt [.Err]] exHeaderParams = .ok hs ∧
      ∃ segs : List (List Code), hs = segs.flatten ∧
        List.Forall₂ (fun h seg =>
          h.Collection = .None ∧
          ((isMarshal h.Typ = true ∧
            seg = [.Stmt [.Lst [.Stmt [.Id (h.Arg ++ "Bytes")], .Stmt [.Err]], .Op ":=",
                     .Id h.Arg, .Dot "MarshalText", .Call []],
                   .Stmt [.If [.Stmt [.Err, .Op "!=", .Nil]],
                          .Block [.Stmt [.Return [.Stmt [.Err]]]]],
                   .Stmt [.Id "req", .Dot "Header", .Dot "Set",
                     .Call [.Stmt [.LitStr (if h.Orig ≠ "" then h.Orig else h.ID)],
                            .Stmt [.String, .Params [.Stmt [.Id (h.Arg ++ "Bytes")]]]]],
                   .Stmt [.Line]]) ∨
           (isMarshal h.Typ = false ∧ ∃ val tail,
              stringFor h.Typ (.Stmt [.Id h.Arg]) = .ok val ∧
              seg = .Stmt [.Id "req", .Dot "Header", .Dot "Set",
                      .Call [.Stmt [.LitStr (if h.Orig ≠ "" then h.Orig else h.ID)], val]]
                    :: tail ∧
              (tail = [] ∨ tail = [.Stmt [.Line]])))) exHeaderParams segs) ∧
    ((∀ h ∈ exHeaderParams,
        h.Collection = .None ∧ ∃ name marshal, h.Typ = .IdentType name marshal) ∧
      ∃ hs, setHeaderArgs [.Stmt [.Err]] exHeaderParams = .ok hs) ∧
    (∃ e, setHeaderArgs [.Stmt [.Err]]
      [⟨"ids", "ids", "", .Header, .SliceType (.IdentType "string" false), .Multi⟩] =
        .error e) :=
  ⟨⟨_, rfl, (setHeaderArgs_sets_in_order [.Stmt [.Err]]).1 exHeaderParams _ rfl⟩,
   ⟨by
      intro h hh
      simp only [exHeaderParams, List.mem_cons, List.mem_singleton, List.not_mem_nil,
        or_false] at hh
      rcases hh with hh | hh <;> subst hh
      · exact ⟨rfl, "Token", true, rfl⟩
      · exact ⟨rfl, "string", false, rfl⟩,
    (setHeaderArgs_sets_in_order [.Stmt [.Err]]).2.1 exHeaderParams (by
      intro h hh
      simp only [exHeaderParams, List.mem_cons, List.mem_singleton, List.not_mem_nil,
        or_false] at hh
      rcases hh with hh | hh <;> subst hh
      · exact ⟨rfl, "Token", true, rfl⟩
      · exact ⟨rfl, "string", false, rfl⟩)⟩,
   (setHeaderArgs_sets_in_order [.Stmt [.Err]]).2.2 _
     ⟨⟨"ids", "ids", "", .Header, .SliceType (.IdentType "string" false), .Multi⟩,
      by simp, by simp⟩⟩

/-- C17 as stated does not hold: a header parameter with collection `None`
whose type is a sequence makes `setHeaderArgs` panic in `stringFor`, so no
`Set` is emitted for it. -/
theorem setHeaderArgs_none_collection_panics :
    (∀ h ∈ exSliceHeader, h.Collection = .None) ∧
    setHeaderArgs [.Stmt [.Err]] exSliceHeader =
      .error "unknown type for string conversion" :=
  ⟨by
    intro h hh
    simp only [exSliceHeader, List.mem_singleton] at hh
    subst hh
    rfl, rfl⟩

/-- C19 does not hold of the code: for parameters whose `ID` and `Arg`
differ, the signature declares `userID`, `startAt` and `traceID`, while the
path statements call `user_id.MarshalText()`, and the query statements bind
`start_atBytes` from `start_at.MarshalText()` and then convert
`startAtBytes`. The header statements use `traceID` and `traceIDBytes`
throughout. -/
theorem convertClientMethod_id_arg_mismatch :
    convertClientMethod stdEnv exMismatchMethod [] =
      .ok [.Stmt [.Comment "Find looks a user up"],
           .Stmt [.Func, .Params [.Stmt [.Id "c", .Op "*", .Id "WidgetClient"]], .Id "Find",
             .Params [.Stmt [.Id "ctx", .Qual "context" "Context"],
                      .Stmt [.Id "userID", .Id "ID"],
                      .Stmt [.Id "startAt", .Id "Time"],
                      .Stmt [.Id "traceID", .Id "ID"]],
             .Params [.Stmt [.Id "error"]],
             .Block
               [.Stmt [.Lst [.Stmt [.Id "user_idBytes"], .Stmt [.Err]], .Op ":=",
                  .Id "user_id", .Dot "MarshalText", .Call []],
                .Stmt [.If [.Stmt [.Err, .Op "!=", .Nil]],
                       .Block [.Stmt [.Return [.Stmt [.Err]]]]],
                .Stmt [.Line],
                .Stmt [.Id "p", .Op ":=", .Qual "fmt" "Sprintf",
                  .Call [.Stmt [.LitStr "/users/%s"],
                         .Stmt [.String, .Params [.Stmt [.Id "user_idBytes"]]]]],
                .Stmt [.Line],
                .Stmt [.Id "q", .Op ":=", .Make [.Stmt [.Qual "net/url" "Values"]]],
                .Stmt [.Lst [.Stmt [.Id "start_atBytes"], .Stmt [.Err]], .Op ":=",
                  .Id "start_at", .Dot "MarshalText", .Call []],
                .Stmt [.If [.Stmt [.Err, .Op "!=", .Nil]],
                       .Block [.Stmt [.Return [.Stmt [.Err]]]]],
                .Stmt [.Id "q", .Dot "Set",
                  .Call [.Stmt [.LitStr "start_at"],
                         .Stmt [.String, .Params [.Stmt [.Id "startAtBytes"]]]]],
                .Stmt [.Stmt [.Line]],
                .Stmt [.Lst [.Stmt [.Id "req"], .Stmt [.Err]], .Op ":=",
                  .Id "c", .Dot "backend", .Dot "NewRequest",
                  .Call [.Stmt [.Qual "net/http" "MethodGet"], .Stmt [.Id "p"],
                         .Stmt [.Id "q"], .Stmt [.Nil]]],
                .Stmt [.If [.Stmt [.Err, .Op "!=", .Nil]],
                       .Block [.Stmt [.Return [.Stmt [.Err]]]]],
                .Stmt [.Line],
                .Stmt [.Lst [.Stmt [.Id "traceIDBytes"], .Stmt [.Err]], .Op ":=",
                  .Id "traceID", .Dot "MarshalText", .Call []],
                .Stmt [.If [.Stmt [.Err, .Op "!=", .Nil]],
                       .Block [.Stmt [.Return [.Stmt [.Err]]]]],
                .Stmt [.Id "req", .Dot "Header", .Dot "Set",
                  .Call [.Stmt [.LitStr "X-Trace"],
                         .Stmt [.String, .Params [.Stmt [.Id "traceIDBytes"]]]]],
                .Stmt [.Line],
                .Stmt [.Lst [.Stmt [.Id "_"], .Stmt [.Err]], .Op "=",
                  .Id "c", .Dot "backend", .Dot "Do",
                  .Call [.Stmt [.Id "ctx"], .Stmt [.Id "req"], .Stmt [.Nil], .Stmt [.Nil]]],
                .Stmt [.If [.Stmt [.Err, .Op "!=", .Nil]],
                       .Block [.Stmt [.Return [.Stmt [.Err]]]]],
                .Stmt [.Line],
                .Stmt [.Return [.Stmt [.Nil]]]]]] :=
  rfl

/-! ## Declarations of the query collection -/

theorem pathArgStmts_noDecl (errRet : List Code) (fa : Param) :
    ∀ c ∈ pathArgStmts errRet fa, declaresQ c = false := by
  unfold pathArgStmts
  split <;> simp [declaresQ, ifErrReturn]

theorem setPathArgs_noDecl (errRet : List Code) (path : String) (args : List Param) :
    (setPathArgs errRet path args).countP declaresQ = 0 := by
  rw [List.countP_eq_zero]
  intro c hc
  by_cases ha : args = []
  · subst ha
    simp [setPathArgs] at hc
    subst hc
    simp [declaresQ]
  · rw [setPathArgs_closed errRet path args ha] at hc
    rcases List.mem_append.mp hc with h | h
    · obtain ⟨fa, _, hfa⟩ := List.mem_flatMap.mp h
      simp [pathArgStmts_noDecl errRet fa c hfa]
    · simp only [List.mem_singleton] at h
      subst h
      simp [declaresQ]

theorem queryArgStmts_noDecl (errRet : List Code) (n j : Nat) (q : Param) (seg : List Code)
    (h : queryArgStmts errRet n j q = .ok seg) : ∀ c ∈ seg, declaresQ c = false := by
  unfold queryArgStmts at h
  simp only [bind, Except.bind] at h
  split at h
  · split at h
    · simp only [Except.ok.injEq] at h
      subst h
      unfold lineIf
      split <;> simp [declaresQ, ifErrReturn]
    · split at h
      · cases h
      · simp only [Except.ok.injEq] at h
        subst h
        simp [declaresQ]
  · split at h
    · split at h
      · cases h
      · simp only [Except.ok.injEq] at h
        subst h
        unfold lineIf
        split <;> simp [declaresQ]
    · cases h
  · cases h

theorem headerArgStmts_noDecl (errRet : List Code) (n j : Nat) (p : Param) (seg : List Code)
    (h : headerArgStmts errRet n j p = .ok seg) : ∀ c ∈ seg, declaresQ c = false := by
  unfold headerArgStmts at h
  simp only [bind, Except.bind] at h
  split at h
  · split at h
    · simp only [Except.ok.injEq] at h
      subst h
      simp [declaresQ, ifErrReturn]
    · split at h
      · cases h
      · simp only [Except.ok.injEq] at h
        subst h
        unfold lineIf
        split <;> simp [declaresQ]
  · cases h

theorem segs_noDecl {α : Type} (R : α → List Code → Prop) (args : List α)
    (segs : List (List Code)) (hall : List.Forall₂ R args segs)
    (hR : ∀ a seg, R a seg → ∀ c ∈ seg, declaresQ c = false) :
    segs.flatten.countP declaresQ = 0 := by
  rw [List.countP_eq_zero]
  induction hall with
  | nil => simp
  | cons hab _ ih =>
    intro c hc
    simp only [List.flatten_cons, List.mem_append] at hc
    rcases hc with hc | hc
    · simp [hR _ _ hab c hc]
    · exact ih c hc

theorem setQueryArgs_decl (errRet : List Code) (args : List Param) (qs : List Code)
    (h : setQueryArgs errRet args = .ok qs) :
    (args = [] ∧ qs = []) ∨
    (args ≠ [] ∧ qs.countP declaresQ = 1 ∧
      Code.Stmt [.Id "q", .Op ":=", .Make [.Stmt [.Qual "net/url" "Values"]]] ∈ qs) := by
  rcases setQueryArgs_head errRet args qs h with h0 | ⟨ha, segs, hq, hall⟩
  · exact Or.inl h0
  · right
    have hz := segs_noDecl _ args segs hall
      (fun q seg hr => by
        obtain ⟨j, hj⟩ := hr
        exact queryArgStmts_noDecl errRet _ j q seg hj)
    refine ⟨ha, ?_, by simp [hq]⟩
    rw [hq, List.countP_append, hz]
    simp [List.countP_cons, declaresQ]

theorem setHeaderArgs_noDecl (errRet : List Code) (args : List Param) (hs : List Code)
    (h : setHeaderArgs errRet args = .ok hs) : hs.countP declaresQ = 0 := by
  obtain ⟨segs, hg, hall⟩ := setHeaderArgsLoop_segs errRet _ args 0 [] hs h
  simp only [List.nil_append] at hg
  rw [hg]
  exact segs_noDecl _ args segs hall
    (fun p seg hr => by
      obtain ⟨j, hj⟩ := hr
      exact headerArgStmts_noDecl errRet _ j p seg hj)

theorem extends_step (b : Prop) [Decidable b] (g extra more : List Code) (line : Code) :
    ∃ m, (if b then g ++ [line] else g) ++ extra ++ more = g ++ m := by
  split
  · exact ⟨[line] ++ extra ++ more, by simp⟩
  · exact ⟨extra ++ more, by simp⟩

theorem setOptQueryArgsLoop_extends (errRet : List Code) (args : List Field) :
    ∀ (i : Nat) (g g1 : List Code), setOptQueryArgsLoop errRet i args g = .ok g1 →
      ∃ more, g1 = g ++ more := by
  induction args with
  | nil =>
    intro i g g1 h
    simp only [setOptQueryArgsLoop, Except.ok.injEq] at h
    exact ⟨[], by simp [h]⟩
  | cons q rest ih =>
    intro i g g1 h
    simp only [setOptQueryArgsLoop, bind, Except.bind] at h
    split at h
    · split at h
      · split at h
        · obtain ⟨more, hm⟩ := ih _ _ _ h
          rw [hm]
          exact extends_step _ _ _ _ _
        · split at h
          · cases h
          · obtain ⟨more, hm⟩ := ih _ _ _ h
            rw [hm]
            exact extends_step _ _ _ _ _
      · split at h
        · split at h
          · cases h
          · obtain ⟨more, hm⟩ := ih _ _ _ h
            rw [hm]
            exact extends_step _ _ _ _ _
        · cases h
      · cases h
    · cases h

theorem setOptQueryArgs_decl (errRet : List Code) (qDefined : Bool) (args : List Field)
    (r : List Code × Code) (h : setOptQueryArgs errRet qDefined args = .ok r) :
    (args = [] ∧ r.1 = [] ∧ r.2 = (if qDefined then Code.Stmt [.Id "q"] else .Stmt [.Nil])) ∨
    (args ≠ [] ∧ r.2 = .Stmt [.Id "q"] ∧
      ((qDefined = true ∧ r.1.countP declaresQ = 0) ∨
       (qDefined = false ∧ r.1.countP declaresQ = 1 ∧ ∃ more,
          r.1 = [.Stmt [.Line],
                 .Stmt [.Var, .Id "q", .Qual "net/url" "Values"],
                 .Stmt [.If [.Stmt [.Id "opts", .Op "!=", .Nil]],
                   .Block (.Stmt [.Stmt [.Id "q", .Op "=",
                     .Make [.Stmt [.Qual "net/url" "Values"]]]] :: more)]]))) := by
  unfold setOptQueryArgs at h
  by_cases h0 : args.length = 0
  · left
    have ha : args = [] := List.length_eq_zero.mp h0
    cases qDefined <;> simp [h0] at h <;> subst h <;> simp [ha]
  · right
    refine ⟨fun hn => h0 (by simp [hn]), ?_⟩
    simp only [h0, if_false, bind, Except.bind] at h
    split at h
    · cases h
    · rename_i blk hblk
      simp only [Except.ok.injEq] at h
      subst h
      refine ⟨rfl, ?_⟩
      obtain ⟨more, hmore⟩ := setOptQueryArgsLoop_extends errRet args 0 _ blk hblk
      cases qDefined with
      | true => left; simp [List.countP_cons, declaresQ]
      | false =>
        right
        refine ⟨rfl, by simp [List.countP_cons, declaresQ], more, ?_⟩
        simp [hmore]

theorem returnShape_noDecl (env : Env) (ret0 : Ty) (n : Nat) (errRet successRets : List Code)
    (sh : Shape) (h : returnShape env ret0 n errRet successRets = .ok sh) :
    sh.g.countP declaresQ = 0 := by
  rcases returnShape_g env ret0 n errRet successRets sh h with hg | ⟨decl, hg⟩
  · simp [hg]
  · simp [hg, List.countP_cons, declaresQ]

theorem query_decl_cases (errRet : List Code) (req : List Param) (opt : List Field)
    (qs : List Code) (oq : List Code × Code)
    (hqs : setQueryArgs errRet req = .ok qs)
    (hoq : setOptQueryArgs errRet (decide (req.length > 0)) opt = .ok oq) :
    (oq.2 = .Stmt [.Id "q"] ∨ oq.2 = .Stmt [.Nil]) ∧
    (oq.2 = .Stmt [.Id "q"] ↔ (req ≠ [] ∨ opt ≠ [])) ∧
    (req ≠ [] → (qs ++ oq.1).countP declaresQ = 1 ∧
      Code.Stmt [.Id "q", .Op ":=", .Make [.Stmt [.Qual "net/url" "Values"]]] ∈ qs) ∧
    (req = [] → opt ≠ [] → qs = [] ∧ oq.1.countP declaresQ = 1 ∧ ∃ more,
      oq.1 = [.Stmt [.Line],
              .Stmt [.Var, .Id "q", .Qual "net/url" "Values"],
              .Stmt [.If [.Stmt [.Id "opts", .Op "!=", .Nil]],
                .Block (.Stmt [.Stmt [.Id "q", .Op "=",
                  .Make [.Stmt [.Qual "net/url" "Values"]]]] :: more)]]) ∧
    (req = [] → opt = [] → qs = [] ∧ oq.1 = []) := by
  have hqd := setQueryArgs_decl errRet req qs hqs
  have hod := setOptQueryArgs_decl errRet _ opt oq hoq
  rcases hqd with ⟨ha, hq0⟩ | ⟨ha, hc1, hmem⟩
  · -- no required query parameter
    subst ha
    subst hq0
    simp only [List.length_nil, gt_iff_lt, lt_self_iff_false, decide_False] at hod
    rcases hod with ⟨hb, ho1, ho2⟩ | ⟨hb, ho2, ⟨hd, _⟩ | ⟨_, hc, more, hform⟩⟩
    · subst hb
      simp only [Bool.false_eq_true, if_false] at ho2
      refine ⟨Or.inr ho2, ?_, ?_, ?_, ?_⟩
      · rw [ho2]; simp
      · intro hne; exact absurd rfl hne
      · intro _ hne; exact absurd rfl hne
      · intro _ _; exact ⟨rfl, ho1⟩
    · cases hd
    · refine ⟨Or.inl ho2, ?_, ?_, ?_, ?_⟩
      · rw [ho2]; simp [hb]
      · intro hne; exact absurd rfl hne
      · intro _ _; exact ⟨rfl, hc, more, hform⟩
      · intro _ he; exact absurd he hb
  · -- some required query parameter
    have hdef : decide (req.length > 0) = true := by
      cases req with
      | nil => exact absurd rfl ha
      | cons a as => simp
    rw [hdef] at hod
    rcases hod with ⟨hb, ho1, ho2⟩ | ⟨hb, ho2, ⟨_, hc0⟩ | ⟨hd, _⟩⟩
    · simp only [if_true] at ho2
      refine ⟨Or.inl ho2, ?_, ?_, ?_, ?_⟩
      · rw [ho2]; simp [ha]
      · intro _
        rw [List.countP_append, hc1, ho1]
        exact ⟨rfl, hmem⟩
      · intro he; exact absurd he ha
      · intro he; exact absurd he ha
    · refine ⟨Or.inl ho2, ?_, ?_, ?_, ?_⟩
      · rw [ho2]; simp [ha]
      · intro _
        rw [List.countP_append, hc1, hc0]
        exact ⟨rfl, hmem⟩
      · intro he; exact absurd he ha
      · intro he; exact absurd he ha
    · cases hd

/-- C20: in every synthesized method the query argument of `NewRequest` is
`q` when the method has a required query parameter or an optional query
field, and `nil` otherwise. When it is `q`, exactly one top-level statement
before the `NewRequest` call declares `q`: `q := make(url.Values)` when there
is a required query parameter, and otherwise `var q url.Values`, followed by
the `opts != nil` block that starts with `q = make(url.Values)`. No
statement after the call declares `q`, and none does when the argument is
`nil`. -/
theorem convertClientMethod_query_declared_iff_used (env : Env) (m : Method)
    (decls : List TypeDecl) (out : List Code) (h : convertClientMethod env m decls = .ok out) :
    ∃ (ps : ParamState) (sh : Shape) (pre post params rets : List Code) (qref : Code),
      paramsLoop env decls m.Params
        ⟨[], [], [], [], .Stmt [.Nil], [.Stmt [.Id "ctx", .Qual "context" "Context"]]⟩ =
          .ok ps ∧
      out =
        [.Stmt [.Comment (env.formatComment m.Comment)],
         .Stmt [.Func, .Params [.Stmt [.Id m.Receiver.ID, .Op "*", .Id m.Receiver.Typ]],
           .Id m.Name, .Params params, .Params rets,
           .Block (pre ++
             [.Stmt [.Stmt sh.reqDef],
              .Stmt [.Lst [.Stmt [.Id "req"], .Stmt sh.errResp], .Op sh.reqOp,
                .Id m.Receiver.ID, .Dot "backend", .Dot "NewRequest",
                .Call [.Stmt [.Qual "net/http" ("Method" ++ m.HTTPMethod)],
                       .Stmt [.Id "p"], qref, ps.body]]] ++
             post)]] ∧
      (qref = .Stmt [.Id "q"] ∨ qref = .Stmt [.Nil]) ∧
      (qref = .Stmt [.Id "q"] ↔
        (m.Params.filter (fun p => decide (p.Kind = Kind.Query)) ≠ [] ∨
         ps.optQueryArgs ≠ [])) ∧
      (m.Params.filter (fun p => decide (p.Kind = Kind.Query)) ≠ [] →
        pre.countP declaresQ = 1 ∧
        Code.Stmt [.Id "q", .Op ":=", .Make [.Stmt [.Qual "net/url" "Values"]]] ∈ pre) ∧
      (m.Params.filter (fun p => decide (p.Kind = Kind.Query)) = [] →
        ps.optQueryArgs ≠ [] →
        pre.countP declaresQ = 1 ∧ ∃ init more, pre = init ++
          [.Stmt [.Line],
           .Stmt [.Var, .Id "q", .Qual "net/url" "Values"],
           .Stmt [.If [.Stmt [.Id "opts", .Op "!=", .Nil]],
             .Block (.Stmt [.Stmt [.Id "q", .Op "=",
               .Make [.Stmt [.Qual "net/url" "Values"]]]] :: more)]]) ∧
      (m.Params.filter (fun p => decide (p.Kind = Kind.Query)) = [] →
        ps.optQueryArgs = [] → pre.countP declaresQ = 0) ∧
      post.countP declaresQ = 0 := by
  obtain ⟨ps, errRet0, body, hps, _, hbody, hout⟩ := convertClientMethod_inv env m decls out h
  obtain ⟨ret0, retTail, sh, qs, oq, hs, sel, _, hsh, hqs, hoq, hhs, _, hb⟩ :=
    methodBlock_inv env m ps errRet0 _ body hbody
  obtain ⟨_, hq, _, _⟩ := paramsLoop_spec env decls m.Params _ _ hps
  simp only [List.nil_append] at hq
  rw [hq] at hqs hoq
  obtain ⟨c1, c2, c3, c4, c5⟩ := query_decl_cases sh.errRet _ ps.optQueryArgs qs oq hqs hoq
  have hg := returnShape_noDecl env _ _ _ _ sh hsh
  have hp := setPathArgs_noDecl sh.errRet m.Path ps.fmtArgs
  have hh := setHeaderArgs_noDecl sh.errRet ps.headerArgs hs hhs
  refine ⟨ps, sh, sh.g ++ setPathArgs sh.errRet m.Path ps.fmtArgs ++ qs ++ oq.1,
    [errCheck sh.errResp sh.errRet, .Stmt [.Line]] ++ hs ++ respDefStmts sh.respDef ++
      [doStmt m sh sel] ++
      (if isIter ret0 then [] else [errCheck sh.errResp sh.errRet, .Stmt [.Line]]) ++
      [.Stmt [.Return sh.successRets]],
    ps.params, (retsLoop env m.Return [] []).1, oq.2, hps, ?_, c1, c2, ?_, ?_, ?_, ?_⟩
  · rw [hout, hb]
    simp [newRequestStmt]
  · intro hne
    obtain ⟨hc, hmem⟩ := c3 hne
    refine ⟨?_, by simp [hmem]⟩
    rw [List.append_assoc, List.countP_append, List.countP_append, hg, hp, hc]
  · intro he hne
    obtain ⟨hq0, hc, more, hform⟩ := c4 he hne
    refine ⟨?_, sh.g ++ setPathArgs sh.errRet m.Path ps.fmtArgs, more, ?_⟩
    · rw [List.countP_append, List.countP_append, List.countP_append, hg, hp, hc, hq0]
      rfl
    · rw [hq0, hform]
      simp
  · intro he hne
    obtain ⟨hq0, ho0⟩ := c5 he hne
    rw [hq0, ho0]
    simp [List.countP_append, hg, hp]
  · have hr : (respDefStmts sh.respDef).countP declaresQ = 0 := by
      unfold respDefStmts
      cases sh.respDef <;> simp [List.countP_cons, declaresQ]
    simp only [List.countP_append, hh, hr]
    cases isIter ret0 <;> simp [List.countP_cons, declaresQ, errCheck, doStmt]

theorem convertClientMethod_query_declared_iff_used_witness :
    ∃ out, convertClientMethod stdEnv exPointerMethod exDecls = .ok out ∧
    ∃ (ps : ParamState) (sh : Shape) (pre post params rets : List Code) (qref : Code),
      paramsLoop stdEnv exDecls exPointerMethod.Params
        ⟨[], [], [], [], .Stmt [.Nil], [.Stmt [.Id "ctx", .Qual "context" "Context"]]⟩ =
          .ok ps ∧
      out =
        [.Stmt [.Comment (stdEnv.formatComment exPointerMethod.Comment)],
         .Stmt [.Func,
           .Params [.Stmt [.Id exPointerMethod.Receiver.ID, .Op "*",
             .Id exPointerMethod.Receiver.Typ]],
           .Id exPointerMethod.Name, .Params params, .Params rets,
           .Block (pre ++
             [.Stmt [.Stmt sh.reqDef],
              .Stmt [.Lst [.Stmt [.Id "req"], .Stmt sh.errResp], .Op sh.reqOp,
                .Id exPointerMethod.Receiver.ID, .Dot "backend", .Dot "NewRequest",
                .Call [.Stmt [.Qual "net/http" ("Method" ++ exPointerMethod.HTTPMethod)],
                       .Stmt [.Id "p"], qref, ps.body]]] ++
             post)]] ∧
      (qref = .Stmt [.Id "q"] ∨ qref = .Stmt [.Nil]) ∧
      (qref = .Stmt [.Id "q"] ↔
        (exPointerMethod.Params.filter (fun p => decide (p.Kind = Kind.Query)) ≠ [] ∨
         ps.optQueryArgs ≠ [])) ∧
      (exPointerMethod.Params.filter (fun p => decide (p.Kind = Kind.Query)) ≠ [] →
        pre.countP declaresQ = 1 ∧
        Code.Stmt [.Id "q", .Op ":=", .Make [.Stmt [.Qual "net/url" "Values"]]] ∈ pre) ∧
      (exPointerMethod.Params.filter (fun p => decide (p.Kind = Kind.Query)) = [] →
        ps.optQueryArgs ≠ [] →
        pre.countP declaresQ = 1 ∧ ∃ init more, pre = init ++
          [.Stmt [.Line],
           .Stmt [.Var, .Id "q", .Qual "net/url" "Values"],
           .Stmt [.If [.Stmt [.Id "opts", .Op "!=", .Nil]],
             .Block (.Stmt [.Stmt [.Id "q", .Op "=",
               .Make [.Stmt [.Qual "net/url" "Values"]]]] :: more)]]) ∧
      (exPointerMethod.Params.filter (fun p => decide (p.Kind = Kind.Query)) = [] →
        ps.optQueryArgs = [] → pre.countP declaresQ = 0) ∧
      post.countP declaresQ = 0 :=
  ⟨_, rfl, convertClientMethod_query_declared_iff_used stdEnv exPointerMethod exDecls _ rfl⟩

end Writer
